import Mathlib

/-!
PETSc: Krylov convergence tests, the BiCGStab engine, the distributed-array
exchange layer and two sparse-matrix kernels.

A shallow embedding of `src/ksp/ksp/interface/iterativ.c` (the convergence
tests `KSPDefaultConverged`, `KSPSkipConverged`, the work-vector pool), of
`src/ksp/ksp/impls/bcgs/bcgs.c` (`KSPSetUp_BCGS`, `KSPSolve_BCGS`), of
`src/dm/da/src/dagtol.c` (the eight exchange operations of a DA), of
`dCompRow_to_CompCol` in `src/mat/impls/aij/mpi/superlu_dist.c`, and of
`MatMult_SeqSBAIJ_1_Hermitian_tmp` in `src/mat/examples/tests/ex127.c`.

The arithmetic of `PetscScalar` / `PetscReal` is a parameter (`Arith`): every
statement about the control flow of the solver holds for any arithmetic, and
statements that need an order or a field are made over `Arith.exact`, exact
arithmetic in a linearly ordered field (no rounding, no NaN).
The C `int` fields and counters are unbounded integers here (no wrap-around).
-/

namespace PETSc

/-! ## Data model -/

/-- Modelled from the spec: the enum `KSPConvergedReason` of `petscksp.h` (not part of
the sources at hand). The enumerators are the ones listed in the manual page of
`KSPGetConvergedReason` in `iterativ.c`, together with `KSP_CONVERGED_ITERATING`, the
value `0` that `if (ksp->reason)` tests against. -/
inductive KSPConvergedReason where
  | KSP_CONVERGED_RTOL
  | KSP_CONVERGED_ATOL
  | KSP_CONVERGED_ITS
  | KSP_CONVERGED_QCG_NEG_CURVE
  | KSP_CONVERGED_QCG_CONSTRAINED
  | KSP_CONVERGED_STEP_LENGTH
  | KSP_DIVERGED_ITS
  | KSP_DIVERGED_DTOL
  | KSP_DIVERGED_BREAKDOWN
  | KSP_DIVERGED_BREAKDOWN_BICG
  | KSP_CONVERGED_ITERATING
  deriving DecidableEq, Repr

open KSPConvergedReason

/-- The reasons documented as "negative value indicates diverged". -/
def KSPConvergedReason.isDiverged : KSPConvergedReason → Bool
  | KSP_DIVERGED_ITS => true
  | KSP_DIVERGED_DTOL => true
  | KSP_DIVERGED_BREAKDOWN => true
  | KSP_DIVERGED_BREAKDOWN_BICG => true
  | _ => false

/-- The reasons documented as "positive value converged". -/
def KSPConvergedReason.isConverged : KSPConvergedReason → Bool
  | KSP_CONVERGED_RTOL => true
  | KSP_CONVERGED_ATOL => true
  | KSP_CONVERGED_ITS => true
  | KSP_CONVERGED_QCG_NEG_CURVE => true
  | KSP_CONVERGED_QCG_CONSTRAINED => true
  | KSP_CONVERGED_STEP_LENGTH => true
  | _ => false

/-- Modelled from the spec: the enum `PCSide` (preconditioner side: left, right or
symmetric), declared in a header that is not part of the sources at hand. -/
inductive PCSide where
  | PC_LEFT
  | PC_RIGHT
  | PC_SYMMETRIC
  deriving DecidableEq, Repr

/-- Modelled from the spec: the enum `KSPNormType`, the flag saying whether residual norms
are computed at all (`KSP_NO_NORM`) and of which residual. -/
inductive KSPNormType where
  | KSP_NO_NORM
  | KSP_PRECONDITIONED_NORM
  | KSP_UNPRECONDITIONED_NORM
  | KSP_NATURAL_NORM
  deriving DecidableEq, Repr

/-- The arithmetic of `PetscScalar` and `PetscReal` as the code uses it: the constants `0.0`
and `1.0`, the four operations, unary minus, the square root taken by `VecNorm`, and the
comparisons `<`, `<=`, `==`. Nothing is assumed about them. -/
structure Arith (Sc : Type) where
  zero : Sc
  one : Sc
  add : Sc → Sc → Sc
  sub : Sc → Sc → Sc
  mul : Sc → Sc → Sc
  div : Sc → Sc → Sc
  neg : Sc → Sc
  sqrt : Sc → Sc
  lt : Sc → Sc → Bool
  le : Sc → Sc → Bool
  eq : Sc → Sc → Bool

/-- The C comparison `a >= b`, which is `b <= a`. -/
def Arith.ge {Sc : Type} (ar : Arith Sc) (a b : Sc) : Bool := ar.le b a

/-- The C comparison `a != b`, which is `!(a == b)`. -/
def Arith.ne {Sc : Type} (ar : Arith Sc) (a b : Sc) : Bool := !ar.eq a b

/-- Exact arithmetic in a linearly ordered field; the square root is a parameter because
the field need not have one. -/
def Arith.exact (α : Type) [LinearOrderedField α] (sqrt : α → α) : Arith α where
  zero := 0
  one := 1
  add := fun a b => a + b
  sub := fun a b => a - b
  mul := fun a b => a * b
  div := fun a b => a / b
  neg := fun a => -a
  sqrt := sqrt
  lt := fun a b => decide (a < b)
  le := fun a b => decide (a ≤ b)
  eq := fun a b => decide (a = b)

/-- Modelled from the spec: the macro `PetscMax(a,b)` of `petscmath.h`,
`((a)<(b)) ? (b) : (a)`. -/
def PetscMax {Sc : Type} (ar : Arith Sc) (a b : Sc) : Sc :=
  if ar.lt a b then b else a

/-- A PETSc vector, as the list of its entries. -/
abbrev Vec (Sc : Type) := List Sc

/-- What the solver does that an observer can see, in the order in which it happens: an
entry appended to the residual history (`KSPLogResidualHistory`), one notification of the
monitor chain (`KSPMonitor`), one call of the convergence test (`(*ksp->converged)`). -/
inductive Event (Sc : Type) where
  | history (rnorm : Sc)
  | monitor (it : Int) (rnorm : Sc)
  | converged (n : Int) (rnorm : Sc)
  deriving DecidableEq, Repr

/-- The fields of the solver context `KSP` that `iterativ.c` and `bcgs.c` read or write.
`vec_rhs` is unset (`none`) or the right-hand side; `work` is unset (`none`) or the array of
work vectors; `trace` records the observable events of a solve, oldest first. -/
structure KSP (Sc : Type) where
  vec_sol : Vec Sc
  vec_rhs : Option (Vec Sc)
  work : Option (List (Vec Sc))
  nwork : Int
  its : Int
  rnorm : Sc
  reason : KSPConvergedReason
  rtol : Sc
  atol : Sc
  divtol : Sc
  ttol : Sc
  rnorm0 : Sc
  max_it : Int
  normtype : KSPNormType
  pc_side : PCSide
  trace : List (Event Sc)
  deriving Repr

/-! ## Convergence tests (`iterativ.c`) -/

/-- The convergence test `KSPSkipConverged`: its body is empty, so the solver context and
the verdict behind the pointer `reason` come back as they were passed. -/
def KSPSkipConverged {Sc : Type} (ksp : KSP Sc) (_n : Int) (_rnorm : Sc)
    (reason : KSPConvergedReason) : KSP Sc × KSPConvergedReason :=
  (ksp, reason)

/-- The convergence test `KSPDefaultConverged`. `reason` is the content of the output
pointer on entry; the result is the solver context and the content of the pointer on
return. -/
def KSPDefaultConverged {Sc : Type} (ar : Arith Sc) (ksp : KSP Sc) (n : Int) (rnorm : Sc)
    (_reason : KSPConvergedReason) : KSP Sc × KSPConvergedReason :=
  let reason := KSP_CONVERGED_ITERATING
  let ksp := if n = 0 then
      { ksp with ttol := PetscMax ar (ar.mul ksp.rtol rnorm) ksp.atol, rnorm0 := rnorm }
    else ksp
  if ar.le rnorm ksp.ttol then
    if ar.lt rnorm ksp.atol then (ksp, KSP_CONVERGED_ATOL)
    else (ksp, KSP_CONVERGED_RTOL)
  else if ar.ge rnorm (ar.mul ksp.divtol ksp.rnorm0) then (ksp, KSP_DIVERGED_DTOL)
  else if ar.ne rnorm rnorm then (ksp, KSP_DIVERGED_DTOL)
  else (ksp, reason)

/-! ## Vector and operator primitives -/

/-- Modelled from the spec: `VecDot(x,y,&val)`, the inner product `<x,y>` (real scalars),
accumulated from `0.0` over the entries in order. -/
def VecDot {Sc : Type} (ar : Arith Sc) (x y : Vec Sc) : Sc :=
  (List.zipWith ar.mul x y).foldl ar.add ar.zero

/-- Modelled from the spec: `VecNorm(x,NORM_2,&val)`, the 2-norm `sqrt(<x,x>)`. -/
def VecNorm {Sc : Type} (ar : Arith Sc) (x : Vec Sc) : Sc :=
  ar.sqrt (VecDot ar x x)

/-- Modelled from the spec: `VecAXPY(&a,x,y)`, which overwrites `y` with `y + a x`; the
result is the new `y`. -/
def VecAXPY {Sc : Type} (ar : Arith Sc) (a : Sc) (x y : Vec Sc) : Vec Sc :=
  List.zipWith (fun xi yi => ar.add yi (ar.mul a xi)) x y

/-- Modelled from the spec: `VecAYPX(&a,x,y)`, which overwrites `y` with `x + a y`; the
result is the new `y`. -/
def VecAYPX {Sc : Type} (ar : Arith Sc) (a : Sc) (x y : Vec Sc) : Vec Sc :=
  List.zipWith (fun xi yi => ar.add xi (ar.mul a yi)) x y

/-- Modelled from the spec: `VecWAXPY(&a,x,y,w)`, which writes `w = a x + y`; the result is
the new `w`. -/
def VecWAXPY {Sc : Type} (ar : Arith Sc) (a : Sc) (x y : Vec Sc) : Vec Sc :=
  List.zipWith (fun xi yi => ar.add (ar.mul a xi) yi) x y

/-- Modelled from the spec: `VecCopy(x,y)`, which overwrites `y` with `x`; the result is the
new `y`. -/
def VecCopy {Sc : Type} (x : Vec Sc) : Vec Sc := x

/-- Modelled from the spec: `VecSet(&a,x)`, which sets every entry of `x` to `a`; the result
is the new `x`. -/
def VecSet {Sc : Type} (a : Sc) (x : Vec Sc) : Vec Sc := x.map (fun _ => a)

/-- The operator and the preconditioner of a solve, each an arbitrary map on vectors:
`MatMult` is the application of the operator, `PCApply` of the preconditioner, and
`PCApplySymmetricLeft` / `PCApplySymmetricRight` of its two halves. -/
structure LinOps (Sc : Type) where
  MatMult : Vec Sc → Vec Sc
  PCApply : Vec Sc → Vec Sc
  PCApplySymmetricLeft : Vec Sc → Vec Sc
  PCApplySymmetricRight : Vec Sc → Vec Sc

/-- Modelled from the spec: the macro `KSP_PCApplyBAorAB(ksp,x,y,w)` of `kspimpl.h`, the
operator composed with the preconditioner on the configured side, with `w` as scratch
vector. The result is the pair (new `y`, new `w`). -/
def KSP_PCApplyBAorAB {Sc : Type} (ops : LinOps Sc) (side : PCSide) (x : Vec Sc) :
    Vec Sc × Vec Sc :=
  match side with
  | PCSide.PC_LEFT => let w := ops.MatMult x; (ops.PCApply w, w)
  | PCSide.PC_RIGHT => let w := ops.PCApply x; (ops.MatMult w, w)
  | PCSide.PC_SYMMETRIC =>
    let w := ops.MatMult (ops.PCApplySymmetricRight x)
    (ops.PCApplySymmetricLeft w, w)

/-- Modelled from the spec: `KSPInitialResidual(ksp,vsoln,vt1,vt2,vres,vb)`, the
preconditioned initial residual: apply the operator (`vt1 = A vsoln`), subtract from the
right-hand side (`vt2 = vb - vt1`), and apply the preconditioner unless it acts on the
right. The result is the triple (new `vt1`, new `vt2`, new `vres`). -/
def KSPInitialResidual {Sc : Type} (ar : Arith Sc) (ops : LinOps Sc) (side : PCSide)
    (vsoln vb : Vec Sc) : Vec Sc × Vec Sc × Vec Sc :=
  let vt1 := ops.MatMult vsoln
  let vt2 := VecAXPY ar (ar.neg ar.one) vt1 (VecCopy vb)
  let vres := match side with
    | PCSide.PC_LEFT => ops.PCApply vt2
    | PCSide.PC_RIGHT => VecCopy vt2
    | PCSide.PC_SYMMETRIC => ops.PCApplySymmetricLeft vt2
  (vt1, vt2, vres)

/-- Modelled from the spec: `KSPUnwindPreconditioner(ksp,vsoln,vt1)`, which un-applies a
right or symmetric preconditioning transform, through the scratch vector `vt1`. The result
is the pair (new `vsoln`, new `vt1`). -/
def KSPUnwindPreconditioner {Sc : Type} (ops : LinOps Sc) (side : PCSide)
    (vsoln vt1 : Vec Sc) : Vec Sc × Vec Sc :=
  match side with
  | PCSide.PC_LEFT => (vsoln, vt1)
  | PCSide.PC_RIGHT => let w := ops.PCApply vsoln; (VecCopy w, w)
  | PCSide.PC_SYMMETRIC => let w := ops.PCApplySymmetricRight vsoln; (VecCopy w, w)

/-- Modelled from the spec: the macro `KSPLogResidualHistory(ksp,norm)`, which appends
`norm` to the residual history. -/
def KSPLogResidualHistory {Sc : Type} (ksp : KSP Sc) (norm : Sc) : KSP Sc :=
  { ksp with trace := ksp.trace ++ [Event.history norm] }

/-- Modelled from the spec: the macro `KSPMonitor(ksp,it,rnorm)`, which notifies the
monitor chain with `(it, rnorm)`; monitors do not change the solver. -/
def KSPMonitor {Sc : Type} (ksp : KSP Sc) (it : Int) (rnorm : Sc) : KSP Sc :=
  { ksp with trace := ksp.trace ++ [Event.monitor it rnorm] }

/-- The type of a convergence test, `(*ksp->converged)(ksp,n,rnorm,&reason,ctx)`: from the
solver context, the iteration number, the residual norm and the verdict behind the output
pointer to the solver context and the verdict afterwards. -/
abbrev ConvergedTest (Sc : Type) :=
  KSP Sc → Int → Sc → KSPConvergedReason → KSP Sc × KSPConvergedReason

/-- The call `(*ksp->converged)(ksp,n,rnorm,&ksp->reason,ksp->cnvP)`. The output pointer
is `&ksp->reason`; of the solver context a test may update the convergence baseline
`ttol`, `rnorm0` (as `KSPDefaultConverged` does), nothing else. -/
def callConverged {Sc : Type} (converged : ConvergedTest Sc) (ksp : KSP Sc) (n : Int)
    (rnorm : Sc) : KSP Sc :=
  let out := converged ksp n rnorm ksp.reason
  { ksp with ttol := out.1.ttol, rnorm0 := out.1.rnorm0, reason := out.2,
             trace := ksp.trace ++ [Event.converged n rnorm] }

/-- The entry `ksp->work[k]`; the work vectors are in place when the solve starts
(`KSPSetUp_BCGS`), so the default is never used in a solve that was set up. -/
def KSP.workVec {Sc : Type} (ksp : KSP Sc) (k : Nat) : Vec Sc :=
  (ksp.work.getD []).getD k []

/-! ## BiCGStab (`bcgs.c`) -/

/-- The state of `KSPSolve_BCGS` between two statements: the solver context, the vectors
behind the local names `X`, `R`, `RP`, `V`, `T`, `S`, `P` (aliases of `ksp->vec_sol` and of
`ksp->work[0..5]`), and the local scalars that live across iterations. The scalars `rho`,
`beta`, `omega`, `d1`, `d2`, `tmp` are written before they are read in every iteration and
are local to the loop body here. -/
structure BCGS (Sc : Type) where
  ksp : KSP Sc
  X : Vec Sc
  R : Vec Sc
  RP : Vec Sc
  V : Vec Sc
  T : Vec Sc
  S : Vec Sc
  P : Vec Sc
  rhoold : Sc
  alpha : Sc
  omegaold : Sc
  dp : Sc
  deriving Repr

/-- The solver context with the vectors written back behind `ksp->vec_sol` and
`ksp->work[0..5]` (`R`, `RP`, `V`, `T`, `S`, `P` in this order). -/
def BCGS.store {Sc : Type} (st : BCGS Sc) : KSP Sc :=
  { st.ksp with
    vec_sol := st.X
    work := some ([st.R, st.RP, st.V, st.T, st.S, st.P] ++ (st.ksp.work.getD []).drop 6) }

/-- One pass through the body of the `do ... while` loop of `KSPSolve_BCGS`, from
`VecDot(R,RP,&rho)` to `if (ksp->reason) break;`, at loop counter `i`. The result is the
state after the pass and whether the loop was left by a `break`. -/
def KSPSolve_BCGS.body {Sc : Type} (ar : Arith Sc) (ops : LinOps Sc)
    (converged : ConvergedTest Sc) (i : Int) (st : BCGS Sc) : BCGS Sc × Bool :=
  let rho := VecDot ar st.R st.RP
  if ar.eq rho ar.zero then
    ({ st with ksp := { st.ksp with reason := KSP_DIVERGED_BREAKDOWN } }, true)
  else
    let beta := ar.mul (ar.div rho st.rhoold) (ar.div st.alpha st.omegaold)
    let tmp := ar.neg st.omegaold
    let P := VecAXPY ar tmp st.V st.P
    let P := VecAYPX ar beta st.R P
    let VT := KSP_PCApplyBAorAB ops st.ksp.pc_side P
    let V := VT.1
    let d1 := VecDot ar V st.RP
    let alpha := ar.div rho d1
    let tmp := ar.neg alpha
    let S := VecWAXPY ar tmp V st.R
    let TR := KSP_PCApplyBAorAB ops st.ksp.pc_side S
    let T := TR.1
    let R := TR.2
    let d1 := VecDot ar S T
    let d2 := VecDot ar T T
    if ar.eq d2 ar.zero then
      let d1 := VecDot ar S S
      if ar.eq d1 ar.zero then
        ({ st with ksp := { st.ksp with reason := KSP_DIVERGED_BREAKDOWN },
                   R := R, V := V, T := T, S := S, P := P, alpha := alpha }, true)
      else
        let X := VecAXPY ar alpha P st.X
        let ksp := { st.ksp with its := st.ksp.its + 1, rnorm := ar.zero,
                                 reason := KSP_CONVERGED_RTOL }
        let ksp := KSPLogResidualHistory ksp st.dp
        let ksp := KSPMonitor ksp (i + 1) ar.zero
        ({ st with ksp := ksp, X := X, R := R, V := V, T := T, S := S, P := P,
                   alpha := alpha }, true)
    else
      let omega := ar.div d1 d2
      let X := VecAXPY ar alpha P st.X
      let X := VecAXPY ar omega S X
      let tmp := ar.neg omega
      let R := VecWAXPY ar tmp T S
      let dp := if st.ksp.normtype ≠ KSPNormType.KSP_NO_NORM then VecNorm ar R else st.dp
      let ksp := { st.ksp with its := st.ksp.its + 1, rnorm := dp }
      let ksp := KSPLogResidualHistory ksp dp
      let ksp := KSPMonitor ksp (i + 1) dp
      let ksp := callConverged converged ksp (i + 1) dp
      ({ ksp := ksp, X := X, R := R, RP := st.RP, V := V, T := T, S := S, P := P,
         rhoold := rho, alpha := alpha, omegaold := omega, dp := dp },
       decide (ksp.reason ≠ KSP_CONVERGED_ITERATING))

/-- The loop `i=0; do { body; i++; } while (i<ksp->max_it);` of `KSPSolve_BCGS`, entered at
counter `i`. `ksp->max_it` is not written during a solve and is passed as `max_it`. The
result is the counter and the state when the loop is left. -/
def KSPSolve_BCGS.loop {Sc : Type} (ar : Arith Sc) (ops : LinOps Sc)
    (converged : ConvergedTest Sc) (max_it : Int) (i : Int) (st : BCGS Sc) :
    Int × BCGS Sc :=
  let out := KSPSolve_BCGS.body ar ops converged i st
  if out.2 then (i, out.1)
  else if i + 1 < max_it then KSPSolve_BCGS.loop ar ops converged max_it (i + 1) out.1
  else (i + 1, out.1)
termination_by (max_it - i).toNat
decreasing_by omega

/-- The residual norm `dp` that `KSPSolve_BCGS` computes for iteration 0: the 2-norm of the
initial residual, or the initial value `0.0` of `dp` when norms are switched off. -/
def KSPSolve_BCGS.initialNorm {Sc : Type} (ar : Arith Sc) (ops : LinOps Sc) (ksp : KSP Sc) :
    Sc :=
  let res := KSPInitialResidual ar ops ksp.pc_side ksp.vec_sol (ksp.vec_rhs.getD [])
  if ksp.normtype ≠ KSPNormType.KSP_NO_NORM then VecNorm ar res.2.2 else ar.zero

/-- The first part of `KSPSolve_BCGS`, from its first statement to the call of the
convergence test for iteration 0: the state in which `if (ksp->reason)` is evaluated. The
aliases `R`, `V`, `T` of `ksp->work[0]`, `ksp->work[2]`, `ksp->work[3]` are first read
after `KSPInitialResidual` has written them; the three local scalars are not initialised
yet and carry the value `1.0` they are given next. The right-hand side `ksp->vec_rhs` is
set when a solve starts, so the default is never used. -/
def KSPSolve_BCGS.start {Sc : Type} (ar : Arith Sc) (ops : LinOps Sc)
    (converged : ConvergedTest Sc) (ksp : KSP Sc) : BCGS Sc :=
  let X := ksp.vec_sol
  let B := ksp.vec_rhs.getD []
  let RP := ksp.workVec 1
  let S := ksp.workVec 4
  let P := ksp.workVec 5
  let res := KSPInitialResidual ar ops ksp.pc_side X B
  let V := res.1
  let T := res.2.1
  let R := res.2.2
  let dp := if ksp.normtype ≠ KSPNormType.KSP_NO_NORM then VecNorm ar R else ar.zero
  let ksp := { ksp with its := 0, rnorm := dp }
  let ksp := KSPLogResidualHistory ksp dp
  let ksp := KSPMonitor ksp 0 dp
  let ksp := callConverged converged ksp 0 dp
  { ksp := ksp, X := X, R := R, RP := RP, V := V, T := T, S := S, P := P,
    rhoold := ar.one, alpha := ar.one, omegaold := ar.one, dp := dp }

/-- The statements of `KSPSolve_BCGS` between the test for nothing to do and the loop:
`VecCopy(R,RP)`, the three scalars set to `1.0`, `P` and `V` set to zero. -/
def KSPSolve_BCGS.enter {Sc : Type} (ar : Arith Sc) (st : BCGS Sc) : BCGS Sc :=
  { st with RP := VecCopy st.R, rhoold := ar.one, alpha := ar.one, omegaold := ar.one,
            P := VecSet ar.zero st.P, V := VecSet ar.zero st.V }

/-- The statements of `KSPSolve_BCGS` after the loop, which was left at counter `i` in
state `st`: the assignment of `KSP_DIVERGED_ITS` when `i == ksp->max_it`, and
`KSPUnwindPreconditioner(ksp,X,T)`. The result is the solver context at return. -/
def KSPSolve_BCGS.finish {Sc : Type} (ops : LinOps Sc) (i : Int) (st : BCGS Sc) : KSP Sc :=
  let st := if i = st.ksp.max_it then
      { st with ksp := { st.ksp with reason := KSP_DIVERGED_ITS } }
    else st
  let XT := KSPUnwindPreconditioner ops st.ksp.pc_side st.X st.T
  BCGS.store { st with X := XT.1, T := XT.2 }

/-- The solve `KSPSolve_BCGS(ksp)` with operator and preconditioner `ops` and convergence
test `converged`; the result is the solver context at return. -/
def KSPSolve_BCGS {Sc : Type} (ar : Arith Sc) (ops : LinOps Sc)
    (converged : ConvergedTest Sc) (ksp : KSP Sc) : KSP Sc :=
  let st := KSPSolve_BCGS.start ar ops converged ksp
  if st.ksp.reason ≠ KSP_CONVERGED_ITERATING then BCGS.store st
  else
    let out := KSPSolve_BCGS.loop ar ops converged st.ksp.max_it 0 (KSPSolve_BCGS.enter ar st)
    KSPSolve_BCGS.finish ops out.1 out.2

/-- The state after the first `k` passes through the loop body of `KSPSolve_BCGS`, started
in state `st` at counter `0` (pass number `j + 1` runs at counter `j`). -/
def KSPSolve_BCGS.passes {Sc : Type} (ar : Arith Sc) (ops : LinOps Sc)
    (converged : ConvergedTest Sc) : Nat → BCGS Sc → BCGS Sc
  | 0, st => st
  | k + 1, st =>
    (KSPSolve_BCGS.body ar ops converged (k : Int)
      (KSPSolve_BCGS.passes ar ops converged k st)).1

/-! ## A second arithmetic, and the inputs of the worked examples -/

/-- Exact rational arithmetic completed by one not-a-number value, `none`: a division by
zero and the square root of a negative number give it, every operation propagates it, and
every comparison with it, `==` included, is false. -/
def Arith.withNaN (sqrt : ℚ → ℚ) : Arith (Option ℚ) where
  zero := some 0
  one := some 1
  add := fun a b => match a, b with
    | some x, some y => some (x + y)
    | _, _ => none
  sub := fun a b => match a, b with
    | some x, some y => some (x - y)
    | _, _ => none
  mul := fun a b => match a, b with
    | some x, some y => some (x * y)
    | _, _ => none
  div := fun a b => match a, b with
    | some x, some y => if y = 0 then none else some (x / y)
    | _, _ => none
  neg := fun a => match a with
    | some x => some (-x)
    | none => none
  sqrt := fun a => match a with
    | some x => if x < 0 then none else some (sqrt x)
    | none => none
  lt := fun a b => match a, b with
    | some x, some y => decide (x < y)
    | _, _ => false
  le := fun a b => match a, b with
    | some x, some y => decide (x ≤ y)
    | _, _ => false
  eq := fun a b => match a, b with
    | some x, some y => decide (x = y)
    | _, _ => false

/-- A solver context as `KSPSolve_BCGS` finds it: initial guess `x0`, right-hand side `b`,
six work vectors of the layout of `b` (what `KSPSetUp_BCGS` asks for), the verdict
`KSP_CONVERGED_ITERATING`, left preconditioning (the side `KSPCreate_BCGS` sets), an empty
trace, and the given tolerances, iteration limit and norm type. -/
def KSP.ready {Sc : Type} (ar : Arith Sc) (x0 b : Vec Sc) (rtol atol divtol : Sc)
    (max_it : Int) (normtype : KSPNormType) : KSP Sc where
  vec_sol := x0
  vec_rhs := some b
  work := some (List.replicate 6 (VecSet ar.zero b))
  nwork := 6
  its := 0
  rnorm := ar.zero
  reason := KSP_CONVERGED_ITERATING
  rtol := rtol
  atol := atol
  divtol := divtol
  ttol := ar.zero
  rnorm0 := ar.zero
  max_it := max_it
  normtype := normtype
  pc_side := PCSide.PC_LEFT
  trace := []

/-- The identity as operator and as preconditioner. -/
def LinOps.identity (Sc : Type) : LinOps Sc where
  MatMult := fun v => v
  PCApply := fun v => v
  PCApplySymmetricLeft := fun v => v
  PCApplySymmetricRight := fun v => v

/-- The operator of a matrix given by its rows, with the identity as preconditioner: entry
`i` of the product is the inner product of row `i` with the vector. -/
def LinOps.ofRows {Sc : Type} (ar : Arith Sc) (rows : List (Vec Sc)) : LinOps Sc where
  MatMult := fun v => rows.map (fun row => VecDot ar row v)
  PCApply := fun v => v
  PCApplySymmetricLeft := fun v => v
  PCApplySymmetricRight := fun v => v

/-- The solver context of Scenario B and D: `rtol = 1e-6`, `atol = 1e-12`, `divtol = 1e4`
(no vectors are involved in a convergence test). -/
def scenarioB : KSP ℚ :=
  KSP.ready (Arith.exact ℚ Rat.sqrt) [] [] (1 / 1000000) (1 / 1000000000000) 10000 100
    KSPNormType.KSP_PRECONDITIONED_NORM

/-- The indices `n` of the calls of the convergence test recorded in a trace, in order. -/
def convergedCalls {Sc : Type} (tr : List (Event Sc)) : List Int :=
  tr.filterMap (fun e => match e with
    | Event.converged n _ => some n
    | _ => none)

/-- Scenario B after the call for iteration 0 with residual norm `10`. -/
def scenarioB1 : KSP ℚ × KSPConvergedReason :=
  KSPDefaultConverged (Arith.exact ℚ Rat.sqrt) scenarioB 0 10 KSP_CONVERGED_ITERATING

/-- Scenario B after the call for iteration 1 with residual norm `1`. -/
def scenarioB2 : KSP ℚ × KSPConvergedReason :=
  KSPDefaultConverged (Arith.exact ℚ Rat.sqrt) scenarioB1.1 1 1 scenarioB1.2

/-- Scenario D after the call for iteration 0 with residual norm `1`. -/
def scenarioD1 : KSP ℚ × KSPConvergedReason :=
  KSPDefaultConverged (Arith.exact ℚ Rat.sqrt) scenarioB 0 1 KSP_CONVERGED_ITERATING

/-- Exact rational arithmetic; the square root is the rational one, which is exact on the
squares of rationals. -/
def Arith.rat : Arith ℚ := Arith.exact ℚ Rat.sqrt

/-- The 1x1 system `[1] x = [1]` with initial guess `0`, default tolerances of Scenario B. -/
def degenerateKSP : KSP ℚ :=
  KSP.ready Arith.rat [0] [1] (1 / 1000000) (1 / 1000000000000) 10000 100
    KSPNormType.KSP_PRECONDITIONED_NORM

/-- Scenario C for the identity matrix, in any linearly ordered field: `A = I` (2x2),
`b = A [1,1] = [1,1]`, initial guess `0`, `rtol = 1e-6`, `atol = 1e-12`, `divtol = 1e4`,
`max_it = 4`, norms computed. -/
def scenarioC (α : Type) [LinearOrderedField α] (sqrt : α → α) : KSP α :=
  KSP.ready (Arith.exact α sqrt) [0, 0] [1, 1] (1 / 1000000) (1 / 1000000000000) 10000 4
    KSPNormType.KSP_PRECONDITIONED_NORM

/-- The operator of the identity matrix of order 2, given by its rows. -/
def scenarioCOps (α : Type) [LinearOrderedField α] (sqrt : α → α) : LinOps α :=
  LinOps.ofRows (Arith.exact α sqrt) [[1, 0], [0, 1]]

/-- The system `[[1,1],[0,2]] x = [0,2]` with initial guess `0` and iteration limit `0`. -/
def overwriteKSP : KSP ℚ :=
  KSP.ready Arith.rat [0, 0] [0, 2] (1 / 1000000) (1 / 1000000000000) 10000 0
    KSPNormType.KSP_PRECONDITIONED_NORM

/-- The operator of the matrix `[[1,1],[0,2]]`. -/
def overwriteOps : LinOps ℚ := LinOps.ofRows Arith.rat [[1, 1], [0, 2]]

/-- The system `I x = [0,0]` with initial guess `0`, iteration limit `0`, norms switched
off (the setting in which `KSPSkipConverged` is the convergence test). -/
def zeroRhsKSP : KSP ℚ :=
  KSP.ready Arith.rat [0, 0] [0, 0] (1 / 1000000) (1 / 1000000000000) 10000 0
    KSPNormType.KSP_NO_NORM

/-- The system `diag(1,2) x = [1,1]` with initial guess `0`, iteration limit `0`, norms
switched off. -/
def limitZeroKSP : KSP ℚ :=
  KSP.ready Arith.rat [0, 0] [1, 1] (1 / 1000000) (1 / 1000000000000) 10000 0
    KSPNormType.KSP_NO_NORM

/-- The operator of the matrix `diag(1,2)`. -/
def limitZeroOps : LinOps ℚ := LinOps.ofRows Arith.rat [[1, 0], [0, 2]]

/-- The system `[[0,1],[-1,0]] x = [1,0]` with initial guess `0`, iteration limit `3`, norms
switched off, in rational arithmetic with a not-a-number value. -/
def rotationKSP : KSP (Option ℚ) :=
  KSP.ready (Arith.withNaN Rat.sqrt) [some 0, some 0] [some 1, some 0]
    (some (1 / 1000000)) (some (1 / 1000000000000)) (some 10000) 3 KSPNormType.KSP_NO_NORM

/-- The operator of the rotation matrix `[[0,1],[-1,0]]`. -/
def rotationOps : LinOps (Option ℚ) :=
  LinOps.ofRows (Arith.withNaN Rat.sqrt) [[some 0, some 1], [some (-1), some 0]]

/-- The solve of `degenerateKSP` with the identity operator and the default convergence
test: the state in which the loop is entered. -/
def degenerateEntry : BCGS ℚ :=
  KSPSolve_BCGS.enter Arith.rat (KSPSolve_BCGS.start Arith.rat (LinOps.identity ℚ)
    (KSPDefaultConverged Arith.rat) degenerateKSP)

/-- The solve of `degenerateKSP`: the first pass through the loop body. -/
def degenerateStep : BCGS ℚ × Bool :=
  KSPSolve_BCGS.body Arith.rat (LinOps.identity ℚ) (KSPDefaultConverged Arith.rat) 0
    degenerateEntry

/-- The solve of `overwriteKSP` with the default convergence test: the first pass through
the loop body. -/
def overwriteStep : BCGS ℚ × Bool :=
  KSPSolve_BCGS.body Arith.rat overwriteOps (KSPDefaultConverged Arith.rat) 0
    (KSPSolve_BCGS.enter Arith.rat (KSPSolve_BCGS.start Arith.rat overwriteOps
      (KSPDefaultConverged Arith.rat) overwriteKSP))

/-- The solve of `zeroRhsKSP` with the identity operator and `KSPSkipConverged`: the state
in which the loop is entered. -/
def zeroRhsEntry : BCGS ℚ :=
  KSPSolve_BCGS.enter Arith.rat (KSPSolve_BCGS.start Arith.rat (LinOps.identity ℚ)
    KSPSkipConverged zeroRhsKSP)

/-- The solve of `zeroRhsKSP`: the first pass through the loop body. -/
def zeroRhsStep : BCGS ℚ × Bool :=
  KSPSolve_BCGS.body Arith.rat (LinOps.identity ℚ) KSPSkipConverged 0 zeroRhsEntry

/-- The solve of `rotationKSP` with `KSPSkipConverged`: the first pass through the loop
body. -/
def rotationStep : BCGS (Option ℚ) × Bool :=
  KSPSolve_BCGS.body (Arith.withNaN Rat.sqrt) rotationOps KSPSkipConverged 0
    (KSPSolve_BCGS.enter (Arith.withNaN Rat.sqrt) (KSPSolve_BCGS.start
      (Arith.withNaN Rat.sqrt) rotationOps KSPSkipConverged rotationKSP))

/-- The system `diag(1,2) x = [1,1]` with initial guess `0`, iteration limit `1`, norms
switched off. -/
def limitOneKSP : KSP ℚ := { limitZeroKSP with max_it := 1 }

/-- The sum of two vectors, entry by entry. -/
def vadd {α : Type} [Add α] (x y : Vec α) : Vec α := List.zipWith (fun a b => a + b) x y

/-- The difference of two vectors, entry by entry. -/
def vsub {α : Type} [Sub α] (x y : Vec α) : Vec α := List.zipWith (fun a b => a - b) x y

/-- The multiple `a x` of a vector. -/
def vscale {α : Type} [Mul α] (a : α) (x : Vec α) : Vec α := x.map (fun b => a * b)

/-- The vdot product `<x,y>` of two real vectors. -/
def vdot {α : Type} [Mul α] [Add α] [Zero α] (x y : Vec α) : α :=
  (List.zipWith (fun a b => a * b) x y).sum

/-- The values of one iteration of the BiCGStab recurrence, in the names of the
specification. -/
structure Iteration (α : Type) where
  rho : α
  beta : α
  p : Vec α
  v : Vec α
  alpha : α
  s : Vec α
  t : Vec α
  omega : α
  x : Vec α
  r : Vec α
  rho_old : α
  omega_old : α

/-- One non-degenerate iteration as the specification words it (steps 4a to 4k), from the
values `x`, `r`, `p`, `v`, `rho_old`, `alpha`, `omega_old` of the previous iteration, with
`K` the preconditioned operator and `rp` the shadow residual. -/
def referenceIteration {α : Type} [Field α] (K : Vec α → Vec α) (rp x r p v : Vec α)
    (rho_old alpha_old omega_old : α) : Iteration α :=
  let rho := vdot r rp
  let beta := (rho / rho_old) * (alpha_old / omega_old)
  let p1 := vadd r (vscale beta (vsub p (vscale omega_old v)))
  let v1 := K p1
  let alpha := rho / vdot v1 rp
  let s := vsub r (vscale alpha v1)
  let t := K s
  let omega := vdot s t / vdot t t
  { rho := rho, beta := beta, p := p1, v := v1, alpha := alpha, s := s, t := t,
    omega := omega,
    x := vadd (vadd x (vscale alpha p1)) (vscale omega s),
    r := vsub s (vscale omega t),
    rho_old := rho, omega_old := omega }

/-- The solve of `limitZeroKSP` with `KSPSkipConverged`: the state in which the loop is
entered. -/
def limitZeroEntry : BCGS ℚ :=
  KSPSolve_BCGS.enter Arith.rat (KSPSolve_BCGS.start Arith.rat limitZeroOps
    KSPSkipConverged limitZeroKSP)

/-- Modelled from the spec: the values of `PetscErrorCode` that the functions at hand
return: `ok` is the value `0` of `PetscFunctionReturn(0)`, `PETSC_ERR_SUP` (operation not
supported), `PETSC_ERR_ORDER` (operation done in the wrong order), `PETSC_ERR_PLIB`
(internal inconsistency) are the codes given to `SETERRQ`, and `PETSC_ERR_ARG_NULL` is the
code with which `PetscValidHeaderSpecific` rejects a null object. -/
inductive PetscErrorCode where
  | ok
  | PETSC_ERR_SUP
  | PETSC_ERR_ORDER
  | PETSC_ERR_PLIB
  | PETSC_ERR_ARG_NULL
  deriving DecidableEq, Repr

/-- One call `VecDestroyVecs(vecs,m)`: the array of vectors that is released and the count
passed with it. -/
structure DestroyCall (Sc : Type) where
  vecs : List (Vec Sc)
  m : Int
  deriving Repr

/-- Modelled from the spec: `VecDuplicateVecs(v,m,&V)`, which creates `m` new vectors
congruent with `v` (same layout). The entries of a new vector are not specified; they are
zero here. -/
def VecDuplicateVecs {Sc : Type} (ar : Arith Sc) (v : Vec Sc) (m : Int) : List (Vec Sc) :=
  List.replicate m.toNat (VecSet ar.zero v)

/-- The function `KSPDefaultFreeWork`: the solver context afterwards and the calls of
`VecDestroyVecs` it made. -/
def KSPDefaultFreeWork {Sc : Type} (ksp : KSP Sc) : KSP Sc × List (DestroyCall Sc) :=
  match ksp.work with
  | some w => ({ ksp with work := none }, [{ vecs := w, m := ksp.nwork }])
  | none => (ksp, [])

/-- The function `KSPGetVecs(ksp,nw,&work)`: the array of vectors written to `work`. The
template is the right-hand side when it is set, and otherwise the vector `pmatVec` that
`MatGetVecs` creates for the preconditioning matrix (and that is destroyed afterwards). -/
def KSPGetVecs {Sc : Type} (ar : Arith Sc) (pmatVec : Vec Sc) (ksp : KSP Sc) (nw : Int) :
    List (Vec Sc) :=
  let vec := match ksp.vec_rhs with
    | some b => b
    | none => pmatVec
  VecDuplicateVecs ar vec nw

/-- The function `KSPDefaultGetWork(ksp,nw)`: the solver context afterwards and the calls
of `VecDestroyVecs` made on the way. -/
def KSPDefaultGetWork {Sc : Type} (ar : Arith Sc) (pmatVec : Vec Sc) (ksp : KSP Sc)
    (nw : Int) : KSP Sc × List (DestroyCall Sc) :=
  let freed := if ksp.work.isSome then KSPDefaultFreeWork ksp else (ksp, [])
  let ksp := { freed.1 with nwork := nw }
  ({ ksp with work := some (KSPGetVecs ar pmatVec ksp nw) }, freed.2)

/-- The function `KSPSetUp_BCGS`: the error code returned, the solver context afterwards and
the calls of `VecDestroyVecs` made on the way. -/
def KSPSetUp_BCGS {Sc : Type} (ar : Arith Sc) (pmatVec : Vec Sc) (ksp : KSP Sc) :
    PetscErrorCode × KSP Sc × List (DestroyCall Sc) :=
  if ksp.pc_side = PCSide.PC_SYMMETRIC then (PetscErrorCode.PETSC_ERR_SUP, ksp, [])
  else
    let got := KSPDefaultGetWork ar pmatVec ksp 6
    (PetscErrorCode.ok, got.1, got.2)

/-! ## The distributed-array exchange layer (`dagtol.c`) -/

/-- Modelled from the spec: the enum `InsertMode`, the combine mode of a scatter: overwrite
the destination entry or accumulate into it. -/
inductive InsertMode where
  | INSERT_VALUES
  | ADD_VALUES
  deriving DecidableEq, Repr

/-- Modelled from the spec: the enum `ScatterMode`, the direction in which a scatter context
is used. -/
inductive ScatterMode where
  | SCATTER_FORWARD
  | SCATTER_REVERSE
  deriving DecidableEq, Repr

/-- Modelled from the spec: a scatter context `VecScatter`, the fixed index map built by
`VecScatterCreate(xin,ix,yin,iy,&ctx)`: entry `ix[k]` of the first vector corresponds to
entry `iy[k]` of the second. The vectors of all processes are taken together, so that an
index names an entry of the whole distributed vector. -/
structure VecScatter where
  ix : List Nat
  iy : List Nat
  deriving DecidableEq, Repr

/-- The transfers that a `VecScatterBegin` has issued and that no `VecScatterEnd` has
completed yet: destination index and value, in the order of the index map. -/
abbrev InFlight (Sc : Type) := List (Nat × Sc)

/-- Modelled from the spec: `VecScatterCreate(xin,ix,yin,iy,&ctx)`; only the index sets
enter the context. -/
def VecScatterCreate (ix iy : List Nat) : VecScatter := { ix := ix, iy := iy }

/-- Modelled from the spec: `ISCreateStride(comm,n,first,step,&is)`, the index set
`first, first+step, ..., first+(n-1)*step`. -/
def ISCreateStride (n first step : Nat) : List Nat :=
  (List.range n).map (fun k => first + k * step)

/-- Modelled from the spec: the effect of one completed transfer on the destination vector
under the combine mode: `INSERT_VALUES` overwrites the entry, `ADD_VALUES` accumulates. -/
def applyTransfer {Sc : Type} (ar : Arith Sc) (addv : InsertMode) (y : Vec Sc)
    (m : Nat × Sc) : Vec Sc :=
  match addv with
  | InsertMode.INSERT_VALUES => y.set m.1 m.2
  | InsertMode.ADD_VALUES => y.set m.1 (ar.add (y.getD m.1 ar.zero) m.2)

/-- Modelled from the spec: `VecScatterBegin(x,y,addv,mode,ctx)`, which issues all
transfers: the source entries of `x` are read and sent towards their destination index
(`iy` forward, `ix` in reverse); `y` is not written yet. A null context is rejected. The
result is the error code, `y`, and the transfers in flight. -/
def VecScatterBegin {Sc : Type} (ar : Arith Sc) (x y : Vec Sc) (_addv : InsertMode)
    (mode : ScatterMode) (ctx : Option VecScatter) (fl : InFlight Sc) :
    PetscErrorCode × Vec Sc × InFlight Sc :=
  match ctx with
  | none => (PetscErrorCode.PETSC_ERR_ARG_NULL, y, fl)
  | some c =>
    let src := match mode with
      | ScatterMode.SCATTER_FORWARD => c.ix
      | ScatterMode.SCATTER_REVERSE => c.iy
    let dst := match mode with
      | ScatterMode.SCATTER_FORWARD => c.iy
      | ScatterMode.SCATTER_REVERSE => c.ix
    (PetscErrorCode.ok, y, fl ++ List.zipWith (fun i j => (j, x.getD i ar.zero)) src dst)

/-- Modelled from the spec: `VecScatterEnd(x,y,addv,mode,ctx)`, which waits for the
transfers in flight and applies them to `y` under the combine mode, in order. A null
context is rejected. The result is the error code, `y`, and the transfers in flight. -/
def VecScatterEnd {Sc : Type} (ar : Arith Sc) (_x y : Vec Sc) (addv : InsertMode)
    (_mode : ScatterMode) (ctx : Option VecScatter) (fl : InFlight Sc) :
    PetscErrorCode × Vec Sc × InFlight Sc :=
  match ctx with
  | none => (PetscErrorCode.PETSC_ERR_ARG_NULL, y, fl)
  | some _ => (PetscErrorCode.ok, fl.foldl (applyTransfer ar addv) y, [])

/-- The fields of the distributed-array descriptor `DA` that `dagtol.c` uses: the
global-to-local scatter context `gtol` (built when the DA is set up), the global-to-natural
context `gton` and the natural-layout vector `natural` (both unset until they are created),
the local size `Nlocal`, and `ao`, the natural index of every entry of a global vector. -/
structure DA (Sc : Type) where
  gtol : VecScatter
  gton : Option VecScatter
  natural : Option (Vec Sc)
  Nlocal : Int
  ao : List Nat
  deriving Repr

/-- Modelled from the spec: `DAGetNatural_Private(da,&Nlocal,&to)`, which gives the index
set of the natural positions of the entries of a global vector, and its size. -/
def DAGetNatural_Private {Sc : Type} (da : DA Sc) : Nat × List Nat := (da.ao.length, da.ao)

/-- The function `DAGlobalToNatural_Create`: the error code and the DA afterwards. The local
size of the natural vector is its size and its ownership range starts at `0`, all processes
being taken together. -/
def DAGlobalToNatural_Create {Sc : Type} (da : DA Sc) : PetscErrorCode × DA Sc :=
  match da.natural with
  | none => (PetscErrorCode.PETSC_ERR_ORDER, da)
  | some nat =>
    let m := nat.length
    let start := 0
    let got := DAGetNatural_Private da
    let Nlocal := got.1
    let to_is := got.2
    if Nlocal ≠ m then (PetscErrorCode.PETSC_ERR_PLIB, da)
    else
      let from_is := ISCreateStride m start 1
      (PetscErrorCode.ok, { da with gton := some (VecScatterCreate from_is to_is) })

/-- The result of a DA exchange operation: the error code returned, the DA, the output
vector and the transfers in flight afterwards. -/
structure DAResult (Sc : Type) where
  ierr : PetscErrorCode
  da : DA Sc
  out : Vec Sc
  fl : InFlight Sc

/-- The function `DAGlobalToLocalBegin(da,g,mode,l)`. -/
def DAGlobalToLocalBegin {Sc : Type} (ar : Arith Sc) (da : DA Sc) (g : Vec Sc)
    (mode : InsertMode) (l : Vec Sc) (fl : InFlight Sc) : DAResult Sc :=
  let r := VecScatterBegin ar g l mode ScatterMode.SCATTER_FORWARD (some da.gtol) fl
  { ierr := r.1, da := da, out := r.2.1, fl := r.2.2 }

/-- The function `DAGlobalToLocalEnd(da,g,mode,l)`. -/
def DAGlobalToLocalEnd {Sc : Type} (ar : Arith Sc) (da : DA Sc) (g : Vec Sc)
    (mode : InsertMode) (l : Vec Sc) (fl : InFlight Sc) : DAResult Sc :=
  let r := VecScatterEnd ar g l mode ScatterMode.SCATTER_FORWARD (some da.gtol) fl
  { ierr := r.1, da := da, out := r.2.1, fl := r.2.2 }

/-- The function `DALocalToGlobalBegin(da,l,g)`. -/
def DALocalToGlobalBegin {Sc : Type} (ar : Arith Sc) (da : DA Sc) (l g : Vec Sc)
    (fl : InFlight Sc) : DAResult Sc :=
  let r := VecScatterBegin ar l g InsertMode.ADD_VALUES ScatterMode.SCATTER_REVERSE
    (some da.gtol) fl
  { ierr := r.1, da := da, out := r.2.1, fl := r.2.2 }

/-- The function `DALocalToGlobalEnd(da,l,g)`. -/
def DALocalToGlobalEnd {Sc : Type} (ar : Arith Sc) (da : DA Sc) (l g : Vec Sc)
    (fl : InFlight Sc) : DAResult Sc :=
  let r := VecScatterEnd ar l g InsertMode.ADD_VALUES ScatterMode.SCATTER_REVERSE
    (some da.gtol) fl
  { ierr := r.1, da := da, out := r.2.1, fl := r.2.2 }

/-- The function `DAGlobalToNaturalBegin(da,g,mode,l)`. -/
def DAGlobalToNaturalBegin {Sc : Type} (ar : Arith Sc) (da : DA Sc) (g : Vec Sc)
    (mode : InsertMode) (l : Vec Sc) (fl : InFlight Sc) : DAResult Sc :=
  let created := if da.gton.isNone then DAGlobalToNatural_Create da
    else (PetscErrorCode.ok, da)
  if created.1 ≠ PetscErrorCode.ok then { ierr := created.1, da := created.2, out := l, fl := fl }
  else
    let r := VecScatterBegin ar g l mode ScatterMode.SCATTER_FORWARD created.2.gton fl
    { ierr := r.1, da := created.2, out := r.2.1, fl := r.2.2 }

/-- The function `DAGlobalToNaturalEnd(da,g,mode,l)`. -/
def DAGlobalToNaturalEnd {Sc : Type} (ar : Arith Sc) (da : DA Sc) (g : Vec Sc)
    (mode : InsertMode) (l : Vec Sc) (fl : InFlight Sc) : DAResult Sc :=
  let r := VecScatterEnd ar g l mode ScatterMode.SCATTER_FORWARD da.gton fl
  { ierr := r.1, da := da, out := r.2.1, fl := r.2.2 }

/-- The function `DANaturalToGlobalBegin(da,g,mode,l)`; `g` is the vector in the natural
ordering, `l` the vector in the DA ordering. -/
def DANaturalToGlobalBegin {Sc : Type} (ar : Arith Sc) (da : DA Sc) (g : Vec Sc)
    (mode : InsertMode) (l : Vec Sc) (fl : InFlight Sc) : DAResult Sc :=
  let created := if da.gton.isNone then DAGlobalToNatural_Create da
    else (PetscErrorCode.ok, da)
  if created.1 ≠ PetscErrorCode.ok then { ierr := created.1, da := created.2, out := l, fl := fl }
  else
    let r := VecScatterBegin ar g l mode ScatterMode.SCATTER_REVERSE created.2.gton fl
    { ierr := r.1, da := created.2, out := r.2.1, fl := r.2.2 }

/-- The function `DANaturalToGlobalEnd(da,g,mode,l)`. -/
def DANaturalToGlobalEnd {Sc : Type} (ar : Arith Sc) (da : DA Sc) (g : Vec Sc)
    (mode : InsertMode) (l : Vec Sc) (fl : InFlight Sc) : DAResult Sc :=
  let r := VecScatterEnd ar g l mode ScatterMode.SCATTER_REVERSE da.gton fl
  { ierr := r.1, da := da, out := r.2.1, fl := r.2.2 }

/-- The entries of the local vector `l` that the index map `c` pairs with entry `j` of the
global vector, owned and ghost slots alike, in the order of the index map. -/
def mappedToGlobal {Sc : Type} (ar : Arith Sc) (c : VecScatter) (l : Vec Sc) (j : Nat) :
    List Sc :=
  ((List.zipWith Prod.mk c.ix c.iy).filter (fun p => decide (p.1 = j))).map
    (fun p => l.getD p.2 ar.zero)

/-- Example input: a 2 x 2 grid with one degree of freedom per node and stencil width 1 on
two processes that own one column each. Global entries 0,1 are the nodes of the first
column, 2,3 those of the second; each process holds all four nodes in its local array, in
raster order, so that the local vector has eight slots; the natural (raster) position of
global entry `k` is `ao[k]`. -/
def gridDA (Sc : Type) (natural : Option (Vec Sc)) : DA Sc :=
  { gtol := { ix := [0, 2, 1, 3, 0, 2, 1, 3], iy := [0, 1, 2, 3, 4, 5, 6, 7] },
    gton := none,
    natural := natural,
    Nlocal := 4,
    ao := [0, 2, 1, 3] }

/-- The ghosted local vector after `DAGlobalToLocalBegin` and `DAGlobalToLocalEnd` with
`INSERT_VALUES` have mapped `g` into `l`. -/
def DAGlobalToLocal_inserted {Sc : Type} (ar : Arith Sc) (da : DA Sc) (g l : Vec Sc) : Vec Sc :=
  (DAGlobalToLocalEnd ar da g InsertMode.INSERT_VALUES
    (DAGlobalToLocalBegin ar da g InsertMode.INSERT_VALUES l []).out
    (DAGlobalToLocalBegin ar da g InsertMode.INSERT_VALUES l []).fl).out

/-- The global vector after `DALocalToGlobalBegin` and `DALocalToGlobalEnd` have added `l`
into `dest`. -/
def DALocalToGlobal_added {Sc : Type} (ar : Arith Sc) (da : DA Sc) (l dest : Vec Sc) : Vec Sc :=
  (DALocalToGlobalEnd ar da l (DALocalToGlobalBegin ar da l dest []).out
    (DALocalToGlobalBegin ar da l dest []).fl).out

/-- Modelled from the spec: the invariant of the natural ordering of a DA. The natural
ordering re-orders the entries of a global vector, so `ao` is a permutation of the positions
of the natural vector; the global-to-natural context exists only together with the natural
vector and is the one that `DAGlobalToNatural_Create` builds. -/
def DA.wellFormed {Sc : Type} (da : DA Sc) : Prop :=
  match da.natural, da.gton with
  | none, none => True
  | none, some _ => False
  | some nat, none => da.ao.Perm (List.range nat.length)
  | some nat, some c =>
    da.ao.Perm (List.range nat.length)
      ∧ c = VecScatterCreate (ISCreateStride nat.length 0 1) da.ao

/-- The invariant `DA.wellFormed` can be evaluated. -/
instance DA.wellFormed_decidable {Sc : Type} (da : DA Sc) : Decidable da.wellFormed := by
  unfold DA.wellFormed
  split <;> infer_instance

/-- One call of one of the eight DA exchange operations, with its vector arguments. -/
inductive DAOp (Sc : Type) where
  | GlobalToLocalBegin (g : Vec Sc) (mode : InsertMode) (l : Vec Sc)
  | GlobalToLocalEnd (g : Vec Sc) (mode : InsertMode) (l : Vec Sc)
  | LocalToGlobalBegin (l g : Vec Sc)
  | LocalToGlobalEnd (l g : Vec Sc)
  | GlobalToNaturalBegin (g : Vec Sc) (mode : InsertMode) (l : Vec Sc)
  | GlobalToNaturalEnd (g : Vec Sc) (mode : InsertMode) (l : Vec Sc)
  | NaturalToGlobalBegin (g : Vec Sc) (mode : InsertMode) (l : Vec Sc)
  | NaturalToGlobalEnd (g : Vec Sc) (mode : InsertMode) (l : Vec Sc)

/-- The call that a `DAOp` stands for, on the DA `da` with the transfers `fl` in flight. -/
def DAOp.call {Sc : Type} (ar : Arith Sc) (da : DA Sc) (fl : InFlight Sc) :
    DAOp Sc → DAResult Sc
  | DAOp.GlobalToLocalBegin g mode l => DAGlobalToLocalBegin ar da g mode l fl
  | DAOp.GlobalToLocalEnd g mode l => DAGlobalToLocalEnd ar da g mode l fl
  | DAOp.LocalToGlobalBegin l g => DALocalToGlobalBegin ar da l g fl
  | DAOp.LocalToGlobalEnd l g => DALocalToGlobalEnd ar da l g fl
  | DAOp.GlobalToNaturalBegin g mode l => DAGlobalToNaturalBegin ar da g mode l fl
  | DAOp.GlobalToNaturalEnd g mode l => DAGlobalToNaturalEnd ar da g mode l fl
  | DAOp.NaturalToGlobalBegin g mode l => DANaturalToGlobalBegin ar da g mode l fl
  | DAOp.NaturalToGlobalEnd g mode l => DANaturalToGlobalEnd ar da g mode l fl

/-- A sequence of calls on one DA, each call on the DA and the transfers in flight that the
call before it left: the results of the calls, in order. -/
def DAOp.run {Sc : Type} (ar : Arith Sc) (da : DA Sc) (fl : InFlight Sc) :
    List (DAOp Sc) → List (DAResult Sc)
  | [] => []
  | op :: ops =>
    op.call ar da fl :: DAOp.run ar (op.call ar da fl).da (op.call ar da fl).fl ops

/-- The number of places in the sequence `a, b1, b2, ...` where the value changes. -/
def countChanges {α : Type} [DecidableEq α] : α → List α → Nat
  | _, [] => 0
  | a, b :: bs => (if a = b then 0 else 1) + countChanges b bs

/-- Example input: a global-to-natural exchange followed by a natural-to-global exchange, on
vectors of four entries. -/
def naturalExchange : List (DAOp ℚ) :=
  [DAOp.GlobalToNaturalBegin [1, 2, 3, 4] InsertMode.INSERT_VALUES [0, 0, 0, 0],
   DAOp.GlobalToNaturalEnd [1, 2, 3, 4] InsertMode.INSERT_VALUES [0, 0, 0, 0],
   DAOp.NaturalToGlobalBegin [1, 3, 2, 4] InsertMode.INSERT_VALUES [0, 0, 0, 0],
   DAOp.NaturalToGlobalEnd [1, 3, 2, 4] InsertMode.INSERT_VALUES [0, 0, 0, 0]]

/-- The system `[[1,1],[0,2]] x = [0,2]` with initial guess `0`, the tolerances of
Scenario B, iteration limit `100`, norms computed. Its solution is `[-1, 1]`. -/
def triangularKSP : KSP ℚ :=
  KSP.ready Arith.rat [0, 0] [0, 2] (1 / 1000000) (1 / 1000000000000) 10000 100
    KSPNormType.KSP_PRECONDITIONED_NORM

/-- The notifications of the monitor chain recorded in a trace, in order: iteration number
and residual norm. -/
def monitorCalls {Sc : Type} (tr : List (Event Sc)) : List (Int × Sc) :=
  tr.filterMap (fun e => match e with
    | Event.monitor it rnorm => some (it, rnorm)
    | _ => none)

/-- The function `KSPGetIterationNumber(ksp,&its)`: the value written behind `its`. -/
def KSPGetIterationNumber {Sc : Type} (ksp : KSP Sc) : Int := ksp.its

/-- The entries of the residual history recorded in a trace, in order. -/
def historyEntries {Sc : Type} (tr : List (Event Sc)) : List Sc :=
  tr.filterMap (fun e => match e with
    | Event.history rnorm => some rnorm
    | _ => none)

/-- The system `[[3,4],[0,0]] x = [3,4]` with initial guess `0`, the tolerances of
Scenario B, iteration limit `100`, norms computed. The matrix is singular. -/
def singularKSP : KSP ℚ :=
  KSP.ready Arith.rat [0, 0] [3, 4] (1 / 1000000) (1 / 1000000000000) 10000 100
    KSPNormType.KSP_PRECONDITIONED_NORM

/-- The operator of the matrix `[[3,4],[0,0]]`. -/
def singularOps : LinOps ℚ := LinOps.ofRows Arith.rat [[3, 4], [0, 0]]

/-- Modelled from the spec: the DA of Scenario A, a 3 x 3 grid with one degree of freedom per
node and stencil width 1 on two processes; process 0 owns rows 0 and 1 (global entries
0..5), process 1 owns row 2 (global entries 6..8). The local array of process 0 (slots
0..8) holds its rows 0 and 1 followed by the ghost row 2; the local array of process 1
(slots 9..14) holds the ghost row 1 followed by its row 2. The set-up routine that builds
`gtol` is not part of the sources at hand. -/
def scenarioADA (Sc : Type) : DA Sc :=
  { gtol := { ix := [0, 1, 2, 3, 4, 5, 6, 7, 8, 3, 4, 5, 6, 7, 8],
              iy := [0, 1, 2, 3, 4, 5, 6, 7, 8, 9, 10, 11, 12, 13, 14] },
    gton := none,
    natural := none,
    Nlocal := 9,
    ao := [0, 1, 2, 3, 4, 5, 6, 7, 8] }

/-- The three arrays that `dCompRow_to_CompCol` allocates and fills behind its output
pointers `at`, `rowind` and `colptr`: a matrix in compressed-column form. -/
structure CompCol (Sc : Type) where
  at_ : List Sc
  rowind : List Nat
  colptr : List Nat
  deriving Repr

/-- The state of the loops of `dCompRow_to_CompCol`: the scratch array `marker` and the
three output arrays. -/
structure CompColState (Sc : Type) where
  marker : List Nat
  out : CompCol Sc

/-- The positions `rowptr[i], ..., rowptr[i+1]-1` that the loop
`for (j = rowptr[i]; j < rowptr[i+1]; ++j)` visits, in order. -/
def rowPositions (rowptr : List Nat) (i : Nat) : List Nat :=
  List.range' (rowptr.getD i 0) (rowptr.getD (i + 1) 0 - rowptr.getD i 0)

/-- The function `dCompRow_to_CompCol(m,n,nnz,a,colind,rowptr,&at,&rowind,&colptr)`. The
arrays are lists, the C `int`s natural numbers. `d` is what the freshly allocated `at` holds
before it is written, `marker` starts from zero (`intCalloc`). -/
def dCompRow_to_CompCol {Sc : Type} (d : Sc) (m n nnz : Nat) (a : List Sc)
    (colind rowptr : List Nat) : CompCol Sc :=
  let at0 := List.replicate nnz d
  let rowind0 := List.replicate nnz 0
  let colptr0 := List.replicate (n + 1) 0
  let marker := List.replicate n 0
  let marker := (List.range m).foldl (fun marker i =>
    (rowPositions rowptr i).foldl (fun marker j =>
      marker.set (colind.getD j 0) (marker.getD (colind.getD j 0) 0 + 1)) marker) marker
  let colptr := colptr0.set 0 0
  let cm := (List.range n).foldl (fun (s : List Nat × List Nat) j =>
    let colptr := s.1.set (j + 1) (s.1.getD j 0 + s.2.getD j 0)
    let marker := s.2.set j (colptr.getD j 0)
    (colptr, marker)) (colptr, marker)
  let st0 : CompColState Sc :=
    { marker := cm.2, out := { at_ := at0, rowind := rowind0, colptr := cm.1 } }
  let st := (List.range m).foldl (fun st i =>
    (rowPositions rowptr i).foldl (fun (st : CompColState Sc) j =>
      let col := colind.getD j 0
      let relpos := st.marker.getD col 0
      let rowind := st.out.rowind.set relpos i
      let at1 := st.out.at_.set relpos (a.getD j d)
      { marker := st.marker.set col (st.marker.getD col 0 + 1),
        out := { st.out with at_ := at1, rowind := rowind } }) st) st0
  st.out

/-- The stored entries of a matrix in compressed-row form, row by row in the order of the
arrays: row index, column index, value. -/
def CompRow.entries {Sc : Type} (d : Sc) (m : Nat) (a : List Sc) (colind rowptr : List Nat) :
    List (Nat × Nat × Sc) :=
  (List.range m).flatMap (fun i =>
    (rowPositions rowptr i).map (fun j => (i, colind.getD j 0, a.getD j d)))

/-- The stored entries of column `c` of a matrix in compressed-column form, in the order of
the arrays: row index, column index, value. -/
def CompCol.column {Sc : Type} (d : Sc) (out : CompCol Sc) (c : Nat) : List (Nat × Nat × Sc) :=
  (List.range' (out.colptr.getD c 0) (out.colptr.getD (c + 1) 0 - out.colptr.getD c 0)).map
    (fun p => (out.rowind.getD p 0, c, out.at_.getD p d))

/-- The sum `cnt 0 + ... + cnt (j-1)`. -/
def prefixSum (cnt : Nat → Nat) (j : Nat) : Nat := ((List.range j).map cnt).sum

/-- The pairs (row, position in the arrays) of the stored entries of a matrix in
compressed-row form, in the order in which the nested loops over the rows visit them. -/
def visitedPositions (m : Nat) (rowptr : List Nat) : List (Nat × Nat) :=
  (List.range m).flatMap (fun i => (rowPositions rowptr i).map (fun j => (i, j)))

/-- The fields of `Mat_SeqSBAIJ` (declared in `sbaij.h`, which is not part of the sources at
hand) that `MatMult_SeqSBAIJ_1_Hermitian_tmp` reads: the number of rows `mbs`, the row
pointers `i`, the column indices `j` and the values `a` of the stored upper triangle. -/
structure Mat_SeqSBAIJ (K : Type) where
  mbs : Nat
  i : List Nat
  j : List Nat
  a : List K

/-- Modelled from the spec: the macro `PetscConj(z)`, the complex conjugate. -/
def PetscConj {K : Type} [Star K] (z : K) : K := star z

/-- The function `MatMult_SeqSBAIJ_1_Hermitian_tmp(A,xx,zz)` of `ex127.c`; the result is the
new content of `zz`. The pointers `v` and `ib` are the offset `off` into `a->a` and `a->j`,
which grows by `nz` after every row. -/
def MatMult_SeqSBAIJ_1_Hermitian_tmp {K : Type} [Zero K] [Add K] [Mul K] [Star K]
    (A : Mat_SeqSBAIJ K) (xx zz : List K) : List K :=
  let z := VecSet (0 : K) zz
  let x := xx
  let out := (List.range A.mbs).foldl (fun (s : List K × Nat) i =>
    let z := s.1
    let off := s.2
    let nz := A.i.getD (i + 1) 0 - A.i.getD i 0
    let x1 := x.getD i 0
    let sum := A.a.getD off 0 * x1
    let inner := (List.range' 1 (nz - 1)).foldl (fun (t : K × List K) j =>
      let ibt := A.j.getD (off + j) 0
      let vj := A.a.getD (off + j) 0
      let sum := t.1 + vj * x.getD ibt 0
      let vj := PetscConj (A.a.getD (off + j) 0)
      let z := t.2.set ibt (t.2.getD ibt 0 + vj * x1)
      (sum, z)) (sum, z)
    let z := inner.2.set i (inner.2.getD i 0 + inner.1)
    (z, off + nz)) (z, 0)
  out.1

/-- The positions in `a->j` and `a->a` of the entries of row `r` after the first one (the
diagonal entry). -/
def Mat_SeqSBAIJ.strict {K : Type} (A : Mat_SeqSBAIJ K) (r : Nat) : List Nat :=
  List.range' (A.i.getD r 0 + 1) (A.i.getD (r + 1) 0 - A.i.getD r 0 - 1)

/-- The entry in row `r` and column `c` that the storage holds after the diagonal entry of
row `r`: the stored value, `0` when none is stored for column `c` (the sum, should the
column be listed more than once). -/
def Mat_SeqSBAIJ.upper {K : Type} [AddCommMonoid K] (A : Mat_SeqSBAIJ K) (r c : Nat) : K :=
  (((A.strict r).filter (fun k => decide (A.j.getD k 0 = c))).map
    (fun k => A.a.getD k 0)).sum

/-- The sum `f 0 + ... + f (n-1)`. -/
def sumRange {K : Type} [AddCommMonoid K] (f : Nat → K) (n : Nat) : K :=
  ((List.range n).map f).sum

/-- Example input: the Hermitian matrix `[[2, i, 0], [-i, 3, 1+i], [0, 1-i, 4]]` over the
Gaussian integers, stored as its upper triangle. -/
def hermitianExample : Mat_SeqSBAIJ GaussianInt :=
  { mbs := 3, i := [0, 2, 4, 5], j := [0, 1, 1, 2, 2],
    a := [⟨2, 0⟩, ⟨0, 1⟩, ⟨3, 0⟩, ⟨1, 1⟩, ⟨4, 0⟩] }

/-- The updates `z[idx] += w` that the pass of `MatMult_SeqSBAIJ_1_Hermitian_tmp` over row
`i` makes, in order: one for every entry after the diagonal one, then the update of `z[i]`
by `sum`. -/
def hermitianRowUpdates {K : Type} [AddCommMonoid K] [Mul K] [Star K] (A : Mat_SeqSBAIJ K)
    (x : List K) (i : Nat) : List (Nat × K) :=
  (List.range' 1 (A.i.getD (i + 1) 0 - A.i.getD i 0 - 1)).map
      (fun j => (A.j.getD (A.i.getD i 0 + j) 0,
        star (A.a.getD (A.i.getD i 0 + j) 0) * x.getD i 0))
    ++ [(i, A.a.getD (A.i.getD i 0) 0 * x.getD i 0
          + ((List.range' 1 (A.i.getD (i + 1) 0 - A.i.getD i 0 - 1)).map
              (fun j => A.a.getD (A.i.getD i 0 + j) 0
                * x.getD (A.j.getD (A.i.getD i 0 + j) 0) 0)).sum)]

/-- The entries of the Hermitian matrix `[[2, i, 0], [-i, 3, 1+i], [0, 1-i, 4]]` that
`hermitianExample` stores; `0` outside the matrix. -/
def hermitianDense (r c : Nat) : GaussianInt :=
  (([[⟨2, 0⟩, ⟨0, 1⟩, ⟨0, 0⟩], [⟨0, -1⟩, ⟨3, 0⟩, ⟨1, 1⟩], [⟨0, 0⟩, ⟨1, -1⟩, ⟨4, 0⟩]] :
    List (List GaussianInt)).getD r []).getD c 0

end PETSc

namespace PETSc

open KSPConvergedReason

/-! ## The default convergence test -/

theorem PetscMax_exact {α : Type} [LinearOrderedField α] (sqrt : α → α) (a b : α) :
    PetscMax (Arith.exact α sqrt) a b = max a b := by
  unfold PetscMax
  by_cases h : a < b
  · simp [Arith.exact, h, max_eq_right h.le]
  · simp [Arith.exact, h, max_eq_left (not_lt.mp h)]

/-- The baseline fields after a call of `KSPDefaultConverged`, for any arithmetic: the values
captured from `rnorm` when `n = 0`, the stored ones otherwise. -/
theorem KSPDefaultConverged_baseline {Sc : Type} (ar : Arith Sc) (ksp : KSP Sc) (n : Int)
    (rnorm : Sc) (reason : KSPConvergedReason) :
    (KSPDefaultConverged ar ksp n rnorm reason).1 =
      (if n = 0 then
        { ksp with ttol := PetscMax ar (ar.mul ksp.rtol rnorm) ksp.atol, rnorm0 := rnorm }
       else ksp) := by
  unfold KSPDefaultConverged
  simp only []
  split_ifs <;> rfl

/-- C1. `KSPDefaultConverged`, convergent branch, in exact arithmetic: with `rnorm0 := rnorm`
and `ttol := max(rtol*rnorm, atol)` captured when `n = 0` and the stored `ttol` used
otherwise, a residual norm `rnorm <= ttol` gives `KSP_CONVERGED_ATOL` when `rnorm < atol`
and `KSP_CONVERGED_RTOL` when `rnorm >= atol`. -/
theorem KSPDefaultConverged_convergent {α : Type} [LinearOrderedField α] (sqrt : α → α)
    (ksp : KSP α) (n : Int) (rnorm : α) (reason : KSPConvergedReason)
    (h : rnorm ≤ (if n = 0 then max (ksp.rtol * rnorm) ksp.atol else ksp.ttol)) :
    (KSPDefaultConverged (Arith.exact α sqrt) ksp n rnorm reason).1.rnorm0
        = (if n = 0 then rnorm else ksp.rnorm0) ∧
    (KSPDefaultConverged (Arith.exact α sqrt) ksp n rnorm reason).1.ttol
        = (if n = 0 then max (ksp.rtol * rnorm) ksp.atol else ksp.ttol) ∧
    (rnorm < ksp.atol →
      (KSPDefaultConverged (Arith.exact α sqrt) ksp n rnorm reason).2 = KSP_CONVERGED_ATOL) ∧
    (ksp.atol ≤ rnorm →
      (KSPDefaultConverged (Arith.exact α sqrt) ksp n rnorm reason).2 = KSP_CONVERGED_RTOL) := by
  have hmax := PetscMax_exact sqrt (ksp.rtol * rnorm) ksp.atol
  by_cases hn : n = 0
  · simp only [hn, if_true] at h ⊢
    have hle : (Arith.exact α sqrt).le rnorm
        (PetscMax (Arith.exact α sqrt) ((Arith.exact α sqrt).mul ksp.rtol rnorm) ksp.atol)
        = true := by
      have : (Arith.exact α sqrt).mul ksp.rtol rnorm = ksp.rtol * rnorm := rfl
      rw [this, hmax]
      simpa [Arith.exact] using h
    refine ⟨?_, ?_, ?_, ?_⟩
    · simp [KSPDefaultConverged_baseline]
    · simp [KSPDefaultConverged_baseline, ← hmax]; rfl
    · intro hlt
      have : (Arith.exact α sqrt).lt rnorm ksp.atol = true := by simpa [Arith.exact] using hlt
      simp [KSPDefaultConverged, hle, this]
    · intro hge
      have : (Arith.exact α sqrt).lt rnorm ksp.atol = false := by
        simpa [Arith.exact] using hge
      simp [KSPDefaultConverged, hle, this]
  · simp only [hn, if_false] at h ⊢
    have hle : (Arith.exact α sqrt).le rnorm ksp.ttol = true := by
      simpa [Arith.exact] using h
    refine ⟨?_, ?_, ?_, ?_⟩
    · simp [KSPDefaultConverged_baseline, hn]
    · simp [KSPDefaultConverged_baseline, hn]
    · intro hlt
      have : (Arith.exact α sqrt).lt rnorm ksp.atol = true := by simpa [Arith.exact] using hlt
      simp [KSPDefaultConverged, hn, hle, this]
    · intro hge
      have : (Arith.exact α sqrt).lt rnorm ksp.atol = false := by
        simpa [Arith.exact] using hge
      simp [KSPDefaultConverged, hn, hle, this]

theorem scenarioB1_eval :
    scenarioB1.1.ttol = 1 / 100000 ∧ scenarioB1.1.rnorm0 = 10 ∧
    scenarioB1.1.rtol = 1 / 1000000 ∧ scenarioB1.1.atol = 1 / 1000000000000 ∧
    scenarioB1.1.divtol = 10000 ∧ scenarioB1.2 = KSP_CONVERGED_ITERATING := by
  simp only [scenarioB1, scenarioB, KSP.ready, KSPDefaultConverged, Arith.exact, PetscMax,
    Arith.ge, Arith.ne]
  norm_num

theorem scenarioB2_eval :
    scenarioB2.1.ttol = 1 / 100000 ∧ scenarioB2.1.rnorm0 = 10 ∧
    scenarioB2.1.rtol = 1 / 1000000 ∧ scenarioB2.1.atol = 1 / 1000000000000 ∧
    scenarioB2.1.divtol = 10000 ∧ scenarioB2.2 = KSP_CONVERGED_ITERATING := by
  obtain ⟨h1, h2, h3, h4, h5, _⟩ := scenarioB1_eval
  have hb : scenarioB2.1 = scenarioB1.1 := by
    simp [scenarioB2, KSPDefaultConverged_baseline]
  refine ⟨by rw [hb, h1], by rw [hb, h2], by rw [hb, h3], by rw [hb, h4], by rw [hb, h5], ?_⟩
  simp only [scenarioB2, KSPDefaultConverged, Arith.exact, Arith.ge, Arith.ne]
  simp only [one_ne_zero, if_false, h1, h2, h4, h5]
  norm_num

/-- Witness of C1, Scenario B: with `rtol = 1e-6`, `atol = 1e-12`, `divtol = 1e4` the
residual norms `10`, `1`, `1e-6` passed at `n = 0, 1, 2` give `ITERATING`, `ITERATING`,
`CONVERGED_RTOL`. -/
theorem KSPDefaultConverged_convergent_witness :
    ((1 / 1000000 : ℚ) ≤ (if (2 : Int) = 0
        then max (scenarioB2.1.rtol * (1 / 1000000)) scenarioB2.1.atol
        else scenarioB2.1.ttol)) ∧
    scenarioB1.2 = KSP_CONVERGED_ITERATING ∧
    scenarioB2.2 = KSP_CONVERGED_ITERATING ∧
    (KSPDefaultConverged (Arith.exact ℚ Rat.sqrt) scenarioB2.1 2 (1 / 1000000)
      scenarioB2.2).2 = KSP_CONVERGED_RTOL := by
  have hyp : ((1 / 1000000 : ℚ) ≤ (if (2 : Int) = 0
        then max (scenarioB2.1.rtol * (1 / 1000000)) scenarioB2.1.atol
        else scenarioB2.1.ttol)) := by
    rw [if_neg (by decide), scenarioB2_eval.1]
    norm_num
  refine ⟨hyp, scenarioB1_eval.2.2.2.2.2, scenarioB2_eval.2.2.2.2.2, ?_⟩
  refine (KSPDefaultConverged_convergent Rat.sqrt scenarioB2.1 2 (1 / 1000000)
    scenarioB2.2 hyp).2.2.2 ?_
  rw [scenarioB2_eval.2.2.2.1]
  norm_num

/-- C2. `KSPDefaultConverged`, divergent branch, in exact arithmetic: a residual norm
`rnorm > ttol` gives `KSP_DIVERGED_DTOL` when `rnorm >= divtol*rnorm0` and
`KSP_CONVERGED_ITERATING` otherwise (`ttol` and `rnorm0` as captured at `n = 0`, the stored
ones otherwise); and the result never depends on the verdict found behind the output
pointer, which is overwritten. -/
theorem KSPDefaultConverged_divergent {α : Type} [LinearOrderedField α] (sqrt : α → α)
    (ksp : KSP α) (n : Int) (rnorm : α) (reason : KSPConvergedReason)
    (h : (if n = 0 then max (ksp.rtol * rnorm) ksp.atol else ksp.ttol) < rnorm) :
    (ksp.divtol * (if n = 0 then rnorm else ksp.rnorm0) ≤ rnorm →
      (KSPDefaultConverged (Arith.exact α sqrt) ksp n rnorm reason).2 = KSP_DIVERGED_DTOL) ∧
    (rnorm < ksp.divtol * (if n = 0 then rnorm else ksp.rnorm0) →
      (KSPDefaultConverged (Arith.exact α sqrt) ksp n rnorm reason).2
        = KSP_CONVERGED_ITERATING) ∧
    (∀ prior : KSPConvergedReason,
      KSPDefaultConverged (Arith.exact α sqrt) ksp n rnorm prior
        = KSPDefaultConverged (Arith.exact α sqrt) ksp n rnorm reason) := by
  have hmax := PetscMax_exact sqrt (ksp.rtol * rnorm) ksp.atol
  have hne : (Arith.exact α sqrt).ne rnorm rnorm = false := by simp [Arith.exact, Arith.ne]
  refine ⟨?_, ?_, fun _ => rfl⟩
  · intro hd
    by_cases hn : n = 0
    · simp only [hn, if_true] at h hd
      have hle : (Arith.exact α sqrt).le rnorm
          (PetscMax (Arith.exact α sqrt) ((Arith.exact α sqrt).mul ksp.rtol rnorm) ksp.atol)
          = false := by
        have : (Arith.exact α sqrt).mul ksp.rtol rnorm = ksp.rtol * rnorm := rfl
        rw [this, hmax]
        simpa [Arith.exact] using h
      have hge : (Arith.exact α sqrt).ge rnorm ((Arith.exact α sqrt).mul ksp.divtol rnorm)
          = true := by
        simpa [Arith.exact, Arith.ge] using hd
      simp [KSPDefaultConverged, hn, hle, hge]
    · simp only [hn, if_false] at h hd
      have hle : (Arith.exact α sqrt).le rnorm ksp.ttol = false := by
        simpa [Arith.exact] using h
      have hge : (Arith.exact α sqrt).ge rnorm
          ((Arith.exact α sqrt).mul ksp.divtol ksp.rnorm0) = true := by
        simpa [Arith.exact, Arith.ge] using hd
      simp [KSPDefaultConverged, hn, hle, hge]
  · intro hd
    by_cases hn : n = 0
    · simp only [hn, if_true] at h hd
      have hle : (Arith.exact α sqrt).le rnorm
          (PetscMax (Arith.exact α sqrt) ((Arith.exact α sqrt).mul ksp.rtol rnorm) ksp.atol)
          = false := by
        have : (Arith.exact α sqrt).mul ksp.rtol rnorm = ksp.rtol * rnorm := rfl
        rw [this, hmax]
        simpa [Arith.exact] using h
      have hge : (Arith.exact α sqrt).ge rnorm ((Arith.exact α sqrt).mul ksp.divtol rnorm)
          = false := by
        simpa [Arith.exact, Arith.ge] using hd
      simp [KSPDefaultConverged, hn, hle, hge, hne]
    · simp only [hn, if_false] at h hd
      have hle : (Arith.exact α sqrt).le rnorm ksp.ttol = false := by
        simpa [Arith.exact] using h
      have hge : (Arith.exact α sqrt).ge rnorm
          ((Arith.exact α sqrt).mul ksp.divtol ksp.rnorm0) = false := by
        simpa [Arith.exact, Arith.ge] using hd
      simp [KSPDefaultConverged, hn, hle, hge, hne]

theorem scenarioD1_eval :
    scenarioD1.1.ttol = 1 / 1000000 ∧ scenarioD1.1.rnorm0 = 1 ∧
    scenarioD1.1.divtol = 10000 ∧ scenarioD1.2 = KSP_CONVERGED_ITERATING := by
  simp only [scenarioD1, scenarioB, KSP.ready, KSPDefaultConverged, Arith.exact, PetscMax,
    Arith.ge, Arith.ne]
  norm_num

/-- Witness of C2, Scenario D: with `divtol = 1e4` the residual norm `1` at `n = 0` gives
`ITERATING` and `2e5` at `n = 1` gives `DIVERGED_DTOL`. -/
theorem KSPDefaultConverged_divergent_witness :
    ((if (1 : Int) = 0 then max (scenarioD1.1.rtol * 200000) scenarioD1.1.atol
        else scenarioD1.1.ttol) < (200000 : ℚ)) ∧
    scenarioD1.2 = KSP_CONVERGED_ITERATING ∧
    (KSPDefaultConverged (Arith.exact ℚ Rat.sqrt) scenarioD1.1 1 200000
      scenarioD1.2).2 = KSP_DIVERGED_DTOL := by
  have hyp : ((if (1 : Int) = 0 then max (scenarioD1.1.rtol * 200000) scenarioD1.1.atol
        else scenarioD1.1.ttol) < (200000 : ℚ)) := by
    rw [if_neg (by decide), scenarioD1_eval.1]
    norm_num
  refine ⟨hyp, scenarioD1_eval.2.2.2, ?_⟩
  refine (KSPDefaultConverged_divergent Rat.sqrt scenarioD1.1 1 200000
    scenarioD1.2 hyp).1 ?_
  rw [if_neg (by decide), scenarioD1_eval.2.2.1, scenarioD1_eval.2.1]
  norm_num

/-! ## The convergence test that skips -/

/-- C8, the code at the failing input. `KSPSkipConverged` called with `KSP_CONVERGED_RTOL`
behind the output pointer returns with `KSP_CONVERGED_RTOL` still there: the verdict is not
set to `KSP_CONVERGED_ITERATING`. The solver context is returned unchanged. -/
theorem KSPSkipConverged_keeps_verdict {Sc : Type} (ksp : KSP Sc) (n : Int) (rnorm : Sc) :
    (KSPSkipConverged ksp n rnorm KSP_CONVERGED_RTOL).2 = KSP_CONVERGED_RTOL ∧
    (KSPSkipConverged ksp n rnorm KSP_CONVERGED_RTOL).2 ≠ KSP_CONVERGED_ITERATING ∧
    (KSPSkipConverged ksp n rnorm KSP_CONVERGED_RTOL).1 = ksp :=
  ⟨rfl, by simp [KSPSkipConverged], rfl⟩

/-! ## One pass through the loop body -/

theorem body_rho_zero {Sc : Type} (ar : Arith Sc) (ops : LinOps Sc)
    (converged : ConvergedTest Sc) (i : Int) (st : BCGS Sc)
    (h : ar.eq (VecDot ar st.R st.RP) ar.zero = true) :
    KSPSolve_BCGS.body ar ops converged i st
      = ({ st with ksp := { st.ksp with reason := KSP_DIVERGED_BREAKDOWN } }, true) := by
  unfold KSPSolve_BCGS.body
  simp only [h, if_true]

theorem body_break_reason {Sc : Type} (ar : Arith Sc) (ops : LinOps Sc)
    (converged : ConvergedTest Sc) (i : Int) (st : BCGS Sc)
    (h : (KSPSolve_BCGS.body ar ops converged i st).2 = true) :
    (KSPSolve_BCGS.body ar ops converged i st).1.ksp.reason ≠ KSP_CONVERGED_ITERATING := by
  revert h
  unfold KSPSolve_BCGS.body
  simp only []
  split_ifs <;> simp [KSPMonitor, KSPLogResidualHistory]

theorem body_cont_reason {Sc : Type} (ar : Arith Sc) (ops : LinOps Sc)
    (converged : ConvergedTest Sc) (i : Int) (st : BCGS Sc)
    (h : (KSPSolve_BCGS.body ar ops converged i st).2 = false) :
    (KSPSolve_BCGS.body ar ops converged i st).1.ksp.reason = KSP_CONVERGED_ITERATING := by
  revert h
  unfold KSPSolve_BCGS.body
  simp only []
  split_ifs <;> simp [KSPMonitor, KSPLogResidualHistory]

theorem body_frame {Sc : Type} (ar : Arith Sc) (ops : LinOps Sc)
    (converged : ConvergedTest Sc) (i : Int) (st : BCGS Sc) :
    (KSPSolve_BCGS.body ar ops converged i st).1.ksp.max_it = st.ksp.max_it ∧
    (KSPSolve_BCGS.body ar ops converged i st).1.ksp.pc_side = st.ksp.pc_side ∧
    (KSPSolve_BCGS.body ar ops converged i st).1.ksp.normtype = st.ksp.normtype ∧
    (KSPSolve_BCGS.body ar ops converged i st).1.ksp.rtol = st.ksp.rtol ∧
    (KSPSolve_BCGS.body ar ops converged i st).1.ksp.atol = st.ksp.atol ∧
    (KSPSolve_BCGS.body ar ops converged i st).1.ksp.divtol = st.ksp.divtol ∧
    (KSPSolve_BCGS.body ar ops converged i st).1.RP = st.RP := by
  unfold KSPSolve_BCGS.body
  simp only []
  split_ifs <;> simp [KSPMonitor, KSPLogResidualHistory, callConverged]

theorem body_its {Sc : Type} (ar : Arith Sc) (ops : LinOps Sc)
    (converged : ConvergedTest Sc) (i : Int) (st : BCGS Sc) :
    ((KSPSolve_BCGS.body ar ops converged i st).1.ksp.its = st.ksp.its ∨
     (KSPSolve_BCGS.body ar ops converged i st).1.ksp.its = st.ksp.its + 1) ∧
    ((KSPSolve_BCGS.body ar ops converged i st).2 = false →
      (KSPSolve_BCGS.body ar ops converged i st).1.ksp.its = st.ksp.its + 1) := by
  unfold KSPSolve_BCGS.body
  simp only []
  split_ifs <;> simp [KSPMonitor, KSPLogResidualHistory, callConverged]

theorem body_trace {Sc : Type} (ar : Arith Sc) (ops : LinOps Sc)
    (converged : ConvergedTest Sc) (i : Int) (st : BCGS Sc) :
    ∃ new : List (Event Sc),
      (KSPSolve_BCGS.body ar ops converged i st).1.ksp.trace = st.ksp.trace ++ new ∧
      (convergedCalls new = [] ∨ convergedCalls new = [i + 1]) ∧
      ((KSPSolve_BCGS.body ar ops converged i st).2 = false →
        convergedCalls new = [i + 1]) := by
  unfold KSPSolve_BCGS.body
  simp only []
  split_ifs
  · exact ⟨[], by simp, by simp [convergedCalls], by simp⟩
  · exact ⟨[], by simp, by simp [convergedCalls], by simp⟩
  · exact ⟨[Event.history st.dp, Event.monitor (i + 1) ar.zero],
      by simp [KSPMonitor, KSPLogResidualHistory], by simp [convergedCalls], by simp⟩
  all_goals
    simp only [KSPMonitor, KSPLogResidualHistory, callConverged, List.append_assoc,
      List.singleton_append]
    exact ⟨_, rfl, by simp [convergedCalls], by simp [convergedCalls]⟩

theorem body_baseline_default {Sc : Type} (ar : Arith Sc) (ops : LinOps Sc)
    (i : Int) (st : BCGS Sc) (hi : 0 ≤ i) :
    (KSPSolve_BCGS.body ar ops (KSPDefaultConverged ar) i st).1.ksp.ttol = st.ksp.ttol ∧
    (KSPSolve_BCGS.body ar ops (KSPDefaultConverged ar) i st).1.ksp.rnorm0 = st.ksp.rnorm0 := by
  have hne : i + 1 ≠ 0 := by omega
  unfold KSPSolve_BCGS.body
  simp only []
  split_ifs <;>
    simp [KSPMonitor, KSPLogResidualHistory, callConverged, KSPDefaultConverged_baseline, hne]

/-! ## The loop -/

/-- Hoare-style rule for the `do ... while` loop: `P` holds whenever the body is entered,
`Q` holds of the counter and the state with which the loop is left. -/
theorem loop_ind {Sc : Type} (ar : Arith Sc) (ops : LinOps Sc) (converged : ConvergedTest Sc)
    (max_it : Int) (P Q : Int → BCGS Sc → Prop)
    (hbrk : ∀ i st, P i st → (KSPSolve_BCGS.body ar ops converged i st).2 = true →
      Q i (KSPSolve_BCGS.body ar ops converged i st).1)
    (hcont : ∀ i st, P i st → (KSPSolve_BCGS.body ar ops converged i st).2 = false →
      i + 1 < max_it → P (i + 1) (KSPSolve_BCGS.body ar ops converged i st).1)
    (hexit : ∀ i st, P i st → (KSPSolve_BCGS.body ar ops converged i st).2 = false →
      ¬ (i + 1 < max_it) → Q (i + 1) (KSPSolve_BCGS.body ar ops converged i st).1)
    (i : Int) (st : BCGS Sc) (h : P i st) :
    Q (KSPSolve_BCGS.loop ar ops converged max_it i st).1
      (KSPSolve_BCGS.loop ar ops converged max_it i st).2 := by
  induction i, st using KSPSolve_BCGS.loop.induct ar ops converged max_it with
  | case1 i st out hb =>
    rw [KSPSolve_BCGS.loop]
    simp only [out] at hb
    simp only [hb, if_true]
    exact hbrk i st h hb
  | case2 i st out hb hlt ih =>
    rw [KSPSolve_BCGS.loop]
    simp only [out] at hb hlt ih
    simp only [hb, hlt, if_true]
    exact ih (hcont i st h (by simpa using hb) hlt)
  | case3 i st out hb hlt =>
    rw [KSPSolve_BCGS.loop]
    simp only [out] at hb hlt
    simp only [hb, hlt, if_false]
    exact hexit i st h (by simpa using hb) hlt

theorem convergedCalls_append {Sc : Type} (a b : List (Event Sc)) :
    convergedCalls (a ++ b) = convergedCalls a ++ convergedCalls b := by
  simp [convergedCalls, List.filterMap_append]

/-- The loop is left in the state reached after some number `k >= 1` of passes through the
body, with counter `k - 1` (by `break`) or `k`. -/
theorem loop_passes {Sc : Type} (ar : Arith Sc) (ops : LinOps Sc)
    (converged : ConvergedTest Sc) (max_it : Int) (st0 : BCGS Sc) :
    ∃ k : Nat,
      (KSPSolve_BCGS.loop ar ops converged max_it 0 st0).2
        = KSPSolve_BCGS.passes ar ops converged (k + 1) st0 ∧
      ((KSPSolve_BCGS.loop ar ops converged max_it 0 st0).1 = (k : Int) ∨
       (KSPSolve_BCGS.loop ar ops converged max_it 0 st0).1 = (k : Int) + 1) := by
  refine loop_ind ar ops converged max_it
    (fun i st => ∃ k : Nat, i = (k : Int) ∧ st = KSPSolve_BCGS.passes ar ops converged k st0)
    (fun i st => ∃ k : Nat, st = KSPSolve_BCGS.passes ar ops converged (k + 1) st0 ∧
      (i = (k : Int) ∨ i = (k : Int) + 1)) ?_ ?_ ?_ 0 st0 ⟨0, rfl, rfl⟩
  · rintro i st ⟨k, rfl, rfl⟩ _
    exact ⟨k, rfl, Or.inl rfl⟩
  · rintro i st ⟨k, rfl, rfl⟩ _ _
    exact ⟨k + 1, by push_cast; rfl, rfl⟩
  · rintro i st ⟨k, rfl, rfl⟩ _ _
    exact ⟨k, rfl, Or.inr rfl⟩

theorem passes_frame {Sc : Type} (ar : Arith Sc) (ops : LinOps Sc)
    (converged : ConvergedTest Sc) (st0 : BCGS Sc) (k : Nat) :
    (KSPSolve_BCGS.passes ar ops converged k st0).ksp.max_it = st0.ksp.max_it ∧
    (KSPSolve_BCGS.passes ar ops converged k st0).ksp.pc_side = st0.ksp.pc_side ∧
    (KSPSolve_BCGS.passes ar ops converged k st0).ksp.normtype = st0.ksp.normtype ∧
    (KSPSolve_BCGS.passes ar ops converged k st0).ksp.rtol = st0.ksp.rtol ∧
    (KSPSolve_BCGS.passes ar ops converged k st0).ksp.atol = st0.ksp.atol ∧
    (KSPSolve_BCGS.passes ar ops converged k st0).ksp.divtol = st0.ksp.divtol ∧
    (KSPSolve_BCGS.passes ar ops converged k st0).RP = st0.RP := by
  induction k with
  | zero => simp [KSPSolve_BCGS.passes]
  | succ k ih =>
    obtain ⟨h1, h2, h3, h4, h5, h6, h7⟩ :=
      body_frame ar ops converged (k : Int) (KSPSolve_BCGS.passes ar ops converged k st0)
    obtain ⟨g1, g2, g3, g4, g5, g6, g7⟩ := ih
    simp only [KSPSolve_BCGS.passes]
    exact ⟨h1.trans g1, h2.trans g2, h3.trans g3, h4.trans g4, h5.trans g5, h6.trans g6,
      h7.trans g7⟩

/-- With the default convergence test no pass through the loop body changes `ttol` or
`rnorm0`. -/
theorem passes_baseline_default {Sc : Type} (ar : Arith Sc) (ops : LinOps Sc) (st0 : BCGS Sc)
    (k : Nat) :
    (KSPSolve_BCGS.passes ar ops (KSPDefaultConverged ar) k st0).ksp.ttol = st0.ksp.ttol ∧
    (KSPSolve_BCGS.passes ar ops (KSPDefaultConverged ar) k st0).ksp.rnorm0
      = st0.ksp.rnorm0 := by
  induction k with
  | zero => simp [KSPSolve_BCGS.passes]
  | succ k ih =>
    obtain ⟨h1, h2⟩ := body_baseline_default ar ops (k : Int)
      (KSPSolve_BCGS.passes ar ops (KSPDefaultConverged ar) k st0) (Int.natCast_nonneg k)
    simp only [KSPSolve_BCGS.passes]
    exact ⟨h1.trans ih.1, h2.trans ih.2⟩

/-- The calls of the convergence test made by the loop entered at counter `0` carry the
iteration numbers `1, 2, ..., k` in this order. -/
theorem loop_trace {Sc : Type} (ar : Arith Sc) (ops : LinOps Sc)
    (converged : ConvergedTest Sc) (max_it : Int) (st0 : BCGS Sc) :
    ∃ (k : Nat) (new : List (Event Sc)),
      (KSPSolve_BCGS.loop ar ops converged max_it 0 st0).2.ksp.trace = st0.ksp.trace ++ new ∧
      convergedCalls new = (List.range k).map (fun j : Nat => (j : Int) + 1) := by
  refine loop_ind ar ops converged max_it
    (fun i st => ∃ (k : Nat) (new : List (Event Sc)), i = (k : Int) ∧
      st.ksp.trace = st0.ksp.trace ++ new ∧
      convergedCalls new = (List.range k).map (fun j : Nat => (j : Int) + 1))
    (fun _ st => ∃ (k : Nat) (new : List (Event Sc)),
      st.ksp.trace = st0.ksp.trace ++ new ∧
      convergedCalls new = (List.range k).map (fun j : Nat => (j : Int) + 1)) ?_ ?_ ?_ 0 st0
    ⟨0, [], rfl, by simp, by simp [convergedCalls]⟩
  · rintro i st ⟨k, new, rfl, htr, hc⟩ _
    obtain ⟨nb, hnb, hcalls, _⟩ := body_trace ar ops converged (k : Int) st
    rcases hcalls with h0 | h1
    · exact ⟨k, new ++ nb, by rw [hnb, htr, List.append_assoc],
        by rw [convergedCalls_append, h0, hc, List.append_nil]⟩
    · exact ⟨k + 1, new ++ nb, by rw [hnb, htr, List.append_assoc],
        by rw [convergedCalls_append, h1, hc, List.range_succ, List.map_append]; rfl⟩
  · rintro i st ⟨k, new, rfl, htr, hc⟩ hb _
    obtain ⟨nb, hnb, _, hcalls⟩ := body_trace ar ops converged (k : Int) st
    exact ⟨k + 1, new ++ nb, by push_cast; rfl, by rw [hnb, htr, List.append_assoc],
      by rw [convergedCalls_append, hcalls hb, hc, List.range_succ, List.map_append]; rfl⟩
  · rintro i st ⟨k, new, rfl, htr, hc⟩ hb _
    obtain ⟨nb, hnb, _, hcalls⟩ := body_trace ar ops converged (k : Int) st
    exact ⟨k + 1, new ++ nb, by rw [hnb, htr, List.append_assoc],
      by rw [convergedCalls_append, hcalls hb, hc, List.range_succ, List.map_append]; rfl⟩

/-! ## The whole solve -/

theorem start_trace {Sc : Type} (ar : Arith Sc) (ops : LinOps Sc)
    (converged : ConvergedTest Sc) (ksp : KSP Sc) :
    (KSPSolve_BCGS.start ar ops converged ksp).ksp.trace
      = ksp.trace ++ [Event.history (KSPSolve_BCGS.initialNorm ar ops ksp),
          Event.monitor 0 (KSPSolve_BCGS.initialNorm ar ops ksp),
          Event.converged 0 (KSPSolve_BCGS.initialNorm ar ops ksp)] := by
  simp [KSPSolve_BCGS.start, KSPSolve_BCGS.initialNorm, callConverged, KSPMonitor,
    KSPLogResidualHistory]

theorem start_frame {Sc : Type} (ar : Arith Sc) (ops : LinOps Sc)
    (converged : ConvergedTest Sc) (ksp : KSP Sc) :
    (KSPSolve_BCGS.start ar ops converged ksp).ksp.max_it = ksp.max_it ∧
    (KSPSolve_BCGS.start ar ops converged ksp).ksp.pc_side = ksp.pc_side ∧
    (KSPSolve_BCGS.start ar ops converged ksp).ksp.normtype = ksp.normtype ∧
    (KSPSolve_BCGS.start ar ops converged ksp).ksp.rtol = ksp.rtol ∧
    (KSPSolve_BCGS.start ar ops converged ksp).ksp.atol = ksp.atol ∧
    (KSPSolve_BCGS.start ar ops converged ksp).ksp.divtol = ksp.divtol ∧
    (KSPSolve_BCGS.start ar ops converged ksp).ksp.its = 0 ∧
    (KSPSolve_BCGS.start ar ops converged ksp).X = ksp.vec_sol := by
  simp [KSPSolve_BCGS.start, callConverged, KSPMonitor, KSPLogResidualHistory]

theorem start_baseline_default {Sc : Type} (ar : Arith Sc) (ops : LinOps Sc) (ksp : KSP Sc) :
    (KSPSolve_BCGS.start ar ops (KSPDefaultConverged ar) ksp).ksp.ttol
      = PetscMax ar (ar.mul ksp.rtol (KSPSolve_BCGS.initialNorm ar ops ksp)) ksp.atol ∧
    (KSPSolve_BCGS.start ar ops (KSPDefaultConverged ar) ksp).ksp.rnorm0
      = KSPSolve_BCGS.initialNorm ar ops ksp := by
  simp [KSPSolve_BCGS.start, KSPSolve_BCGS.initialNorm, callConverged, KSPMonitor,
    KSPLogResidualHistory, KSPDefaultConverged_baseline]

theorem finish_frame {Sc : Type} (ops : LinOps Sc) (i : Int) (st : BCGS Sc) :
    (KSPSolve_BCGS.finish ops i st).trace = st.ksp.trace ∧
    (KSPSolve_BCGS.finish ops i st).ttol = st.ksp.ttol ∧
    (KSPSolve_BCGS.finish ops i st).rnorm0 = st.ksp.rnorm0 ∧
    (KSPSolve_BCGS.finish ops i st).rtol = st.ksp.rtol ∧
    (KSPSolve_BCGS.finish ops i st).atol = st.ksp.atol ∧
    (KSPSolve_BCGS.finish ops i st).divtol = st.ksp.divtol ∧
    (KSPSolve_BCGS.finish ops i st).its = st.ksp.its ∧
    (KSPSolve_BCGS.finish ops i st).max_it = st.ksp.max_it := by
  unfold KSPSolve_BCGS.finish
  simp only []
  split_ifs <;> simp [BCGS.store]

/-- C7. Tolerance consistency. (1) A call of `KSPDefaultConverged` with `n != 0` returns the
solver context as it was passed: `ttol`, `rnorm0`, `rtol`, `atol`, `divtol` and every other
field are unchanged. (2) In one `KSPSolve_BCGS`, with any convergence test, the test is
called with `n = 0` first and exactly once and then with `n = 1, 2, ..., m` in this order.
(3) With the default test, `ttol` and `rnorm0` have their iteration-0 values
`PetscMax(rtol*dp0, atol)` and `dp0` after every number of passes through the loop body and
when the solve returns, `dp0` being the residual norm of iteration 0. -/
theorem tolerance_consistency {Sc : Type} (ar : Arith Sc) (ops : LinOps Sc)
    (converged : ConvergedTest Sc) (ksp0 ksp : KSP Sc) (n : Int) (rnorm : Sc)
    (reason : KSPConvergedReason) (hn : n ≠ 0) :
    (KSPDefaultConverged ar ksp n rnorm reason).1 = ksp ∧
    (∃ (m : Nat) (new : List (Event Sc)),
      (KSPSolve_BCGS ar ops converged ksp0).trace = ksp0.trace ++ new ∧
      convergedCalls new = (List.range (m + 1)).map (fun j : Nat => (j : Int))) ∧
    (∀ k : Nat,
      (KSPSolve_BCGS.passes ar ops (KSPDefaultConverged ar) k
        (KSPSolve_BCGS.enter ar (KSPSolve_BCGS.start ar ops (KSPDefaultConverged ar) ksp0))).ksp.ttol
        = PetscMax ar (ar.mul ksp0.rtol (KSPSolve_BCGS.initialNorm ar ops ksp0)) ksp0.atol ∧
      (KSPSolve_BCGS.passes ar ops (KSPDefaultConverged ar) k
        (KSPSolve_BCGS.enter ar (KSPSolve_BCGS.start ar ops (KSPDefaultConverged ar) ksp0))).ksp.rnorm0
        = KSPSolve_BCGS.initialNorm ar ops ksp0) ∧
    (KSPSolve_BCGS ar ops (KSPDefaultConverged ar) ksp0).ttol
      = PetscMax ar (ar.mul ksp0.rtol (KSPSolve_BCGS.initialNorm ar ops ksp0)) ksp0.atol ∧
    (KSPSolve_BCGS ar ops (KSPDefaultConverged ar) ksp0).rnorm0
      = KSPSolve_BCGS.initialNorm ar ops ksp0 := by
  have hstart := start_baseline_default ar ops ksp0
  have hpass : ∀ k : Nat,
      (KSPSolve_BCGS.passes ar ops (KSPDefaultConverged ar) k
        (KSPSolve_BCGS.enter ar (KSPSolve_BCGS.start ar ops (KSPDefaultConverged ar) ksp0))).ksp.ttol
        = PetscMax ar (ar.mul ksp0.rtol (KSPSolve_BCGS.initialNorm ar ops ksp0)) ksp0.atol ∧
      (KSPSolve_BCGS.passes ar ops (KSPDefaultConverged ar) k
        (KSPSolve_BCGS.enter ar (KSPSolve_BCGS.start ar ops (KSPDefaultConverged ar) ksp0))).ksp.rnorm0
        = KSPSolve_BCGS.initialNorm ar ops ksp0 := by
    intro k
    obtain ⟨h1, h2⟩ := passes_baseline_default ar ops
      (KSPSolve_BCGS.enter ar (KSPSolve_BCGS.start ar ops (KSPDefaultConverged ar) ksp0)) k
    exact ⟨h1.trans hstart.1, h2.trans hstart.2⟩
  refine ⟨?_, ?_, hpass, ?_⟩
  · rw [KSPDefaultConverged_baseline, if_neg hn]
  · unfold KSPSolve_BCGS
    simp only []
    split_ifs with hr
    · refine ⟨0, [Event.history (KSPSolve_BCGS.initialNorm ar ops ksp0),
          Event.monitor 0 (KSPSolve_BCGS.initialNorm ar ops ksp0),
          Event.converged 0 (KSPSolve_BCGS.initialNorm ar ops ksp0)], ?_, ?_⟩
      · simp only [BCGS.store]
        rw [start_trace]
      · simp [convergedCalls, List.range_succ]
    · obtain ⟨k, new, htr, hc⟩ := loop_trace ar ops converged
        (KSPSolve_BCGS.start ar ops converged ksp0).ksp.max_it
        (KSPSolve_BCGS.enter ar (KSPSolve_BCGS.start ar ops converged ksp0))
      refine ⟨k, [Event.history (KSPSolve_BCGS.initialNorm ar ops ksp0),
          Event.monitor 0 (KSPSolve_BCGS.initialNorm ar ops ksp0),
          Event.converged 0 (KSPSolve_BCGS.initialNorm ar ops ksp0)] ++ new, ?_, ?_⟩
      · rw [(finish_frame ops _ _).1, htr]
        simp only [KSPSolve_BCGS.enter]
        rw [start_trace, List.append_assoc]
      · rw [convergedCalls_append, hc, List.range_succ_eq_map, List.map_cons, List.map_map]
        simp [convergedCalls, Function.comp_def]
  · unfold KSPSolve_BCGS
    simp only []
    split_ifs with hr
    · simpa [BCGS.store] using hstart
    · obtain ⟨k, hk, _⟩ := loop_passes ar ops (KSPDefaultConverged ar)
        (KSPSolve_BCGS.start ar ops (KSPDefaultConverged ar) ksp0).ksp.max_it
        (KSPSolve_BCGS.enter ar (KSPSolve_BCGS.start ar ops (KSPDefaultConverged ar) ksp0))
      rw [(finish_frame ops _ _).2.1, (finish_frame ops _ _).2.2.1, hk]
      exact hpass (k + 1)

/-! ## Worked runs -/

theorem rat_sqrt_zero : Rat.sqrt 0 = 0 := by
  have h : (0 : ℚ) = 0 * 0 := by norm_num
  rw [h, Rat.sqrt_eq]; norm_num

theorem rat_sqrt_one : Rat.sqrt 1 = 1 := by
  have h : (1 : ℚ) = 1 * 1 := by norm_num
  rw [h, Rat.sqrt_eq]; norm_num

theorem rat_sqrt_four : Rat.sqrt 4 = 2 := by
  have h : (4 : ℚ) = 2 * 2 := by norm_num
  rw [h, Rat.sqrt_eq]; norm_num

theorem loop_break {Sc : Type} (ar : Arith Sc) (ops : LinOps Sc) (converged : ConvergedTest Sc)
    (max_it i : Int) (st : BCGS Sc)
    (h : (KSPSolve_BCGS.body ar ops converged i st).2 = true) :
    KSPSolve_BCGS.loop ar ops converged max_it i st
      = (i, (KSPSolve_BCGS.body ar ops converged i st).1) := by
  rw [KSPSolve_BCGS.loop]
  simp only [h, if_true]

theorem loop_exit {Sc : Type} (ar : Arith Sc) (ops : LinOps Sc) (converged : ConvergedTest Sc)
    (max_it i : Int) (st : BCGS Sc)
    (h : (KSPSolve_BCGS.body ar ops converged i st).2 = false) (hi : ¬ (i + 1 < max_it)) :
    KSPSolve_BCGS.loop ar ops converged max_it i st
      = (i + 1, (KSPSolve_BCGS.body ar ops converged i st).1) := by
  rw [KSPSolve_BCGS.loop]
  simp [h, hi]

theorem loop_step {Sc : Type} (ar : Arith Sc) (ops : LinOps Sc) (converged : ConvergedTest Sc)
    (max_it i : Int) (st : BCGS Sc)
    (h : (KSPSolve_BCGS.body ar ops converged i st).2 = false) (hi : i + 1 < max_it) :
    KSPSolve_BCGS.loop ar ops converged max_it i st
      = KSPSolve_BCGS.loop ar ops converged max_it (i + 1)
          (KSPSolve_BCGS.body ar ops converged i st).1 := by
  rw [KSPSolve_BCGS.loop]
  simp [h, hi]

theorem solve_of_start {Sc : Type} (ar : Arith Sc) (ops : LinOps Sc)
    (converged : ConvergedTest Sc) (ksp : KSP Sc)
    (h : (KSPSolve_BCGS.start ar ops converged ksp).ksp.reason = KSP_CONVERGED_ITERATING) :
    KSPSolve_BCGS ar ops converged ksp
      = KSPSolve_BCGS.finish ops
          (KSPSolve_BCGS.loop ar ops converged ksp.max_it 0
            (KSPSolve_BCGS.enter ar (KSPSolve_BCGS.start ar ops converged ksp))).1
          (KSPSolve_BCGS.loop ar ops converged ksp.max_it 0
            (KSPSolve_BCGS.enter ar (KSPSolve_BCGS.start ar ops converged ksp))).2 := by
  unfold KSPSolve_BCGS
  simp only [h, ne_eq, not_true_eq_false, if_false, (start_frame ar ops converged ksp).1]

theorem degenerate_enter :
    KSPSolve_BCGS.enter Arith.rat (KSPSolve_BCGS.start Arith.rat (LinOps.identity ℚ)
      (KSPDefaultConverged Arith.rat) degenerateKSP)
    = { ksp := { degenerateKSP with
                 rnorm := 1, ttol := 1 / 1000000, rnorm0 := 1,
                 trace := [Event.history 1, Event.monitor 0 1, Event.converged 0 1] },
        X := [0], R := [1], RP := [1], V := [0], T := [1], S := [0], P := [0],
        rhoold := 1, alpha := 1, omegaold := 1, dp := 1 } := by
  simp [KSPSolve_BCGS.enter, KSPSolve_BCGS.start, degenerateKSP, KSP.ready,
    LinOps.identity, KSPInitialResidual, KSP.workVec, callConverged, KSPMonitor,
    KSPLogResidualHistory, KSPDefaultConverged, VecNorm, VecDot, VecAXPY, VecCopy, VecSet,
    PetscMax, Arith.rat, Arith.exact, Arith.ge, Arith.ne, rat_sqrt_one]
  norm_num


theorem degenerate_body :
    KSPSolve_BCGS.body Arith.rat (LinOps.identity ℚ) (KSPDefaultConverged Arith.rat) 0
      (KSPSolve_BCGS.enter Arith.rat (KSPSolve_BCGS.start Arith.rat (LinOps.identity ℚ)
        (KSPDefaultConverged Arith.rat) degenerateKSP))
    = ({ ksp := { degenerateKSP with
                  rnorm := 1, ttol := 1 / 1000000, rnorm0 := 1,
                  reason := KSP_DIVERGED_BREAKDOWN,
                  trace := [Event.history 1, Event.monitor 0 1, Event.converged 0 1] },
         X := [0], R := [0], RP := [1], V := [1], T := [0], S := [0], P := [1],
         rhoold := 1, alpha := 1, omegaold := 1, dp := 1 }, true) := by
  rw [degenerate_enter]
  simp [KSPSolve_BCGS.body, degenerateKSP, KSP.ready, LinOps.identity, KSP_PCApplyBAorAB,
    VecDot, VecAXPY, VecAYPX, VecWAXPY, Arith.rat, Arith.exact]

theorem degenerate_solve :
    KSPSolve_BCGS Arith.rat (LinOps.identity ℚ) (KSPDefaultConverged Arith.rat) degenerateKSP
    = { degenerateKSP with
        work := some [[0], [1], [1], [0], [0], [1]],
        rnorm := 1, ttol := 1 / 1000000, rnorm0 := 1,
        reason := KSP_DIVERGED_BREAKDOWN,
        trace := [Event.history 1, Event.monitor 0 1, Event.converged 0 1] } := by
  rw [solve_of_start, loop_break, degenerate_body]
  · simp [KSPSolve_BCGS.finish, BCGS.store, KSPUnwindPreconditioner, degenerateKSP, KSP.ready]
  · rw [degenerate_body]
  · have h := degenerate_enter
    simp only [KSPSolve_BCGS.enter] at h
    have h2 := congrArg (fun st => st.ksp.reason) h
    simpa [degenerateKSP, KSP.ready] using h2


theorem overwrite_enter :
    KSPSolve_BCGS.enter Arith.rat (KSPSolve_BCGS.start Arith.rat overwriteOps
      (KSPDefaultConverged Arith.rat) overwriteKSP)
    = { ksp := { overwriteKSP with
                 rnorm := 2, ttol := 1 / 500000, rnorm0 := 2,
                 trace := [Event.history 2, Event.monitor 0 2, Event.converged 0 2] },
        X := [0, 0], R := [0, 2], RP := [0, 2], V := [0, 0], T := [0, 2], S := [0, 0],
        P := [0, 0], rhoold := 1, alpha := 1, omegaold := 1, dp := 2 } := by
  simp [KSPSolve_BCGS.enter, KSPSolve_BCGS.start, overwriteKSP, overwriteOps, KSP.ready,
    LinOps.ofRows, KSPInitialResidual, KSP.workVec, callConverged, KSPMonitor,
    KSPLogResidualHistory, KSPDefaultConverged, VecNorm, VecDot, VecAXPY, VecCopy, VecSet,
    PetscMax, Arith.rat, Arith.exact, Arith.ge, Arith.ne, rat_sqrt_four]
  norm_num [rat_sqrt_four]

theorem overwrite_body :
    KSPSolve_BCGS.body Arith.rat overwriteOps (KSPDefaultConverged Arith.rat) 0
      (KSPSolve_BCGS.enter Arith.rat (KSPSolve_BCGS.start Arith.rat overwriteOps
        (KSPDefaultConverged Arith.rat) overwriteKSP))
    = ({ ksp := { overwriteKSP with
                  its := 1, rnorm := 0, ttol := 1 / 500000, rnorm0 := 2,
                  reason := KSP_CONVERGED_ATOL,
                  trace := [Event.history 2, Event.monitor 0 2, Event.converged 0 2,
                    Event.history 0, Event.monitor 1 0, Event.converged 1 0] },
         X := [-1, 1], R := [0, 0], RP := [0, 2], V := [2, 4], T := [-1, 0], S := [-1, 0],
         P := [0, 2], rhoold := 4, alpha := 1 / 2, omegaold := 1, dp := 0 }, true) := by
  rw [overwrite_enter]
  simp [KSPSolve_BCGS.body, overwriteKSP, overwriteOps, KSP.ready, LinOps.ofRows,
    KSP_PCApplyBAorAB, callConverged, KSPMonitor, KSPLogResidualHistory, KSPDefaultConverged,
    VecNorm, VecDot, VecAXPY, VecAYPX, VecWAXPY, PetscMax, Arith.rat, Arith.exact, Arith.ge,
    Arith.ne, rat_sqrt_zero]
  norm_num [rat_sqrt_zero]
  decide


theorem overwrite_solve :
    KSPSolve_BCGS Arith.rat overwriteOps (KSPDefaultConverged Arith.rat) overwriteKSP
    = { overwriteKSP with
        vec_sol := [-1, 1],
        work := some [[0, 0], [0, 2], [2, 4], [-1, 0], [-1, 0], [0, 2]],
        its := 1, rnorm := 0, ttol := 1 / 500000, rnorm0 := 2,
        reason := KSP_DIVERGED_ITS,
        trace := [Event.history 2, Event.monitor 0 2, Event.converged 0 2,
          Event.history 0, Event.monitor 1 0, Event.converged 1 0] } := by
  rw [solve_of_start, loop_break, overwrite_body]
  · simp [KSPSolve_BCGS.finish, BCGS.store, KSPUnwindPreconditioner, overwriteKSP, KSP.ready]
  · rw [overwrite_body]
  · have h := congrArg (fun st => st.ksp.reason) overwrite_enter
    simpa [KSPSolve_BCGS.enter, overwriteKSP, KSP.ready] using h

theorem zeroRhs_enter :
    KSPSolve_BCGS.enter Arith.rat (KSPSolve_BCGS.start Arith.rat (LinOps.identity ℚ)
      KSPSkipConverged zeroRhsKSP)
    = { ksp := { zeroRhsKSP with
                 trace := [Event.history 0, Event.monitor 0 0, Event.converged 0 0] },
        X := [0, 0], R := [0, 0], RP := [0, 0], V := [0, 0], T := [0, 0], S := [0, 0],
        P := [0, 0], rhoold := 1, alpha := 1, omegaold := 1, dp := 0 } := by
  simp [KSPSolve_BCGS.enter, KSPSolve_BCGS.start, zeroRhsKSP, KSP.ready,
    LinOps.identity, KSPInitialResidual, KSP.workVec, callConverged, KSPMonitor,
    KSPLogResidualHistory, KSPSkipConverged, VecAXPY, VecCopy, VecSet,
    Arith.rat, Arith.exact]

theorem zeroRhs_body :
    KSPSolve_BCGS.body Arith.rat (LinOps.identity ℚ) KSPSkipConverged 0
      (KSPSolve_BCGS.enter Arith.rat (KSPSolve_BCGS.start Arith.rat (LinOps.identity ℚ)
        KSPSkipConverged zeroRhsKSP))
    = ({ ksp := { zeroRhsKSP with
                  reason := KSP_DIVERGED_BREAKDOWN,
                  trace := [Event.history 0, Event.monitor 0 0, Event.converged 0 0] },
         X := [0, 0], R := [0, 0], RP := [0, 0], V := [0, 0], T := [0, 0], S := [0, 0],
         P := [0, 0], rhoold := 1, alpha := 1, omegaold := 1, dp := 0 }, true) := by
  rw [zeroRhs_enter, body_rho_zero]
  simp [VecDot, Arith.rat, Arith.exact]

theorem zeroRhs_solve :
    KSPSolve_BCGS Arith.rat (LinOps.identity ℚ) KSPSkipConverged zeroRhsKSP
    = { zeroRhsKSP with
        work := some [[0, 0], [0, 0], [0, 0], [0, 0], [0, 0], [0, 0]],
        reason := KSP_DIVERGED_ITS,
        trace := [Event.history 0, Event.monitor 0 0, Event.converged 0 0] } := by
  rw [solve_of_start, loop_break, zeroRhs_body]
  · simp [KSPSolve_BCGS.finish, BCGS.store, KSPUnwindPreconditioner, zeroRhsKSP, KSP.ready,
      Arith.rat, Arith.exact]
  · rw [zeroRhs_body]
  · have h := congrArg (fun st => st.ksp.reason) zeroRhs_enter
    simpa [KSPSolve_BCGS.enter, zeroRhsKSP, KSP.ready] using h

theorem limitZero_enter :
    KSPSolve_BCGS.enter Arith.rat (KSPSolve_BCGS.start Arith.rat limitZeroOps
      KSPSkipConverged limitZeroKSP)
    = { ksp := { limitZeroKSP with
                 trace := [Event.history 0, Event.monitor 0 0, Event.converged 0 0] },
        X := [0, 0], R := [1, 1], RP := [1, 1], V := [0, 0], T := [1, 1], S := [0, 0],
        P := [0, 0], rhoold := 1, alpha := 1, omegaold := 1, dp := 0 } := by
  simp [KSPSolve_BCGS.enter, KSPSolve_BCGS.start, limitZeroKSP, limitZeroOps, KSP.ready,
    LinOps.ofRows, KSPInitialResidual, KSP.workVec, callConverged, KSPMonitor,
    KSPLogResidualHistory, KSPSkipConverged, VecDot, VecAXPY, VecCopy, VecSet,
    Arith.rat, Arith.exact]

theorem limitZero_body :
    KSPSolve_BCGS.body Arith.rat limitZeroOps KSPSkipConverged 0
      (KSPSolve_BCGS.enter Arith.rat (KSPSolve_BCGS.start Arith.rat limitZeroOps
        KSPSkipConverged limitZeroKSP))
    = ({ ksp := { limitZeroKSP with
                  its := 1,
                  trace := [Event.history 0, Event.monitor 0 0, Event.converged 0 0,
                    Event.history 0, Event.monitor 1 0, Event.converged 1 0] },
         X := [13 / 15, 7 / 15], R := [2 / 15, 1 / 15], RP := [1, 1], V := [1, 2],
         T := [1 / 3, -2 / 3], S := [1 / 3, -1 / 3], P := [1, 1],
         rhoold := 2, alpha := 2 / 3, omegaold := 3 / 5, dp := 0 }, false) := by
  rw [limitZero_enter]
  simp [KSPSolve_BCGS.body, limitZeroKSP, limitZeroOps, KSP.ready, LinOps.ofRows,
    KSP_PCApplyBAorAB, callConverged, KSPMonitor, KSPLogResidualHistory, KSPSkipConverged,
    VecDot, VecAXPY, VecAYPX, VecWAXPY, Arith.rat, Arith.exact]
  norm_num

theorem limitZero_solve :
    KSPSolve_BCGS Arith.rat limitZeroOps KSPSkipConverged limitZeroKSP
    = { limitZeroKSP with
        vec_sol := [13 / 15, 7 / 15],
        work := some [[2 / 15, 1 / 15], [1, 1], [1, 2], [1 / 3, -2 / 3], [1 / 3, -1 / 3],
          [1, 1]],
        its := 1,
        trace := [Event.history 0, Event.monitor 0 0, Event.converged 0 0,
          Event.history 0, Event.monitor 1 0, Event.converged 1 0] } := by
  rw [solve_of_start, loop_exit, limitZero_body]
  · simp [KSPSolve_BCGS.finish, BCGS.store, KSPUnwindPreconditioner, limitZeroKSP, KSP.ready]
  · rw [limitZero_body]
  · simp [limitZeroKSP, KSP.ready]
  · have h := congrArg (fun st => st.ksp.reason) limitZero_enter
    simpa [KSPSolve_BCGS.enter, limitZeroKSP, KSP.ready] using h


theorem rotation_enter :
    KSPSolve_BCGS.enter (Arith.withNaN Rat.sqrt) (KSPSolve_BCGS.start (Arith.withNaN Rat.sqrt)
      rotationOps KSPSkipConverged rotationKSP)
    = { ksp := { rotationKSP with
                 trace := [Event.history (some 0), Event.monitor 0 (some 0),
                   Event.converged 0 (some 0)] },
        X := [some 0, some 0], R := [some 1, some 0], RP := [some 1, some 0],
        V := [some 0, some 0], T := [some 1, some 0], S := [some 0, some 0],
        P := [some 0, some 0], rhoold := some 1, alpha := some 1, omegaold := some 1,
        dp := some 0 } := by
  simp [KSPSolve_BCGS.enter, KSPSolve_BCGS.start, rotationKSP, rotationOps, KSP.ready,
    LinOps.ofRows, KSPInitialResidual, KSP.workVec, callConverged, KSPMonitor,
    KSPLogResidualHistory, KSPSkipConverged, VecDot, VecAXPY, VecCopy, VecSet,
    Arith.withNaN]

theorem rotation_body :
    KSPSolve_BCGS.body (Arith.withNaN Rat.sqrt) rotationOps KSPSkipConverged 0
      (KSPSolve_BCGS.enter (Arith.withNaN Rat.sqrt) (KSPSolve_BCGS.start
        (Arith.withNaN Rat.sqrt) rotationOps KSPSkipConverged rotationKSP))
    = ({ ksp := { rotationKSP with
                  its := 1,
                  trace := [Event.history (some 0), Event.monitor 0 (some 0),
                    Event.converged 0 (some 0), Event.history (some 0),
                    Event.monitor 1 (some 0), Event.converged 1 (some 0)] },
         X := [none, none], R := [none, none], RP := [some 1, some 0],
         V := [some 0, some (-1)], T := [none, none], S := [none, none],
         P := [some 1, some 0], rhoold := some 1, alpha := none, omegaold := none,
         dp := some 0 }, false) := by
  rw [rotation_enter]
  simp [KSPSolve_BCGS.body, rotationKSP, rotationOps, KSP.ready, LinOps.ofRows,
    KSP_PCApplyBAorAB, callConverged, KSPMonitor, KSPLogResidualHistory, KSPSkipConverged,
    VecDot, VecAXPY, VecAYPX, VecWAXPY, Arith.withNaN]


theorem rotation_body2 :
    KSPSolve_BCGS.body (Arith.withNaN Rat.sqrt) rotationOps KSPSkipConverged (0 + 1)
      (KSPSolve_BCGS.body (Arith.withNaN Rat.sqrt) rotationOps KSPSkipConverged 0
        (KSPSolve_BCGS.enter (Arith.withNaN Rat.sqrt) (KSPSolve_BCGS.start
          (Arith.withNaN Rat.sqrt) rotationOps KSPSkipConverged rotationKSP))).1
    = ({ ksp := { rotationKSP with
                  its := 2,
                  trace := [Event.history (some 0), Event.monitor 0 (some 0),
                    Event.converged 0 (some 0), Event.history (some 0),
                    Event.monitor 1 (some 0), Event.converged 1 (some 0),
                    Event.history (some 0), Event.monitor 2 (some 0),
                    Event.converged 2 (some 0)] },
         X := [none, none], R := [none, none], RP := [some 1, some 0],
         V := [none, none], T := [none, none], S := [none, none],
         P := [none, none], rhoold := none, alpha := none, omegaold := none,
         dp := some 0 }, false) := by
  rw [rotation_body]
  simp [KSPSolve_BCGS.body, rotationKSP, rotationOps, KSP.ready, LinOps.ofRows,
    KSP_PCApplyBAorAB, callConverged, KSPMonitor, KSPLogResidualHistory, KSPSkipConverged,
    VecDot, VecAXPY, VecAYPX, VecWAXPY, Arith.withNaN]

theorem rotation_body3 :
    KSPSolve_BCGS.body (Arith.withNaN Rat.sqrt) rotationOps KSPSkipConverged (0 + 1 + 1)
      (KSPSolve_BCGS.body (Arith.withNaN Rat.sqrt) rotationOps KSPSkipConverged (0 + 1)
        (KSPSolve_BCGS.body (Arith.withNaN Rat.sqrt) rotationOps KSPSkipConverged 0
          (KSPSolve_BCGS.enter (Arith.withNaN Rat.sqrt) (KSPSolve_BCGS.start
            (Arith.withNaN Rat.sqrt) rotationOps KSPSkipConverged rotationKSP))).1).1
    = ({ ksp := { rotationKSP with
                  its := 3,
                  trace := [Event.history (some 0), Event.monitor 0 (some 0),
                    Event.converged 0 (some 0), Event.history (some 0),
                    Event.monitor 1 (some 0), Event.converged 1 (some 0),
                    Event.history (some 0), Event.monitor 2 (some 0),
                    Event.converged 2 (some 0), Event.history (some 0),
                    Event.monitor 3 (some 0), Event.converged 3 (some 0)] },
         X := [none, none], R := [none, none], RP := [some 1, some 0],
         V := [none, none], T := [none, none], S := [none, none],
         P := [none, none], rhoold := none, alpha := none, omegaold := none,
         dp := some 0 }, false) := by
  rw [rotation_body2]
  simp [KSPSolve_BCGS.body, rotationKSP, rotationOps, KSP.ready, LinOps.ofRows,
    KSP_PCApplyBAorAB, callConverged, KSPMonitor, KSPLogResidualHistory, KSPSkipConverged,
    VecDot, VecAXPY, VecAYPX, VecWAXPY, Arith.withNaN]

theorem rotation_solve_its :
    (KSPSolve_BCGS (Arith.withNaN Rat.sqrt) rotationOps KSPSkipConverged rotationKSP).its = 3 := by
  have h0 : (KSPSolve_BCGS.start (Arith.withNaN Rat.sqrt) rotationOps KSPSkipConverged
      rotationKSP).ksp.reason = KSP_CONVERGED_ITERATING := by
    have h := congrArg (fun st => st.ksp.reason) rotation_enter
    simpa [KSPSolve_BCGS.enter, rotationKSP, KSP.ready] using h
  have hm : rotationKSP.max_it = 3 := rfl
  rw [solve_of_start _ _ _ _ h0, hm,
    loop_step _ _ _ _ _ _ (by rw [rotation_body]) (by norm_num),
    loop_step _ _ _ _ _ _ (by rw [rotation_body2]) (by norm_num),
    loop_exit _ _ _ _ _ _ (by rw [rotation_body3]) (by norm_num), rotation_body3]
  simp [KSPSolve_BCGS.finish, BCGS.store, KSPUnwindPreconditioner, rotationKSP, KSP.ready]


theorem scenarioC_enter {α : Type} [LinearOrderedField α] (sqrt : α → α) (h : 1 ≤ sqrt 2) :
    KSPSolve_BCGS.enter (Arith.exact α sqrt) (KSPSolve_BCGS.start (Arith.exact α sqrt)
      (scenarioCOps α sqrt) (KSPDefaultConverged (Arith.exact α sqrt)) (scenarioC α sqrt))
    = { ksp := { scenarioC α sqrt with
                 rnorm := sqrt 2, ttol := 1 / 1000000 * sqrt 2, rnorm0 := sqrt 2,
                 trace := [Event.history (sqrt 2), Event.monitor 0 (sqrt 2),
                   Event.converged 0 (sqrt 2)] },
        X := [0, 0], R := [1, 1], RP := [1, 1], V := [0, 0], T := [1, 1], S := [0, 0],
        P := [0, 0], rhoold := 1, alpha := 1, omegaold := 1, dp := sqrt 2 } := by
  have hpos : (0 : α) < sqrt 2 := lt_of_lt_of_le one_pos h
  have h1 : ¬ ((1000000 : α)⁻¹ * sqrt 2 < 1000000000000⁻¹) := by
    rw [not_lt]
    have : (1000000 : α)⁻¹ * 1 ≤ 1000000⁻¹ * sqrt 2 :=
      mul_le_mul_of_nonneg_left h (by norm_num)
    have h' : (1000000000000 : α)⁻¹ ≤ 1000000⁻¹ * 1 := by norm_num
    exact le_trans h' this
  have h2 : ¬ (sqrt 2 ≤ (1000000 : α)⁻¹ * sqrt 2) := by
    rw [not_le]
    have : (1000000 : α)⁻¹ * sqrt 2 < 1 * sqrt 2 :=
      mul_lt_mul_of_pos_right (by norm_num) hpos
    simpa using this
  have h3 : ¬ (10000 * sqrt 2 ≤ sqrt 2) := by
    rw [not_le]; linarith
  have e2 : (1 : α) + 1 = 2 := by norm_num
  simp [KSPSolve_BCGS.enter, KSPSolve_BCGS.start, scenarioC, scenarioCOps, KSP.ready,
    LinOps.ofRows, KSPInitialResidual, KSP.workVec, callConverged, KSPMonitor,
    KSPLogResidualHistory, KSPDefaultConverged, VecNorm, VecDot, VecAXPY, VecCopy, VecSet,
    PetscMax, Arith.exact, Arith.ge, Arith.ne, e2, h1, h2, h3]

theorem scenarioC_body {α : Type} [LinearOrderedField α] (sqrt : α → α) (h : 1 ≤ sqrt 2) :
    KSPSolve_BCGS.body (Arith.exact α sqrt) (scenarioCOps α sqrt)
      (KSPDefaultConverged (Arith.exact α sqrt)) 0
      (KSPSolve_BCGS.enter (Arith.exact α sqrt) (KSPSolve_BCGS.start (Arith.exact α sqrt)
        (scenarioCOps α sqrt) (KSPDefaultConverged (Arith.exact α sqrt)) (scenarioC α sqrt)))
    = ({ ksp := { scenarioC α sqrt with
                  rnorm := sqrt 2, ttol := 1 / 1000000 * sqrt 2, rnorm0 := sqrt 2,
                  reason := KSP_DIVERGED_BREAKDOWN,
                  trace := [Event.history (sqrt 2), Event.monitor 0 (sqrt 2),
                    Event.converged 0 (sqrt 2)] },
         X := [0, 0], R := [0, 0], RP := [1, 1], V := [1, 1], T := [0, 0], S := [0, 0],
         P := [1, 1], rhoold := 1, alpha := 1, omegaold := 1, dp := sqrt 2 }, true) := by
  have e2 : (1 : α) + 1 = 2 := by norm_num
  rw [scenarioC_enter sqrt h]
  simp [KSPSolve_BCGS.body, scenarioC, scenarioCOps, KSP.ready, LinOps.ofRows,
    KSP_PCApplyBAorAB, VecDot, VecAXPY, VecAYPX, VecWAXPY, Arith.exact, e2]

theorem scenarioC_solve {α : Type} [LinearOrderedField α] (sqrt : α → α) (h : 1 ≤ sqrt 2) :
    KSPSolve_BCGS (Arith.exact α sqrt) (scenarioCOps α sqrt)
      (KSPDefaultConverged (Arith.exact α sqrt)) (scenarioC α sqrt)
    = { scenarioC α sqrt with
        work := some [[0, 0], [1, 1], [1, 1], [0, 0], [0, 0], [1, 1]],
        rnorm := sqrt 2, ttol := 1 / 1000000 * sqrt 2, rnorm0 := sqrt 2,
        reason := KSP_DIVERGED_BREAKDOWN,
        trace := [Event.history (sqrt 2), Event.monitor 0 (sqrt 2),
          Event.converged 0 (sqrt 2)] } := by
  rw [solve_of_start, loop_break, scenarioC_body sqrt h]
  · simp [KSPSolve_BCGS.finish, BCGS.store, KSPUnwindPreconditioner, scenarioC, KSP.ready]
  · rw [scenarioC_body sqrt h]
  · have h := congrArg (fun st => st.ksp.reason) (scenarioC_enter sqrt h)
    simpa [KSPSolve_BCGS.enter, scenarioC, KSP.ready] using h


/-- What the degenerate branch of the loop body does, for any arithmetic: when `<r,rp>` is
not zero and `<t,t>` is zero, the loop is left; with `<s,s>` zero the verdict is
`KSP_DIVERGED_BREAKDOWN` and neither `x` nor the iteration counter nor the trace changes;
with `<s,s>` not zero the verdict is `KSP_CONVERGED_RTOL`, `x` becomes `x + alpha p`, the
iteration counter is incremented and `rnorm` is set to zero. -/
theorem body_degenerate {Sc : Type} (ar : Arith Sc) (ops : LinOps Sc)
    (converged : ConvergedTest Sc) (i : Int) (st : BCGS Sc)
    (hrho : ar.eq (VecDot ar st.R st.RP) ar.zero = false)
    (hd2 : ar.eq (VecDot ar (KSPSolve_BCGS.body ar ops converged i st).1.T
      (KSPSolve_BCGS.body ar ops converged i st).1.T) ar.zero = true) :
    (KSPSolve_BCGS.body ar ops converged i st).2 = true ∧
    (ar.eq (VecDot ar (KSPSolve_BCGS.body ar ops converged i st).1.S
        (KSPSolve_BCGS.body ar ops converged i st).1.S) ar.zero = true →
      (KSPSolve_BCGS.body ar ops converged i st).1.ksp.reason = KSP_DIVERGED_BREAKDOWN ∧
      (KSPSolve_BCGS.body ar ops converged i st).1.X = st.X ∧
      (KSPSolve_BCGS.body ar ops converged i st).1.ksp.its = st.ksp.its ∧
      (KSPSolve_BCGS.body ar ops converged i st).1.ksp.rnorm = st.ksp.rnorm ∧
      (KSPSolve_BCGS.body ar ops converged i st).1.ksp.trace = st.ksp.trace) ∧
    (ar.eq (VecDot ar (KSPSolve_BCGS.body ar ops converged i st).1.S
        (KSPSolve_BCGS.body ar ops converged i st).1.S) ar.zero = false →
      (KSPSolve_BCGS.body ar ops converged i st).1.ksp.reason = KSP_CONVERGED_RTOL ∧
      (KSPSolve_BCGS.body ar ops converged i st).1.X
        = VecAXPY ar (KSPSolve_BCGS.body ar ops converged i st).1.alpha
            (KSPSolve_BCGS.body ar ops converged i st).1.P st.X ∧
      (KSPSolve_BCGS.body ar ops converged i st).1.ksp.its = st.ksp.its + 1 ∧
      (KSPSolve_BCGS.body ar ops converged i st).1.ksp.rnorm = ar.zero ∧
      (KSPSolve_BCGS.body ar ops converged i st).1.ksp.trace
        = st.ksp.trace ++ [Event.history st.dp, Event.monitor (i + 1) ar.zero]) := by
  revert hd2
  unfold KSPSolve_BCGS.body
  simp only [hrho, Bool.false_eq_true, if_false]
  split_ifs with h2 h1 hn
  · intro _
    simp [h1]
  · intro _
    simp [h1, KSPMonitor, KSPLogResidualHistory]
  · intro hd2
    exact absurd hd2 h2
  · intro hd2
    exact absurd hd2 h2


/-- For an iteration limit other than `0`, a verdict other than `KSP_CONVERGED_ITERATING`
with which the loop is left is the verdict with which the solve returns. -/
theorem verdict_kept_of_limit_ne_zero {Sc : Type} (ar : Arith Sc) (ops : LinOps Sc)
    (converged : ConvergedTest Sc) (st0 : BCGS Sc) (hmax : st0.ksp.max_it ≠ 0)
    (hr : (KSPSolve_BCGS.loop ar ops converged st0.ksp.max_it 0 st0).2.ksp.reason
      ≠ KSP_CONVERGED_ITERATING) :
    (KSPSolve_BCGS.finish ops (KSPSolve_BCGS.loop ar ops converged st0.ksp.max_it 0 st0).1
      (KSPSolve_BCGS.loop ar ops converged st0.ksp.max_it 0 st0).2).reason
    = (KSPSolve_BCGS.loop ar ops converged st0.ksp.max_it 0 st0).2.ksp.reason := by
  have key := loop_ind ar ops converged st0.ksp.max_it
    (fun i st => (i = 0 ∨ i < st0.ksp.max_it) ∧ st.ksp.max_it = st0.ksp.max_it)
    (fun i st => st.ksp.max_it = st0.ksp.max_it ∧
      (st.ksp.reason ≠ KSP_CONVERGED_ITERATING → i ≠ st0.ksp.max_it))
    (by
      rintro i st ⟨hi, hm⟩ _
      refine ⟨(body_frame ar ops converged i st).1.trans hm, fun _ => ?_⟩
      rcases hi with h0 | hlt
      · rw [h0]; exact fun h => hmax h.symm
      · exact ne_of_lt hlt)
    (by
      rintro i st ⟨_, hm⟩ _ hlt
      exact ⟨Or.inr hlt, (body_frame ar ops converged i st).1.trans hm⟩)
    (by
      rintro i st ⟨_, hm⟩ hb _
      refine ⟨(body_frame ar ops converged i st).1.trans hm, fun hne => ?_⟩
      exact absurd (body_cont_reason ar ops converged i st hb) hne)
    0 st0 ⟨Or.inl rfl, rfl⟩
  obtain ⟨hm, hi⟩ := key
  have hne := hi hr
  unfold KSPSolve_BCGS.finish
  simp only [hm, hne, if_false, BCGS.store]

/-- For an iteration limit of at least `1`, the loop entered with iteration count `0` is
left with an iteration count of at most the limit. -/
theorem its_le_limit_of_one_le {Sc : Type} (ar : Arith Sc) (ops : LinOps Sc)
    (converged : ConvergedTest Sc) (max_it : Int) (st0 : BCGS Sc) (hmax : 1 ≤ max_it)
    (h0 : st0.ksp.its = 0) :
    (KSPSolve_BCGS.loop ar ops converged max_it 0 st0).2.ksp.its ≤ max_it := by
  refine loop_ind ar ops converged max_it
    (fun i st => st.ksp.its = i ∧ i < max_it)
    (fun _ st => st.ksp.its ≤ max_it) ?_ ?_ ?_ 0 st0 ⟨h0, by omega⟩
  · rintro i st ⟨hi, hlt⟩ _
    rcases (body_its ar ops converged i st).1 with h | h <;> omega
  · rintro i st ⟨hi, _⟩ hb hlt
    exact ⟨by rw [(body_its ar ops converged i st).2 hb, hi], hlt⟩
  · rintro i st ⟨hi, hlt⟩ hb _
    rw [(body_its ar ops converged i st).2 hb]
    omega

/-! ## Statements about the BiCGStab engine -/

/-- Witness of C7: a call of `KSPDefaultConverged` at `n = 1` leaves the solver context of
Scenario B unchanged, and the solve of `degenerateKSP` returns with `rnorm0` and `ttol` at
their iteration-0 values. -/
theorem tolerance_consistency_witness :
    (1 : Int) ≠ 0 ∧
    (KSPDefaultConverged Arith.rat scenarioB1.1 1 1 scenarioB1.2).1 = scenarioB1.1 ∧
    (KSPSolve_BCGS Arith.rat (LinOps.identity ℚ) (KSPDefaultConverged Arith.rat)
      degenerateKSP).ttol
      = PetscMax Arith.rat (Arith.rat.mul degenerateKSP.rtol
          (KSPSolve_BCGS.initialNorm Arith.rat (LinOps.identity ℚ) degenerateKSP))
          degenerateKSP.atol ∧
    (KSPSolve_BCGS Arith.rat (LinOps.identity ℚ) (KSPDefaultConverged Arith.rat)
      degenerateKSP).rnorm0
      = KSPSolve_BCGS.initialNorm Arith.rat (LinOps.identity ℚ) degenerateKSP :=
  ⟨by decide,
   (tolerance_consistency Arith.rat (LinOps.identity ℚ) (KSPDefaultConverged Arith.rat)
      degenerateKSP scenarioB1.1 1 1 scenarioB1.2 (by decide)).1,
   (tolerance_consistency Arith.rat (LinOps.identity ℚ) (KSPDefaultConverged Arith.rat)
      degenerateKSP scenarioB1.1 1 1 scenarioB1.2 (by decide)).2.2.2⟩

/-- C3, the code at the failing input `[1] x = [1]`, `x0 = 0`. In the first iteration
`<t,t>` and `<s,s>` are both zero; the loop is left with `KSP_DIVERGED_BREAKDOWN`, `x` is
still `[0]` and the iteration counter still `0`, although `x + alpha p` is the solution
`[1]`; the solve returns `KSP_DIVERGED_BREAKDOWN` with `x = [0]`. -/
theorem degenerate_step_diverges :
    Arith.rat.eq (VecDot Arith.rat degenerateStep.1.T degenerateStep.1.T) Arith.rat.zero
      = true ∧
    Arith.rat.eq (VecDot Arith.rat degenerateStep.1.S degenerateStep.1.S) Arith.rat.zero
      = true ∧
    degenerateStep.2 = true ∧
    degenerateStep.1.ksp.reason = KSP_DIVERGED_BREAKDOWN ∧
    degenerateStep.1.X = [0] ∧
    degenerateStep.1.ksp.its = 0 ∧
    VecAXPY Arith.rat degenerateStep.1.alpha degenerateStep.1.P degenerateEntry.X = [1] ∧
    (KSPSolve_BCGS Arith.rat (LinOps.identity ℚ) (KSPDefaultConverged Arith.rat)
      degenerateKSP).reason = KSP_DIVERGED_BREAKDOWN ∧
    (KSPSolve_BCGS Arith.rat (LinOps.identity ℚ) (KSPDefaultConverged Arith.rat)
      degenerateKSP).vec_sol = [0] ∧
    (KSPSolve_BCGS Arith.rat (LinOps.identity ℚ) (KSPDefaultConverged Arith.rat)
      degenerateKSP).its = 0 := by
  have hb : degenerateStep = _ := degenerate_body
  have he : degenerateEntry = _ := degenerate_enter
  rw [hb, he, degenerate_solve]
  simp [VecDot, VecAXPY, Arith.rat, Arith.exact, degenerateKSP, KSP.ready]

/-- C4, the code at the failing input `[[1,1],[0,2]] x = [0,2]`, `x0 = 0`, `max_it = 0`.
The first pass through the loop body computes the solution `[-1,1]`, the convergence test
sets the verdict `KSP_CONVERGED_ATOL` and the loop is left by `break`; the solve then
returns with the verdict changed to `KSP_DIVERGED_ITS`. -/
theorem verdict_overwritten_at_limit_zero :
    overwriteKSP.max_it = 0 ∧
    overwriteStep.2 = true ∧
    overwriteStep.1.ksp.reason = KSP_CONVERGED_ATOL ∧
    (KSPSolve_BCGS Arith.rat overwriteOps (KSPDefaultConverged Arith.rat)
      overwriteKSP).reason = KSP_DIVERGED_ITS ∧
    (KSPSolve_BCGS Arith.rat overwriteOps (KSPDefaultConverged Arith.rat)
      overwriteKSP).vec_sol = [-1, 1] := by
  have hb : overwriteStep = _ := overwrite_body
  rw [hb, overwrite_solve]
  simp [overwriteKSP, KSP.ready]

/-- C5, the code at the failing input `I x = [0,0]`, `x0 = 0`, `max_it = 0`, norms switched
off. At the start of the first iteration `<r,rp>` is zero; the loop is left with
`KSP_DIVERGED_BREAKDOWN` and an otherwise unchanged state, but the solve returns with
`KSP_DIVERGED_ITS`. -/
theorem breakdown_reported_as_its_at_limit_zero :
    zeroRhsKSP.max_it = 0 ∧
    Arith.rat.eq (VecDot Arith.rat zeroRhsEntry.R zeroRhsEntry.RP) Arith.rat.zero = true ∧
    zeroRhsStep
      = ({ zeroRhsEntry with
           ksp := { zeroRhsEntry.ksp with reason := KSP_DIVERGED_BREAKDOWN } }, true) ∧
    (KSPSolve_BCGS Arith.rat (LinOps.identity ℚ) KSPSkipConverged zeroRhsKSP).reason
      = KSP_DIVERGED_ITS := by
  have hb : zeroRhsStep = _ := zeroRhs_body
  have he : zeroRhsEntry = _ := zeroRhs_enter
  rw [hb, he, zeroRhs_solve]
  simp [VecDot, Arith.rat, Arith.exact, zeroRhsKSP, KSP.ready]

/-- C6, counterexample. In the solve of `[[0,1],[-1,0]] x = [1,0]`, `x0 = 0`, `max_it = 3`
with `KSPSkipConverged`, the divisor `<v,rp>` of the first iteration is zero, yet the loop is
not left in that iteration and the verdict stays `KSP_CONVERGED_ITERATING`: the solve goes
on and returns after three iterations. -/
theorem zero_vrp_not_detected :
    (Arith.withNaN Rat.sqrt).eq
      (VecDot (Arith.withNaN Rat.sqrt) rotationStep.1.V rotationStep.1.RP)
      (Arith.withNaN Rat.sqrt).zero = true ∧
    rotationStep.2 = false ∧
    rotationStep.1.ksp.reason = KSP_CONVERGED_ITERATING ∧
    rotationStep.1.ksp.its = 1 ∧
    (KSPSolve_BCGS (Arith.withNaN Rat.sqrt) rotationOps KSPSkipConverged rotationKSP).its
      = 3 := by
  have hb : rotationStep = _ := rotation_body
  rw [hb, rotation_solve_its]
  simp [VecDot, Arith.withNaN, rotationKSP, KSP.ready]

/-- C6, as amended. In every iteration, for any arithmetic and convergence test: if `<r,rp>`
is zero the loop is left in that iteration with `KSP_DIVERGED_BREAKDOWN`; if `<r,rp>` is not
zero and `<t,t>` is zero the loop is left in that iteration with `KSP_DIVERGED_BREAKDOWN` or
`KSP_CONVERGED_RTOL`. Nothing is said about a zero `<v,rp>`, which is not tested. -/
theorem zero_divisor_stops {Sc : Type} (ar : Arith Sc) (ops : LinOps Sc)
    (converged : ConvergedTest Sc) (max_it i : Int) (st : BCGS Sc) :
    (ar.eq (VecDot ar st.R st.RP) ar.zero = true →
      KSPSolve_BCGS.loop ar ops converged max_it i st
        = (i, (KSPSolve_BCGS.body ar ops converged i st).1) ∧
      (KSPSolve_BCGS.body ar ops converged i st).1.ksp.reason = KSP_DIVERGED_BREAKDOWN) ∧
    (ar.eq (VecDot ar st.R st.RP) ar.zero = false →
      ar.eq (VecDot ar (KSPSolve_BCGS.body ar ops converged i st).1.T
        (KSPSolve_BCGS.body ar ops converged i st).1.T) ar.zero = true →
      KSPSolve_BCGS.loop ar ops converged max_it i st
        = (i, (KSPSolve_BCGS.body ar ops converged i st).1) ∧
      ((KSPSolve_BCGS.body ar ops converged i st).1.ksp.reason = KSP_DIVERGED_BREAKDOWN ∨
       (KSPSolve_BCGS.body ar ops converged i st).1.ksp.reason = KSP_CONVERGED_RTOL)) := by
  constructor
  · intro h
    have hb := body_rho_zero ar ops converged i st h
    exact ⟨loop_break ar ops converged max_it i st (by rw [hb]), by rw [hb]⟩
  · intro hrho hd2
    obtain ⟨hbrk, hz, hnz⟩ := body_degenerate ar ops converged i st hrho hd2
    refine ⟨loop_break ar ops converged max_it i st hbrk, ?_⟩
    cases hs : ar.eq (VecDot ar (KSPSolve_BCGS.body ar ops converged i st).1.S
        (KSPSolve_BCGS.body ar ops converged i st).1.S) ar.zero with
    | true => exact Or.inl (hz hs).1
    | false => exact Or.inr (hnz hs).1

/-- Witness of C6 as amended: the first iteration of the solve of `zeroRhsKSP` has
`<r,rp>` zero, the first iteration of the solve of `degenerateKSP` has `<r,rp>` not zero and
`<t,t>` zero; both leave the loop with `KSP_DIVERGED_BREAKDOWN`. -/
theorem zero_divisor_stops_witness :
    (Arith.rat.eq (VecDot Arith.rat zeroRhsEntry.R zeroRhsEntry.RP) Arith.rat.zero = true ∧
      zeroRhsStep.1.ksp.reason = KSP_DIVERGED_BREAKDOWN) ∧
    (Arith.rat.eq (VecDot Arith.rat degenerateEntry.R degenerateEntry.RP) Arith.rat.zero
        = false ∧
      Arith.rat.eq (VecDot Arith.rat degenerateStep.1.T degenerateStep.1.T) Arith.rat.zero
        = true ∧
      (degenerateStep.1.ksp.reason = KSP_DIVERGED_BREAKDOWN ∨
       degenerateStep.1.ksp.reason = KSP_CONVERGED_RTOL)) := by
  have h1 : Arith.rat.eq (VecDot Arith.rat zeroRhsEntry.R zeroRhsEntry.RP) Arith.rat.zero
      = true := by
    have he : zeroRhsEntry = _ := zeroRhs_enter
    rw [he]
    simp [VecDot, Arith.rat, Arith.exact]
  have h2 : Arith.rat.eq (VecDot Arith.rat degenerateEntry.R degenerateEntry.RP)
      Arith.rat.zero = false := by
    have he : degenerateEntry = _ := degenerate_enter
    rw [he]
    simp [VecDot, Arith.rat, Arith.exact]
  have h3 : Arith.rat.eq (VecDot Arith.rat degenerateStep.1.T degenerateStep.1.T)
      Arith.rat.zero = true := by
    have hb : degenerateStep = _ := degenerate_body
    rw [hb]
    simp [VecDot, Arith.rat, Arith.exact]
  exact ⟨⟨h1, ((zero_divisor_stops Arith.rat (LinOps.identity ℚ) KSPSkipConverged 0 0
      zeroRhsEntry).1 h1).2⟩,
    h2, h3, ((zero_divisor_stops Arith.rat (LinOps.identity ℚ)
      (KSPDefaultConverged Arith.rat) 100 0 degenerateEntry).2 h2 h3).2⟩

/-- C9, the code at the failing input: Scenario C for the symmetric positive-definite matrix
`A = I`, over the real numbers with the real square root. The right-hand side is
`A [1,1]`; the solve returns `KSP_DIVERGED_BREAKDOWN` after no completed iteration, with
`x = [0,0]`. -/
theorem scenarioC_identity_breaks_down :
    (scenarioC ℝ Real.sqrt).vec_rhs = some ((scenarioCOps ℝ Real.sqrt).MatMult [1, 1]) ∧
    (KSPSolve_BCGS (Arith.exact ℝ Real.sqrt) (scenarioCOps ℝ Real.sqrt)
      (KSPDefaultConverged (Arith.exact ℝ Real.sqrt)) (scenarioC ℝ Real.sqrt)).reason
      = KSP_DIVERGED_BREAKDOWN ∧
    (KSPSolve_BCGS (Arith.exact ℝ Real.sqrt) (scenarioCOps ℝ Real.sqrt)
      (KSPDefaultConverged (Arith.exact ℝ Real.sqrt)) (scenarioC ℝ Real.sqrt)).vec_sol
      = [0, 0] ∧
    (KSPSolve_BCGS (Arith.exact ℝ Real.sqrt) (scenarioCOps ℝ Real.sqrt)
      (KSPDefaultConverged (Arith.exact ℝ Real.sqrt)) (scenarioC ℝ Real.sqrt)).its = 0 := by
  have h : (1 : ℝ) ≤ Real.sqrt 2 := Real.one_le_sqrt.mpr (by norm_num)
  rw [scenarioC_solve Real.sqrt h]
  simp [scenarioC, scenarioCOps, KSP.ready, LinOps.ofRows, VecDot, Arith.exact]

/-- C10, the code at the failing input `diag(1,2) x = [1,1]`, `x0 = 0`, `max_it = 0` with
`KSPSkipConverged`: the loop body is executed once, and the solve returns with iteration
count `1`, above the limit `0`, and with the verdict `KSP_CONVERGED_ITERATING`. -/
theorem limit_zero_runs_one_iteration :
    limitZeroKSP.max_it = 0 ∧
    (KSPSolve_BCGS Arith.rat limitZeroOps KSPSkipConverged limitZeroKSP).its = 1 ∧
    ¬ ((KSPSolve_BCGS Arith.rat limitZeroOps KSPSkipConverged limitZeroKSP).its
        ≤ limitZeroKSP.max_it) ∧
    (KSPSolve_BCGS Arith.rat limitZeroOps KSPSkipConverged limitZeroKSP).reason
      = KSP_CONVERGED_ITERATING := by
  rw [limitZero_solve]
  simp [limitZeroKSP, KSP.ready]

/-! ## The iteration limit -/

/-- A pass through the loop body does not leave the loop exactly when `<r,rp>` is not zero,
`<t,t>` is not zero and the convergence test returns `KSP_CONVERGED_ITERATING`. -/
theorem body_continues_iff {Sc : Type} (ar : Arith Sc) (ops : LinOps Sc)
    (converged : ConvergedTest Sc) (i : Int) (st : BCGS Sc) :
    (KSPSolve_BCGS.body ar ops converged i st).2 = false ↔
      (ar.eq (VecDot ar st.R st.RP) ar.zero = false ∧
       ar.eq (VecDot ar (KSPSolve_BCGS.body ar ops converged i st).1.T
         (KSPSolve_BCGS.body ar ops converged i st).1.T) ar.zero = false ∧
       (KSPSolve_BCGS.body ar ops converged i st).1.ksp.reason = KSP_CONVERGED_ITERATING) := by
  constructor
  · intro h
    refine ⟨?_, ?_, body_cont_reason ar ops converged i st h⟩
    · cases hr : ar.eq (VecDot ar st.R st.RP) ar.zero with
      | false => rfl
      | true =>
        rw [body_rho_zero ar ops converged i st hr] at h
        exact absurd h (by simp)
    · cases hr : ar.eq (VecDot ar st.R st.RP) ar.zero with
      | true =>
        rw [body_rho_zero ar ops converged i st hr] at h
        exact absurd h (by simp)
      | false =>
        cases hd : ar.eq (VecDot ar (KSPSolve_BCGS.body ar ops converged i st).1.T
            (KSPSolve_BCGS.body ar ops converged i st).1.T) ar.zero with
        | false => rfl
        | true =>
          rw [(body_degenerate ar ops converged i st hr hd).1] at h
          exact absurd h (by simp)
  · rintro ⟨_, _, hre⟩
    cases hb : (KSPSolve_BCGS.body ar ops converged i st).2 with
    | false => rfl
    | true => exact absurd hre (body_break_reason ar ops converged i st hb)

theorem passes_its_of_no_break {Sc : Type} (ar : Arith Sc) (ops : LinOps Sc)
    (converged : ConvergedTest Sc) (st0 : BCGS Sc) (n : Nat)
    (h : ∀ k : Nat, k < n →
      (KSPSolve_BCGS.body ar ops converged (k : Int)
        (KSPSolve_BCGS.passes ar ops converged k st0)).2 = false) :
    (KSPSolve_BCGS.passes ar ops converged n st0).ksp.its = st0.ksp.its + (n : Int) := by
  induction n with
  | zero => simp [KSPSolve_BCGS.passes]
  | succ n ih =>
    have h1 := (body_its ar ops converged (n : Int)
      (KSPSolve_BCGS.passes ar ops converged n st0)).2 (h n (Nat.lt_succ_self n))
    simp only [KSPSolve_BCGS.passes]
    rw [h1, ih (fun k hk => h k (Nat.lt_succ_of_lt hk))]
    push_cast
    ring

/-- When no pass leaves the loop by `break` below the iteration limit `max_it >= 1`, the
loop is left at counter `max_it`, after exactly `max_it` passes. -/
theorem loop_of_no_break {Sc : Type} (ar : Arith Sc) (ops : LinOps Sc)
    (converged : ConvergedTest Sc) (max_it : Int) (st0 : BCGS Sc) (hmax : 1 ≤ max_it)
    (h : ∀ k : Nat, (k : Int) < max_it →
      (KSPSolve_BCGS.body ar ops converged (k : Int)
        (KSPSolve_BCGS.passes ar ops converged k st0)).2 = false) :
    (KSPSolve_BCGS.loop ar ops converged max_it 0 st0).1 = max_it ∧
    (KSPSolve_BCGS.loop ar ops converged max_it 0 st0).2
      = KSPSolve_BCGS.passes ar ops converged max_it.toNat st0 := by
  refine loop_ind ar ops converged max_it
    (fun i st => ∃ k : Nat, i = (k : Int) ∧ (k : Int) < max_it ∧
      st = KSPSolve_BCGS.passes ar ops converged k st0)
    (fun i st => i = max_it ∧ st = KSPSolve_BCGS.passes ar ops converged max_it.toNat st0)
    ?_ ?_ ?_ 0 st0 ⟨0, rfl, by omega, rfl⟩
  · rintro i st ⟨k, rfl, hk, rfl⟩ hb
    rw [h k hk] at hb
    exact absurd hb (by simp)
  · rintro i st ⟨k, rfl, _, rfl⟩ _ hlt
    exact ⟨k + 1, by push_cast; rfl, by push_cast; exact hlt, rfl⟩
  · rintro i st ⟨k, rfl, hk, rfl⟩ _ hge
    have hm : max_it = (k : Int) + 1 := by omega
    refine ⟨hm.symm, ?_⟩
    have : max_it.toNat = k + 1 := by omega
    rw [this]
    rfl

theorem body_reason_cases {Sc : Type} (ar : Arith Sc) (ops : LinOps Sc)
    (converged : ConvergedTest Sc) (i : Int) (st : BCGS Sc) :
    (KSPSolve_BCGS.body ar ops converged i st).1.ksp.reason = KSP_DIVERGED_BREAKDOWN ∨
    (KSPSolve_BCGS.body ar ops converged i st).1.ksp.reason = KSP_CONVERGED_RTOL ∨
    ∃ (k : KSP Sc) (n : Int) (r : Sc) (q : KSPConvergedReason),
      (KSPSolve_BCGS.body ar ops converged i st).1.ksp.reason = (converged k n r q).2 := by
  unfold KSPSolve_BCGS.body
  simp only []
  split_ifs
  · exact Or.inl rfl
  · exact Or.inl rfl
  · exact Or.inr (Or.inl rfl)
  all_goals exact Or.inr (Or.inr ⟨_, _, _, _, rfl⟩)

theorem finish_reason {Sc : Type} (ops : LinOps Sc) (i : Int) (st : BCGS Sc) :
    (KSPSolve_BCGS.finish ops i st).reason
      = if i = st.ksp.max_it then KSP_DIVERGED_ITS else st.ksp.reason := by
  unfold KSPSolve_BCGS.finish
  simp only []
  split_ifs <;> simp [BCGS.store]

theorem loop_max_it {Sc : Type} (ar : Arith Sc) (ops : LinOps Sc)
    (converged : ConvergedTest Sc) (max_it : Int) (st0 : BCGS Sc) :
    (KSPSolve_BCGS.loop ar ops converged max_it 0 st0).2.ksp.max_it = st0.ksp.max_it := by
  obtain ⟨k, hk, _⟩ := loop_passes ar ops converged max_it st0
  rw [hk]
  exact (passes_frame ar ops converged st0 (k + 1)).1

/-- C11. `KSP_DIVERGED_ITS` at the limit. For `max_it >= 1`, when the convergence test
returns `KSP_CONVERGED_ITERATING` at iteration 0 and, in each of the first `max_it` passes
through the loop body, `<r,rp>` is not zero, `<t,t>` is not zero and the convergence test
returns `KSP_CONVERGED_ITERATING`, the solve returns with `its = max_it` and the reason
`KSP_DIVERGED_ITS`. The statement after the loop assigns `KSP_DIVERGED_ITS` exactly when
the loop counter equals `max_it`; and with a convergence test that never returns
`KSP_DIVERGED_ITS` itself, a solve returns `KSP_DIVERGED_ITS` exactly when the loop was
entered and left at counter `max_it`. -/
theorem diverged_its_at_limit {Sc : Type} (ar : Arith Sc) (ops : LinOps Sc)
    (converged : ConvergedTest Sc) (ksp : KSP Sc) (hmax : 1 ≤ ksp.max_it)
    (h0 : (KSPSolve_BCGS.start ar ops converged ksp).ksp.reason = KSP_CONVERGED_ITERATING)
    (hk : ∀ k : Nat, (k : Int) < ksp.max_it →
      ar.eq (VecDot ar
        (KSPSolve_BCGS.passes ar ops converged k
          (KSPSolve_BCGS.enter ar (KSPSolve_BCGS.start ar ops converged ksp))).R
        (KSPSolve_BCGS.passes ar ops converged k
          (KSPSolve_BCGS.enter ar (KSPSolve_BCGS.start ar ops converged ksp))).RP)
        ar.zero = false ∧
      ar.eq (VecDot ar
        (KSPSolve_BCGS.passes ar ops converged (k + 1)
          (KSPSolve_BCGS.enter ar (KSPSolve_BCGS.start ar ops converged ksp))).T
        (KSPSolve_BCGS.passes ar ops converged (k + 1)
          (KSPSolve_BCGS.enter ar (KSPSolve_BCGS.start ar ops converged ksp))).T)
        ar.zero = false ∧
      (KSPSolve_BCGS.passes ar ops converged (k + 1)
        (KSPSolve_BCGS.enter ar (KSPSolve_BCGS.start ar ops converged ksp))).ksp.reason
        = KSP_CONVERGED_ITERATING) :
    (KSPSolve_BCGS ar ops converged ksp).its = ksp.max_it ∧
    (KSPSolve_BCGS ar ops converged ksp).reason = KSP_DIVERGED_ITS ∧
    (∀ (i : Int) (st : BCGS Sc), (KSPSolve_BCGS.finish ops i st).reason
      = if i = st.ksp.max_it then KSP_DIVERGED_ITS else st.ksp.reason) ∧
    ((∀ (k : KSP Sc) (n : Int) (r : Sc) (q : KSPConvergedReason),
        (converged k n r q).2 ≠ KSP_DIVERGED_ITS) →
      ∀ ksp1 : KSP Sc,
        ((KSPSolve_BCGS ar ops converged ksp1).reason = KSP_DIVERGED_ITS ↔
          ((KSPSolve_BCGS.start ar ops converged ksp1).ksp.reason = KSP_CONVERGED_ITERATING ∧
           (KSPSolve_BCGS.loop ar ops converged ksp1.max_it 0
             (KSPSolve_BCGS.enter ar (KSPSolve_BCGS.start ar ops converged ksp1))).1
             = ksp1.max_it))) := by
  have hflag : ∀ k : Nat, (k : Int) < ksp.max_it →
      (KSPSolve_BCGS.body ar ops converged (k : Int)
        (KSPSolve_BCGS.passes ar ops converged k
          (KSPSolve_BCGS.enter ar (KSPSolve_BCGS.start ar ops converged ksp)))).2 = false :=
    fun k hlt => (body_continues_iff ar ops converged (k : Int) _).2 (hk k hlt)
  obtain ⟨hi, hst⟩ := loop_of_no_break ar ops converged ksp.max_it _ hmax hflag
  have hmx : (KSPSolve_BCGS.enter ar (KSPSolve_BCGS.start ar ops converged ksp)).ksp.max_it
      = ksp.max_it := (start_frame ar ops converged ksp).1
  refine ⟨?_, ?_, finish_reason ops, ?_⟩
  · rw [solve_of_start ar ops converged ksp h0, (finish_frame ops _ _).2.2.2.2.2.2.1, hst,
      passes_its_of_no_break ar ops converged _ _ (fun k hlt => hflag k (by omega))]
    have : (KSPSolve_BCGS.enter ar (KSPSolve_BCGS.start ar ops converged ksp)).ksp.its = 0 :=
      (start_frame ar ops converged ksp).2.2.2.2.2.2.1
    rw [this]
    omega
  · rw [solve_of_start ar ops converged ksp h0, finish_reason, hi,
      loop_max_it, hmx, if_pos rfl]
  · intro htest ksp1
    have hmx1 : (KSPSolve_BCGS.enter ar
        (KSPSolve_BCGS.start ar ops converged ksp1)).ksp.max_it = ksp1.max_it :=
      (start_frame ar ops converged ksp1).1
    by_cases hs : (KSPSolve_BCGS.start ar ops converged ksp1).ksp.reason
        = KSP_CONVERGED_ITERATING
    · rw [solve_of_start ar ops converged ksp1 hs, finish_reason, loop_max_it, hmx1]
      constructor
      · intro h
        refine ⟨hs, ?_⟩
        by_contra hne
        rw [if_neg hne] at h
        obtain ⟨k, hk, _⟩ := loop_passes ar ops converged ksp1.max_it
          (KSPSolve_BCGS.enter ar (KSPSolve_BCGS.start ar ops converged ksp1))
        rw [hk] at h
        simp only [KSPSolve_BCGS.passes] at h
        rcases body_reason_cases ar ops converged (k : Int)
          (KSPSolve_BCGS.passes ar ops converged k
            (KSPSolve_BCGS.enter ar (KSPSolve_BCGS.start ar ops converged ksp1)))
          with hb | hb | ⟨a, b, c, d, hb⟩
        · rw [hb] at h; exact absurd h (by decide)
        · rw [hb] at h; exact absurd h (by decide)
        · rw [hb] at h; exact htest a b c d h
      · rintro ⟨_, hl⟩
        rw [if_pos hl]
    · constructor
      · intro h
        exfalso
        have hsolve : KSPSolve_BCGS ar ops converged ksp1
            = BCGS.store (KSPSolve_BCGS.start ar ops converged ksp1) := by
          unfold KSPSolve_BCGS
          simp only [ne_eq, hs, not_false_eq_true, if_true]
        rw [hsolve] at h
        have hr : (KSPSolve_BCGS.start ar ops converged ksp1).ksp.reason
            = KSP_DIVERGED_ITS := by simpa [BCGS.store] using h
        simp only [KSPSolve_BCGS.start, callConverged] at hr
        exact htest _ _ _ _ hr
      · rintro ⟨h, _⟩
        exact absurd h hs

theorem limitOne_enter :
    KSPSolve_BCGS.enter Arith.rat (KSPSolve_BCGS.start Arith.rat limitZeroOps
      KSPSkipConverged limitOneKSP)
    = { ksp := { limitOneKSP with
                 trace := [Event.history 0, Event.monitor 0 0, Event.converged 0 0] },
        X := [0, 0], R := [1, 1], RP := [1, 1], V := [0, 0], T := [1, 1], S := [0, 0],
        P := [0, 0], rhoold := 1, alpha := 1, omegaold := 1, dp := 0 } := by
  simp [KSPSolve_BCGS.enter, KSPSolve_BCGS.start, limitOneKSP, limitZeroKSP, limitZeroOps,
    KSP.ready, LinOps.ofRows, KSPInitialResidual, KSP.workVec, callConverged, KSPMonitor,
    KSPLogResidualHistory, KSPSkipConverged, VecDot, VecAXPY, VecCopy, VecSet,
    Arith.rat, Arith.exact]

theorem limitOne_body :
    KSPSolve_BCGS.body Arith.rat limitZeroOps KSPSkipConverged 0
      (KSPSolve_BCGS.enter Arith.rat (KSPSolve_BCGS.start Arith.rat limitZeroOps
        KSPSkipConverged limitOneKSP))
    = ({ ksp := { limitOneKSP with
                  its := 1,
                  trace := [Event.history 0, Event.monitor 0 0, Event.converged 0 0,
                    Event.history 0, Event.monitor 1 0, Event.converged 1 0] },
         X := [13 / 15, 7 / 15], R := [2 / 15, 1 / 15], RP := [1, 1], V := [1, 2],
         T := [1 / 3, -2 / 3], S := [1 / 3, -1 / 3], P := [1, 1],
         rhoold := 2, alpha := 2 / 3, omegaold := 3 / 5, dp := 0 }, false) := by
  rw [limitOne_enter]
  simp [KSPSolve_BCGS.body, limitOneKSP, limitZeroKSP, limitZeroOps, KSP.ready,
    LinOps.ofRows, KSP_PCApplyBAorAB, callConverged, KSPMonitor, KSPLogResidualHistory,
    KSPSkipConverged, VecDot, VecAXPY, VecAYPX, VecWAXPY, Arith.rat, Arith.exact]
  norm_num

/-- Witness of C11: the solve of `diag(1,2) x = [1,1]`, `x0 = 0`, `max_it = 1` with
`KSPSkipConverged` meets no breakdown in its one iteration and returns with `its = 1` and
`KSP_DIVERGED_ITS`. -/
theorem diverged_its_at_limit_witness :
    1 ≤ limitOneKSP.max_it ∧
    (KSPSolve_BCGS.start Arith.rat limitZeroOps KSPSkipConverged limitOneKSP).ksp.reason
      = KSP_CONVERGED_ITERATING ∧
    (KSPSolve_BCGS Arith.rat limitZeroOps KSPSkipConverged limitOneKSP).its = 1 ∧
    (KSPSolve_BCGS Arith.rat limitZeroOps KSPSkipConverged limitOneKSP).reason
      = KSP_DIVERGED_ITS := by
  have hmax : (1 : Int) ≤ limitOneKSP.max_it := by
    simp [limitOneKSP]
  have h0 : (KSPSolve_BCGS.start Arith.rat limitZeroOps KSPSkipConverged
      limitOneKSP).ksp.reason = KSP_CONVERGED_ITERATING := by
    have h := congrArg (fun st => st.ksp.reason) limitOne_enter
    simpa [KSPSolve_BCGS.enter, limitOneKSP, limitZeroKSP, KSP.ready] using h
  have hk : ∀ k : Nat, (k : Int) < limitOneKSP.max_it →
      Arith.rat.eq (VecDot Arith.rat
        (KSPSolve_BCGS.passes Arith.rat limitZeroOps KSPSkipConverged k
          (KSPSolve_BCGS.enter Arith.rat (KSPSolve_BCGS.start Arith.rat limitZeroOps
            KSPSkipConverged limitOneKSP))).R
        (KSPSolve_BCGS.passes Arith.rat limitZeroOps KSPSkipConverged k
          (KSPSolve_BCGS.enter Arith.rat (KSPSolve_BCGS.start Arith.rat limitZeroOps
            KSPSkipConverged limitOneKSP))).RP)
        Arith.rat.zero = false ∧
      Arith.rat.eq (VecDot Arith.rat
        (KSPSolve_BCGS.passes Arith.rat limitZeroOps KSPSkipConverged (k + 1)
          (KSPSolve_BCGS.enter Arith.rat (KSPSolve_BCGS.start Arith.rat limitZeroOps
            KSPSkipConverged limitOneKSP))).T
        (KSPSolve_BCGS.passes Arith.rat limitZeroOps KSPSkipConverged (k + 1)
          (KSPSolve_BCGS.enter Arith.rat (KSPSolve_BCGS.start Arith.rat limitZeroOps
            KSPSkipConverged limitOneKSP))).T)
        Arith.rat.zero = false ∧
      (KSPSolve_BCGS.passes Arith.rat limitZeroOps KSPSkipConverged (k + 1)
        (KSPSolve_BCGS.enter Arith.rat (KSPSolve_BCGS.start Arith.rat limitZeroOps
          KSPSkipConverged limitOneKSP))).ksp.reason = KSP_CONVERGED_ITERATING := by
    intro k hlt
    have hk0 : k = 0 := by
      have : limitOneKSP.max_it = 1 := by simp [limitOneKSP]
      omega
    subst hk0
    simp only [KSPSolve_BCGS.passes, Nat.cast_zero, zero_add]
    rw [limitOne_body, limitOne_enter]
    simp [VecDot, Arith.rat, Arith.exact, limitOneKSP, limitZeroKSP, KSP.ready]
    norm_num
  have h := diverged_its_at_limit Arith.rat limitZeroOps KSPSkipConverged limitOneKSP
    hmax h0 hk
  refine ⟨hmax, h0, ?_, h.2.1⟩
  rw [h.1]
  simp [limitOneKSP]

theorem VecDot_exact {α : Type} [LinearOrderedField α] (sqrt : α → α) (x y : Vec α) :
    VecDot (Arith.exact α sqrt) x y = vdot x y := by
  simp only [VecDot, vdot, Arith.exact]
  rw [List.sum_eq_foldl]

theorem VecAXPY_exact {α : Type} [LinearOrderedField α] (sqrt : α → α) (a : α) (x y : Vec α) :
    VecAXPY (Arith.exact α sqrt) a x y = vadd y (vscale a x) := by
  simp only [VecAXPY, vadd, vscale, Arith.exact, List.zipWith_map_right]
  rw [List.zipWith_comm]

theorem VecAYPX_exact {α : Type} [LinearOrderedField α] (sqrt : α → α) (a : α) (x y : Vec α) :
    VecAYPX (Arith.exact α sqrt) a x y = vadd x (vscale a y) := by
  simp only [VecAYPX, vadd, vscale, Arith.exact, List.zipWith_map_right]

theorem VecWAXPY_exact {α : Type} [LinearOrderedField α] (sqrt : α → α) (a : α)
    (x y : Vec α) :
    VecWAXPY (Arith.exact α sqrt) a x y = vadd (vscale a x) y := by
  simp only [VecWAXPY, vadd, vscale, Arith.exact, List.zipWith_map_left]

theorem vadd_vscale_neg {α : Type} [Field α] (a : α) (x y : Vec α) :
    vadd y (vscale (-a) x) = vsub y (vscale a x) := by
  simp only [vadd, vsub, vscale, List.zipWith_map_right]
  congr 1
  funext b c
  ring

theorem vadd_vscale_neg_left {α : Type} [Field α] (a : α) (x y : Vec α) :
    vadd (vscale (-a) x) y = vsub y (vscale a x) := by
  simp only [vadd, vsub, vscale, List.zipWith_map_right, List.zipWith_map_left]
  rw [List.zipWith_comm]
  congr 1
  funext b c
  ring

/-- C12. One non-degenerate iteration of `KSPSolve_BCGS` computes the reference recurrence,
in exact arithmetic: with `rho = <r,rp>` not zero, `<t,t>` not zero and `K` the
preconditioned operator, the pass through the loop body leaves `p`, `v`, `alpha`, `s`, `t`,
`x`, `r` with the values `p' = r + beta (p - omega_old v)`, `v' = K p'`,
`alpha = rho/<v',rp>`, `s = r - alpha v'`, `t = K s`, `x' = x + alpha p' + omega s`,
`r' = s - omega t`, where `beta = (rho/rho_old)(alpha_old/omega_old)` and
`omega = <s,t>/<t,t>`, and sets `rho_old := rho`, `omega_old := omega`; the loop is entered
with `rho_old = alpha = omega_old = 1` and `p = v = 0`. -/
theorem body_computes_reference {α : Type} [LinearOrderedField α] (sqrt : α → α)
    (ops : LinOps α) (converged : ConvergedTest α) (i : Int) (st : BCGS α)
    (hrho : vdot st.R st.RP ≠ 0)
    (ht : vdot
      (referenceIteration (fun y => (KSP_PCApplyBAorAB ops st.ksp.pc_side y).1)
        st.RP st.X st.R st.P st.V st.rhoold st.alpha st.omegaold).t
      (referenceIteration (fun y => (KSP_PCApplyBAorAB ops st.ksp.pc_side y).1)
        st.RP st.X st.R st.P st.V st.rhoold st.alpha st.omegaold).t ≠ 0) :
    (KSPSolve_BCGS.body (Arith.exact α sqrt) ops converged i st).1.P
      = (referenceIteration (fun y => (KSP_PCApplyBAorAB ops st.ksp.pc_side y).1)
          st.RP st.X st.R st.P st.V st.rhoold st.alpha st.omegaold).p ∧
    (KSPSolve_BCGS.body (Arith.exact α sqrt) ops converged i st).1.V
      = (referenceIteration (fun y => (KSP_PCApplyBAorAB ops st.ksp.pc_side y).1)
          st.RP st.X st.R st.P st.V st.rhoold st.alpha st.omegaold).v ∧
    (KSPSolve_BCGS.body (Arith.exact α sqrt) ops converged i st).1.alpha
      = (referenceIteration (fun y => (KSP_PCApplyBAorAB ops st.ksp.pc_side y).1)
          st.RP st.X st.R st.P st.V st.rhoold st.alpha st.omegaold).alpha ∧
    (KSPSolve_BCGS.body (Arith.exact α sqrt) ops converged i st).1.S
      = (referenceIteration (fun y => (KSP_PCApplyBAorAB ops st.ksp.pc_side y).1)
          st.RP st.X st.R st.P st.V st.rhoold st.alpha st.omegaold).s ∧
    (KSPSolve_BCGS.body (Arith.exact α sqrt) ops converged i st).1.T
      = (referenceIteration (fun y => (KSP_PCApplyBAorAB ops st.ksp.pc_side y).1)
          st.RP st.X st.R st.P st.V st.rhoold st.alpha st.omegaold).t ∧
    (KSPSolve_BCGS.body (Arith.exact α sqrt) ops converged i st).1.X
      = (referenceIteration (fun y => (KSP_PCApplyBAorAB ops st.ksp.pc_side y).1)
          st.RP st.X st.R st.P st.V st.rhoold st.alpha st.omegaold).x ∧
    (KSPSolve_BCGS.body (Arith.exact α sqrt) ops converged i st).1.R
      = (referenceIteration (fun y => (KSP_PCApplyBAorAB ops st.ksp.pc_side y).1)
          st.RP st.X st.R st.P st.V st.rhoold st.alpha st.omegaold).r ∧
    (KSPSolve_BCGS.body (Arith.exact α sqrt) ops converged i st).1.rhoold
      = vdot st.R st.RP ∧
    (KSPSolve_BCGS.body (Arith.exact α sqrt) ops converged i st).1.omegaold
      = (referenceIteration (fun y => (KSP_PCApplyBAorAB ops st.ksp.pc_side y).1)
          st.RP st.X st.R st.P st.V st.rhoold st.alpha st.omegaold).omega ∧
    (KSPSolve_BCGS.enter (Arith.exact α sqrt) st).rhoold = 1 ∧
    (KSPSolve_BCGS.enter (Arith.exact α sqrt) st).alpha = 1 ∧
    (KSPSolve_BCGS.enter (Arith.exact α sqrt) st).omegaold = 1 ∧
    (KSPSolve_BCGS.enter (Arith.exact α sqrt) st).P = List.replicate st.P.length 0 ∧
    (KSPSolve_BCGS.enter (Arith.exact α sqrt) st).V = List.replicate st.V.length 0 := by
  have e1 : ∀ a b : α, (Arith.exact α sqrt).mul a b = a * b := fun _ _ => rfl
  have e2 : ∀ a b : α, (Arith.exact α sqrt).div a b = a / b := fun _ _ => rfl
  have e3 : ∀ a : α, (Arith.exact α sqrt).neg a = -a := fun _ => rfl
  have e4 : ∀ a b : α, (Arith.exact α sqrt).eq a b = decide (a = b) := fun _ _ => rfl
  have e5 : (Arith.exact α sqrt).zero = 0 := rfl
  have hent : (KSPSolve_BCGS.enter (Arith.exact α sqrt) st).rhoold = 1 ∧
      (KSPSolve_BCGS.enter (Arith.exact α sqrt) st).alpha = 1 ∧
      (KSPSolve_BCGS.enter (Arith.exact α sqrt) st).omegaold = 1 ∧
      (KSPSolve_BCGS.enter (Arith.exact α sqrt) st).P = List.replicate st.P.length 0 ∧
      (KSPSolve_BCGS.enter (Arith.exact α sqrt) st).V = List.replicate st.V.length 0 := by
    simp [KSPSolve_BCGS.enter, VecSet, Arith.exact]
  simp only [referenceIteration] at ht ⊢
  unfold KSPSolve_BCGS.body
  simp only []
  split_ifs with h1 h2 h3 h4
  · exfalso
    simp only [VecDot_exact, e4, e5, decide_eq_true_eq] at h1
    exact hrho h1
  · exfalso
    simp only [VecDot_exact, VecAXPY_exact, VecAYPX_exact, VecWAXPY_exact, e1, e2, e3, e4, e5,
      vadd_vscale_neg, vadd_vscale_neg_left, decide_eq_true_eq] at h2
    exact ht h2
  · exfalso
    simp only [VecDot_exact, VecAXPY_exact, VecAYPX_exact, VecWAXPY_exact, e1, e2, e3, e4, e5,
      vadd_vscale_neg, vadd_vscale_neg_left, decide_eq_true_eq] at h2
    exact ht h2
  all_goals
    refine ⟨?_, ?_, ?_, ?_, ?_, ?_, ?_, ?_, ?_, hent⟩ <;>
      simp only [VecDot_exact, VecAXPY_exact, VecAYPX_exact, VecWAXPY_exact, e1, e2, e3,
        vadd_vscale_neg, vadd_vscale_neg_left]

/-- Witness of C12: the first iteration of the solve of `diag(1,2) x = [1,1]`, `x0 = 0` has
`<r,rp> = 2` and `<t,t> = 5/9`, and leaves `x = [13/15, 7/15]`, the value of the reference
recurrence. -/
theorem body_computes_reference_witness :
    vdot limitZeroEntry.R limitZeroEntry.RP ≠ 0 ∧
    (KSPSolve_BCGS.body Arith.rat limitZeroOps KSPSkipConverged 0 limitZeroEntry).1.X
      = (referenceIteration
          (fun y => (KSP_PCApplyBAorAB limitZeroOps limitZeroEntry.ksp.pc_side y).1)
          limitZeroEntry.RP limitZeroEntry.X limitZeroEntry.R limitZeroEntry.P
          limitZeroEntry.V limitZeroEntry.rhoold limitZeroEntry.alpha
          limitZeroEntry.omegaold).x ∧
    (KSPSolve_BCGS.body Arith.rat limitZeroOps KSPSkipConverged 0 limitZeroEntry).1.X
      = [13 / 15, 7 / 15] := by
  have he : limitZeroEntry = _ := limitZero_enter
  have h1 : vdot limitZeroEntry.R limitZeroEntry.RP ≠ 0 := by
    rw [he]
    norm_num [vdot]
  have h2 : vdot
      (referenceIteration
        (fun y => (KSP_PCApplyBAorAB limitZeroOps limitZeroEntry.ksp.pc_side y).1)
        limitZeroEntry.RP limitZeroEntry.X limitZeroEntry.R limitZeroEntry.P
        limitZeroEntry.V limitZeroEntry.rhoold limitZeroEntry.alpha
        limitZeroEntry.omegaold).t
      (referenceIteration
        (fun y => (KSP_PCApplyBAorAB limitZeroOps limitZeroEntry.ksp.pc_side y).1)
        limitZeroEntry.RP limitZeroEntry.X limitZeroEntry.R limitZeroEntry.P
        limitZeroEntry.V limitZeroEntry.rhoold limitZeroEntry.alpha
        limitZeroEntry.omegaold).t ≠ 0 := by
    rw [he]
    simp [referenceIteration, vdot, vadd, vsub, vscale, KSP_PCApplyBAorAB, limitZeroOps,
      LinOps.ofRows, limitZeroKSP, KSP.ready, VecDot, Arith.rat, Arith.exact]
    norm_num
  refine ⟨h1, (body_computes_reference Rat.sqrt limitZeroOps KSPSkipConverged 0
    limitZeroEntry h1 h2).2.2.2.2.2.1, ?_⟩
  have hb := limitZero_body
  rw [show KSPSolve_BCGS.enter Arith.rat (KSPSolve_BCGS.start Arith.rat limitZeroOps
      KSPSkipConverged limitZeroKSP) = limitZeroEntry from rfl] at hb
  rw [hb]

theorem finish_workVec_one {Sc : Type} (ops : LinOps Sc) (i : Int) (st : BCGS Sc) :
    (KSPSolve_BCGS.finish ops i st).workVec 1 = st.RP := by
  unfold KSPSolve_BCGS.finish
  simp only []
  split_ifs <;> simp [BCGS.store, KSP.workVec]

/-- C13. The shadow residual is fixed. In a solve that enters the loop, `RP` is the initial
residual `r0` when the loop is entered (the copy `RP := R`), after every number of passes
through the loop body, and in `ksp->work[1]` when the solve returns; no pass through the
loop body changes `RP`, whatever the state it starts from. -/
theorem shadow_residual_fixed {Sc : Type} (ar : Arith Sc) (ops : LinOps Sc)
    (converged : ConvergedTest Sc) (ksp : KSP Sc)
    (h0 : (KSPSolve_BCGS.start ar ops converged ksp).ksp.reason = KSP_CONVERGED_ITERATING) :
    (KSPSolve_BCGS.enter ar (KSPSolve_BCGS.start ar ops converged ksp)).RP
      = (KSPInitialResidual ar ops ksp.pc_side ksp.vec_sol (ksp.vec_rhs.getD [])).2.2 ∧
    (∀ k : Nat,
      (KSPSolve_BCGS.passes ar ops converged k
        (KSPSolve_BCGS.enter ar (KSPSolve_BCGS.start ar ops converged ksp))).RP
        = (KSPInitialResidual ar ops ksp.pc_side ksp.vec_sol (ksp.vec_rhs.getD [])).2.2) ∧
    (∀ (i : Int) (st : BCGS Sc), (KSPSolve_BCGS.body ar ops converged i st).1.RP = st.RP) ∧
    (KSPSolve_BCGS ar ops converged ksp).workVec 1
      = (KSPInitialResidual ar ops ksp.pc_side ksp.vec_sol (ksp.vec_rhs.getD [])).2.2 := by
  have he : (KSPSolve_BCGS.enter ar (KSPSolve_BCGS.start ar ops converged ksp)).RP
      = (KSPInitialResidual ar ops ksp.pc_side ksp.vec_sol (ksp.vec_rhs.getD [])).2.2 := by
    simp [KSPSolve_BCGS.enter, KSPSolve_BCGS.start, VecCopy]
  have hp : ∀ k : Nat,
      (KSPSolve_BCGS.passes ar ops converged k
        (KSPSolve_BCGS.enter ar (KSPSolve_BCGS.start ar ops converged ksp))).RP
        = (KSPInitialResidual ar ops ksp.pc_side ksp.vec_sol (ksp.vec_rhs.getD [])).2.2 :=
    fun k => ((passes_frame ar ops converged _ k).2.2.2.2.2.2).trans he
  refine ⟨he, hp, fun i st => (body_frame ar ops converged i st).2.2.2.2.2.2, ?_⟩
  rw [solve_of_start ar ops converged ksp h0, finish_workVec_one]
  obtain ⟨k, hk, _⟩ := loop_passes ar ops converged ksp.max_it
    (KSPSolve_BCGS.enter ar (KSPSolve_BCGS.start ar ops converged ksp))
  rw [hk]
  exact hp (k + 1)

/-- Witness of C13: the solve of `degenerateKSP` enters the loop, and returns with the
initial residual `[1]` in `ksp->work[1]`. -/
theorem shadow_residual_fixed_witness :
    (KSPSolve_BCGS.start Arith.rat (LinOps.identity ℚ) (KSPDefaultConverged Arith.rat)
      degenerateKSP).ksp.reason = KSP_CONVERGED_ITERATING ∧
    (KSPSolve_BCGS Arith.rat (LinOps.identity ℚ) (KSPDefaultConverged Arith.rat)
      degenerateKSP).workVec 1
      = (KSPInitialResidual Arith.rat (LinOps.identity ℚ) degenerateKSP.pc_side
          degenerateKSP.vec_sol (degenerateKSP.vec_rhs.getD [])).2.2 ∧
    (KSPInitialResidual Arith.rat (LinOps.identity ℚ) degenerateKSP.pc_side
      degenerateKSP.vec_sol (degenerateKSP.vec_rhs.getD [])).2.2 = [1] := by
  have h0 : (KSPSolve_BCGS.start Arith.rat (LinOps.identity ℚ)
      (KSPDefaultConverged Arith.rat) degenerateKSP).ksp.reason
      = KSP_CONVERGED_ITERATING := by
    have h := congrArg (fun st => st.ksp.reason) degenerate_enter
    simpa [KSPSolve_BCGS.enter, degenerateKSP, KSP.ready] using h
  refine ⟨h0, (shadow_residual_fixed Arith.rat (LinOps.identity ℚ)
    (KSPDefaultConverged Arith.rat) degenerateKSP h0).2.2.2, ?_⟩
  simp [KSPInitialResidual, LinOps.identity, degenerateKSP, KSP.ready, VecAXPY, VecCopy,
    Arith.rat, Arith.exact]

/-! ## The work-vector pool -/

/-- C14. `KSPSetUp_BCGS` fails exactly when the preconditioning side is `PC_SYMMETRIC`:
then it returns `PETSC_ERR_SUP`, leaves the solver context as it was (`work` and `nwork`
included) and releases nothing; for every other side it returns `0` and leaves the solver
with `nwork = 6` and exactly 6 work vectors. -/
theorem KSPSetUp_BCGS_fails_iff_symmetric {Sc : Type} (ar : Arith Sc) (pmatVec : Vec Sc)
    (ksp : KSP Sc) :
    ((KSPSetUp_BCGS ar pmatVec ksp).1 ≠ PetscErrorCode.ok
      ↔ ksp.pc_side = PCSide.PC_SYMMETRIC) ∧
    (ksp.pc_side = PCSide.PC_SYMMETRIC →
      KSPSetUp_BCGS ar pmatVec ksp = (PetscErrorCode.PETSC_ERR_SUP, ksp, [])) ∧
    (ksp.pc_side ≠ PCSide.PC_SYMMETRIC →
      (KSPSetUp_BCGS ar pmatVec ksp).1 = PetscErrorCode.ok ∧
      (KSPSetUp_BCGS ar pmatVec ksp).2.1.nwork = 6 ∧
      ∃ w : List (Vec Sc), (KSPSetUp_BCGS ar pmatVec ksp).2.1.work = some w ∧
        w.length = 6) := by
  by_cases h : ksp.pc_side = PCSide.PC_SYMMETRIC
  · simp [KSPSetUp_BCGS, h]
  · simp [KSPSetUp_BCGS, h, KSPDefaultGetWork, KSPGetVecs, VecDuplicateVecs]

/-- Witness of C14: with the symmetric side the setup of `degenerateKSP` returns
`PETSC_ERR_SUP` and changes nothing; with the left side it returns `0` with `nwork = 6`. -/
theorem KSPSetUp_BCGS_fails_iff_symmetric_witness :
    KSPSetUp_BCGS Arith.rat [] { degenerateKSP with pc_side := PCSide.PC_SYMMETRIC }
      = (PetscErrorCode.PETSC_ERR_SUP,
         { degenerateKSP with pc_side := PCSide.PC_SYMMETRIC }, []) ∧
    (KSPSetUp_BCGS Arith.rat [] degenerateKSP).1 = PetscErrorCode.ok ∧
    (KSPSetUp_BCGS Arith.rat [] degenerateKSP).2.1.nwork = 6 :=
  ⟨(KSPSetUp_BCGS_fails_iff_symmetric Arith.rat []
      { degenerateKSP with pc_side := PCSide.PC_SYMMETRIC }).2.1 rfl,
   ((KSPSetUp_BCGS_fails_iff_symmetric Arith.rat [] degenerateKSP).2.2
      (by simp [degenerateKSP, KSP.ready])).1,
   ((KSPSetUp_BCGS_fails_iff_symmetric Arith.rat [] degenerateKSP).2.2
      (by simp [degenerateKSP, KSP.ready])).2.1⟩

/-- C15. Re-acquisition of the work vectors. For a count `nw >= 0`, `KSPDefaultGetWork`
first releases an existing work set, with the count stored in `nwork`, and releases nothing
when `work` is unset; it leaves `nwork = nw` and `work` holding exactly `nw` vectors, each
with the layout of the right-hand side when one is set; the set acquired with `nw` is
released with the count `nw` by the next acquisition. `KSPDefaultFreeWork` leaves `work`
unset, and a second call changes nothing and releases nothing. -/
theorem work_pool_reacquire {Sc : Type} (ar : Arith Sc) (pmatVec : Vec Sc) (ksp : KSP Sc)
    (nw : Int) (hnw : 0 ≤ nw) :
    (∀ w : List (Vec Sc), ksp.work = some w →
      (KSPDefaultGetWork ar pmatVec ksp nw).2 = [{ vecs := w, m := ksp.nwork }]) ∧
    (ksp.work = none → (KSPDefaultGetWork ar pmatVec ksp nw).2 = []) ∧
    (KSPDefaultGetWork ar pmatVec ksp nw).1.nwork = nw ∧
    (∃ w : List (Vec Sc), (KSPDefaultGetWork ar pmatVec ksp nw).1.work = some w ∧
      (w.length : Int) = nw ∧
      (∀ b : Vec Sc, ksp.vec_rhs = some b → ∀ v ∈ w, v.length = b.length) ∧
      (∀ nw2 : Int,
        (KSPDefaultGetWork ar pmatVec (KSPDefaultGetWork ar pmatVec ksp nw).1 nw2).2
          = [{ vecs := w, m := nw }])) ∧
    (KSPDefaultFreeWork ksp).1.work = none ∧
    KSPDefaultFreeWork (KSPDefaultFreeWork ksp).1 = ((KSPDefaultFreeWork ksp).1, []) := by
  refine ⟨?_, ?_, ?_, ?_, ?_, ?_⟩
  · intro w hw
    simp [KSPDefaultGetWork, KSPDefaultFreeWork, hw]
  · intro hw
    simp [KSPDefaultGetWork, hw]
  · simp [KSPDefaultGetWork]
  · refine ⟨KSPGetVecs ar pmatVec
      { (if ksp.work.isSome then KSPDefaultFreeWork ksp else (ksp, [])).1 with nwork := nw }
      nw, rfl, ?_, ?_, ?_⟩
    · simp [KSPGetVecs, VecDuplicateVecs, Int.toNat_of_nonneg hnw]
    · intro b hb v hv
      have hrhs : (if ksp.work.isSome then KSPDefaultFreeWork ksp else (ksp, [])).1.vec_rhs
          = some b := by
        cases hw : ksp.work <;> simp [KSPDefaultFreeWork, hw, hb]
      simp only [KSPGetVecs, hrhs, VecDuplicateVecs] at hv
      rw [List.eq_of_mem_replicate hv]
      simp [VecSet]
    · intro nw2
      simp [KSPDefaultGetWork, KSPDefaultFreeWork]
  · cases hw : ksp.work <;> simp [KSPDefaultFreeWork, hw]
  · cases hw : ksp.work <;> simp [KSPDefaultFreeWork, hw]

/-- Witness of C15: acquiring 3 work vectors for `degenerateKSP`, which holds 6, releases
the 6 with the count 6 and leaves `nwork = 3`. -/
theorem work_pool_reacquire_witness :
    (0 : Int) ≤ 3 ∧
    (KSPDefaultGetWork Arith.rat [] degenerateKSP 3).2
      = [{ vecs := List.replicate 6 [0], m := 6 }] ∧
    (KSPDefaultGetWork Arith.rat [] degenerateKSP 3).1.nwork = 3 := by
  have h := work_pool_reacquire Arith.rat [] degenerateKSP 3 (by decide)
  refine ⟨by decide, ?_, h.2.2.1⟩
  have := h.1 (List.replicate 6 [0]) (by simp [degenerateKSP, KSP.ready, VecSet, Arith.rat, Arith.exact])
  simpa [degenerateKSP, KSP.ready] using this

/-! ## The scatter primitive -/

theorem applyTransfer_length {Sc : Type} (ar : Arith Sc) (addv : InsertMode) (y : Vec Sc)
    (m : Nat × Sc) : (applyTransfer ar addv y m).length = y.length := by
  cases addv <;> simp [applyTransfer]

theorem foldl_applyTransfer_length {Sc : Type} (ar : Arith Sc) (addv : InsertMode)
    (fl : InFlight Sc) (y : Vec Sc) :
    (fl.foldl (applyTransfer ar addv) y).length = y.length := by
  induction fl generalizing y with
  | nil => rfl
  | cons m fl ih => rw [List.foldl_cons, ih, applyTransfer_length]

theorem getD_set_self {Sc : Type} (y : Vec Sc) (j : Nat) (v z : Sc) (hj : j < y.length) :
    (y.set j v).getD j z = v := by
  simp [List.getD_eq_getElem?_getD, List.getElem?_set, hj]

theorem getD_set_ne {Sc : Type} (y : Vec Sc) (i j : Nat) (v z : Sc) (hij : i ≠ j) :
    (y.set i v).getD j z = y.getD j z := by
  simp [List.getD_eq_getElem?_getD, List.getElem?_set, hij]

theorem foldl_insert_getD_of_not_mem {Sc : Type} (ar : Arith Sc) (fl : InFlight Sc)
    (y : Vec Sc) (j : Nat) (z : Sc) (h : j ∉ fl.map Prod.fst) :
    (fl.foldl (applyTransfer ar InsertMode.INSERT_VALUES) y).getD j z = y.getD j z := by
  induction fl generalizing y with
  | nil => rfl
  | cons m fl ih =>
    simp only [List.map_cons, List.mem_cons, not_or] at h
    rw [List.foldl_cons, ih _ h.2]
    exact getD_set_ne y m.1 j m.2 z (fun e => h.1 e.symm)

theorem foldl_insert_getD_of_mem {Sc : Type} (ar : Arith Sc) (fl : InFlight Sc)
    (y : Vec Sc) (z : Sc) (hnd : (fl.map Prod.fst).Nodup)
    (hr : ∀ m ∈ fl, m.1 < y.length) (m : Nat × Sc) (hm : m ∈ fl) :
    (fl.foldl (applyTransfer ar InsertMode.INSERT_VALUES) y).getD m.1 z = m.2 := by
  induction fl generalizing y with
  | nil => simp at hm
  | cons m0 fl ih =>
    simp only [List.map_cons, List.nodup_cons] at hnd
    rw [List.foldl_cons]
    rcases List.mem_cons.mp hm with rfl | hm
    · rw [foldl_insert_getD_of_not_mem ar fl _ _ z hnd.1]
      exact getD_set_self y m.1 m.2 z (hr m (List.mem_cons_self _ _))
    · refine ih _ hnd.2 (fun m1 h1 => ?_) hm
      rw [applyTransfer_length]
      exact hr m1 (List.mem_cons_of_mem _ h1)

theorem foldl_add_getD {Sc : Type} (ar : Arith Sc) (fl : InFlight Sc) (y : Vec Sc) (j : Nat)
    (hj : j < y.length) :
    (fl.foldl (applyTransfer ar InsertMode.ADD_VALUES) y).getD j ar.zero
      = ((fl.filter (fun m => decide (m.1 = j))).map Prod.snd).foldl ar.add
          (y.getD j ar.zero) := by
  induction fl generalizing y with
  | nil => rfl
  | cons m fl ih =>
    rw [List.foldl_cons, ih _ (by rw [applyTransfer_length]; exact hj)]
    by_cases hmj : m.1 = j
    · subst hmj
      simp only [applyTransfer, getD_set_self _ _ _ _ hj, List.filter_cons, decide_True,
        if_true, List.map_cons, List.foldl_cons]
    · simp only [applyTransfer, getD_set_ne _ _ _ _ _ hmj, List.filter_cons, hmj,
        decide_False, Bool.false_eq_true, if_false]

theorem reverse_transfers_to {Sc : Type} (z : Sc) (l : Vec Sc) (j : Nat) (ix iy : List Nat) :
    ((List.zipWith (fun i k => (k, l.getD i z)) iy ix).filter
        (fun m => decide (m.1 = j))).map Prod.snd
      = ((List.zipWith Prod.mk ix iy).filter (fun p => decide (p.1 = j))).map
          (fun p => l.getD p.2 z) := by
  induction ix generalizing iy with
  | nil => cases iy <;> rfl
  | cons a ix ih =>
    cases iy with
    | nil => rfl
    | cons b iy =>
      simp only [List.zipWith_cons_cons, List.filter_cons]
      by_cases h : a = j
      · simp only [h, decide_True, if_true, List.map_cons, ih]
      · simp only [h, decide_False, Bool.false_eq_true, if_false, ih]

/-- C16. `DALocalToGlobalBegin` and `DALocalToGlobalEnd` are the calls of the scatter
primitive on `da->gtol` with `ADD_VALUES` and `SCATTER_REVERSE`, whatever the DA and the
vectors; together they leave the DA as it was and every entry `j` of the global vector
equal to its previous value with all local entries mapped to `j` added to it, one after the
other. -/
theorem DALocalToGlobal_adds {Sc : Type} (ar : Arith Sc) (da : DA Sc) (l g : Vec Sc)
    (fl : InFlight Sc) :
    DALocalToGlobalBegin ar da l g fl
      = { ierr := (VecScatterBegin ar l g InsertMode.ADD_VALUES ScatterMode.SCATTER_REVERSE
            (some da.gtol) fl).1,
          da := da,
          out := (VecScatterBegin ar l g InsertMode.ADD_VALUES ScatterMode.SCATTER_REVERSE
            (some da.gtol) fl).2.1,
          fl := (VecScatterBegin ar l g InsertMode.ADD_VALUES ScatterMode.SCATTER_REVERSE
            (some da.gtol) fl).2.2 } ∧
    DALocalToGlobalEnd ar da l g fl
      = { ierr := (VecScatterEnd ar l g InsertMode.ADD_VALUES ScatterMode.SCATTER_REVERSE
            (some da.gtol) fl).1,
          da := da,
          out := (VecScatterEnd ar l g InsertMode.ADD_VALUES ScatterMode.SCATTER_REVERSE
            (some da.gtol) fl).2.1,
          fl := (VecScatterEnd ar l g InsertMode.ADD_VALUES ScatterMode.SCATTER_REVERSE
            (some da.gtol) fl).2.2 } ∧
    (DALocalToGlobalBegin ar da l g []).ierr = PetscErrorCode.ok ∧
    (DALocalToGlobalBegin ar da l g []).out = g ∧
    (DALocalToGlobalEnd ar da l g (DALocalToGlobalBegin ar da l g []).fl).ierr
      = PetscErrorCode.ok ∧
    (DALocalToGlobalEnd ar da l g (DALocalToGlobalBegin ar da l g []).fl).da = da ∧
    (DALocalToGlobalEnd ar da l g (DALocalToGlobalBegin ar da l g []).fl).fl = [] ∧
    (DALocalToGlobalEnd ar da l g (DALocalToGlobalBegin ar da l g []).fl).out.length
      = g.length ∧
    ∀ j : Nat, j < g.length →
      (DALocalToGlobalEnd ar da l g (DALocalToGlobalBegin ar da l g []).fl).out.getD j ar.zero
        = (mappedToGlobal ar da.gtol l j).foldl ar.add (g.getD j ar.zero) := by
  refine ⟨rfl, rfl, rfl, rfl, rfl, rfl, rfl, ?_, ?_⟩
  · simp only [DALocalToGlobalEnd, VecScatterEnd]
    exact foldl_applyTransfer_length _ _ _ _
  · intro j hj
    simp only [DALocalToGlobalEnd, VecScatterEnd, DALocalToGlobalBegin, VecScatterBegin,
      List.nil_append, mappedToGlobal]
    rw [foldl_add_getD ar _ g j hj, reverse_transfers_to]

/-- Witness of C16 on the 2 x 2 grid: global entry 0 is held in the local slots 0 and 4, so
that it ends as its previous value `10` plus the two local entries `1` and `5`. -/
theorem DALocalToGlobal_adds_witness :
    (0 : Nat) < [(10 : ℚ), 20, 30, 40].length ∧
    (DALocalToGlobalEnd Arith.rat (gridDA ℚ none) [1, 2, 3, 4, 5, 6, 7, 8] [10, 20, 30, 40]
      (DALocalToGlobalBegin Arith.rat (gridDA ℚ none) [1, 2, 3, 4, 5, 6, 7, 8]
        [10, 20, 30, 40] []).fl).out.getD 0 0 = 10 + 1 + 5 := by
  refine ⟨by decide, ?_⟩
  have h := (DALocalToGlobal_adds Arith.rat (gridDA ℚ none) [1, 2, 3, 4, 5, 6, 7, 8]
    [10, 20, 30, 40] []).2.2.2.2.2.2.2.2 0 (by decide)
  simpa [mappedToGlobal, gridDA, Arith.rat, Arith.exact] using h

theorem forward_transfers_dst {Sc : Type} (f : Nat → Sc) (ix iy : List Nat)
    (hlen : ix.length = iy.length) :
    (List.zipWith (fun i k => (k, f i)) ix iy).map Prod.fst = iy := by
  induction ix generalizing iy with
  | nil => cases iy with
    | nil => rfl
    | cons b iy => simp at hlen
  | cons a ix ih =>
    cases iy with
    | nil => simp at hlen
    | cons b iy =>
      simp only [List.length_cons, add_left_inj] at hlen
      simp only [List.zipWith_cons_cons, List.map_cons, ih iy hlen]

theorem forward_transfers_mem {Sc : Type} (f : Nat → Sc) (ix iy : List Nat) (p : Nat × Nat)
    (hp : p ∈ List.zipWith Prod.mk ix iy) :
    (p.2, f p.1) ∈ List.zipWith (fun i k => (k, f i)) ix iy := by
  induction ix generalizing iy with
  | nil => cases iy <;> simp at hp
  | cons a ix ih =>
    cases iy with
    | nil => simp at hp
    | cons b iy =>
      simp only [List.zipWith_cons_cons, List.mem_cons] at hp ⊢
      rcases hp with rfl | hp
      · exact Or.inl rfl
      · exact Or.inr (ih iy hp)

theorem zip_filter_length (ix iy : List Nat) (j : Nat) (hlen : ix.length = iy.length) :
    ((List.zipWith Prod.mk ix iy).filter (fun p => decide (p.1 = j))).length
      = ix.count j := by
  induction ix generalizing iy with
  | nil => cases iy <;> rfl
  | cons a ix ih =>
    cases iy with
    | nil => simp at hlen
    | cons b iy =>
      simp only [List.length_cons, add_left_inj] at hlen
      simp only [List.zipWith_cons_cons, List.filter_cons, List.count_cons]
      by_cases h : a = j
      · simp [h, ih iy hlen]
      · simp [h, ih iy hlen]

theorem foldl_add_replicate {α : Type} [LinearOrderedField α] (sqrt : α → α) (n : Nat)
    (d v : α) :
    (List.replicate n v).foldl (Arith.exact α sqrt).add d = d + (n : α) * v := by
  induction n generalizing d with
  | zero => simp
  | succ n ih =>
    rw [List.replicate_succ, List.foldl_cons, ih]
    simp only [Arith.exact, Nat.cast_succ]
    ring

theorem DAGlobalToLocal_inserted_getD {Sc : Type} (ar : Arith Sc) (da : DA Sc) (g l : Vec Sc)
    (hlen : da.gtol.ix.length = da.gtol.iy.length) (hnd : da.gtol.iy.Nodup)
    (hr : ∀ i ∈ da.gtol.iy, i < l.length) (p : Nat × Nat)
    (hp : p ∈ List.zipWith Prod.mk da.gtol.ix da.gtol.iy) :
    (DAGlobalToLocal_inserted ar da g l).getD p.2 ar.zero = g.getD p.1 ar.zero := by
  simp only [DAGlobalToLocal_inserted, DAGlobalToLocalEnd, VecScatterEnd, DAGlobalToLocalBegin,
    VecScatterBegin, List.nil_append]
  have hdst := forward_transfers_dst (fun i => g.getD i ar.zero) _ _ hlen
  refine foldl_insert_getD_of_mem ar _ l ar.zero (by rw [hdst]; exact hnd) (fun m hm => ?_)
    (p.2, g.getD p.1 ar.zero)
    (forward_transfers_mem (fun i => g.getD i ar.zero) _ _ p hp)
  exact hr _ (by rw [← hdst]; exact List.mem_map_of_mem Prod.fst hm)

/-- C17, counterexample. On the 2 x 2 grid every global entry is held in two local slots, one
on each process. Mapping `g = [1, 2, 3, 4]` into the local vector with `INSERT_VALUES` and
adding the unmodified local vector back gives `[2, 4, 6, 8]` when the destination starts
from zero, and `[3, 6, 9, 12]` when the destination is `g` itself; neither is `g`. -/
theorem round_trip_counts_ghost_copies :
    DAGlobalToLocal_inserted Arith.rat (gridDA ℚ none) [1, 2, 3, 4] [0, 0, 0, 0, 0, 0, 0, 0]
      = [1, 3, 2, 4, 1, 3, 2, 4] ∧
    DALocalToGlobal_added Arith.rat (gridDA ℚ none)
      (DAGlobalToLocal_inserted Arith.rat (gridDA ℚ none) [1, 2, 3, 4]
        [0, 0, 0, 0, 0, 0, 0, 0]) [0, 0, 0, 0] = [2, 4, 6, 8] ∧
    DALocalToGlobal_added Arith.rat (gridDA ℚ none)
      (DAGlobalToLocal_inserted Arith.rat (gridDA ℚ none) [1, 2, 3, 4]
        [0, 0, 0, 0, 0, 0, 0, 0]) [1, 2, 3, 4] = [3, 6, 9, 12] ∧
    ([2, 4, 6, 8] : Vec ℚ) ≠ [1, 2, 3, 4] ∧ ([3, 6, 9, 12] : Vec ℚ) ≠ [1, 2, 3, 4] := by
  have hl : DAGlobalToLocal_inserted Arith.rat (gridDA ℚ none) [1, 2, 3, 4]
      [0, 0, 0, 0, 0, 0, 0, 0] = [1, 3, 2, 4, 1, 3, 2, 4] := by
    simp [DAGlobalToLocal_inserted, DAGlobalToLocalEnd, DAGlobalToLocalBegin, VecScatterEnd,
      VecScatterBegin, applyTransfer, gridDA, Arith.rat, Arith.exact]
  refine ⟨hl, ?_, ?_, ?_, ?_⟩
  · rw [hl]
    simp [DALocalToGlobal_added, DALocalToGlobalEnd, DALocalToGlobalBegin, VecScatterEnd,
      VecScatterBegin, applyTransfer, gridDA, Arith.rat, Arith.exact]
    norm_num
  · rw [hl]
    simp [DALocalToGlobal_added, DALocalToGlobalEnd, DALocalToGlobalBegin, VecScatterEnd,
      VecScatterBegin, applyTransfer, gridDA, Arith.rat, Arith.exact]
    norm_num
  · simp
  · simp

/-- C17, amended. In exact arithmetic, let the index map pair every local slot with one
global entry (the slots are distinct and lie in the local vector). If `g` is mapped into the
local vector with `INSERT_VALUES` and the unmodified local vector is added into `dest`, then
entry `j` of the result is `dest[j]` plus `g[j]` once for every local slot, owned or ghost,
that holds entry `j`. It equals `g[j]` when `dest[j]` is zero and exactly one slot holds
entry `j`. -/
theorem local_to_global_round_trip {α : Type} [LinearOrderedField α] (sqrt : α → α)
    (da : DA α) (g l dest : Vec α)
    (hlen : da.gtol.ix.length = da.gtol.iy.length) (hnd : da.gtol.iy.Nodup)
    (hr : ∀ i ∈ da.gtol.iy, i < l.length) (j : Nat) (hj : j < dest.length) :
    (DALocalToGlobal_added (Arith.exact α sqrt) da
        (DAGlobalToLocal_inserted (Arith.exact α sqrt) da g l) dest).getD j 0
      = dest.getD j 0 + (da.gtol.ix.count j : α) * g.getD j 0 ∧
    (da.gtol.ix.count j = 1 → dest.getD j 0 = 0 →
      (DALocalToGlobal_added (Arith.exact α sqrt) da
        (DAGlobalToLocal_inserted (Arith.exact α sqrt) da g l) dest).getD j 0
        = g.getD j 0) := by
  have key : (DALocalToGlobal_added (Arith.exact α sqrt) da
        (DAGlobalToLocal_inserted (Arith.exact α sqrt) da g l) dest).getD j 0
      = dest.getD j 0 + (da.gtol.ix.count j : α) * g.getD j 0 := by
    have h := foldl_add_getD (Arith.exact α sqrt)
      (List.zipWith (fun i k => (k,
        (DAGlobalToLocal_inserted (Arith.exact α sqrt) da g l).getD i
          (Arith.exact α sqrt).zero)) da.gtol.iy da.gtol.ix) dest j hj
    rw [reverse_transfers_to] at h
    have hrep : ((List.zipWith Prod.mk da.gtol.ix da.gtol.iy).filter
          (fun p => decide (p.1 = j))).map
          (fun p => (DAGlobalToLocal_inserted (Arith.exact α sqrt) da g l).getD p.2
            (Arith.exact α sqrt).zero)
        = List.replicate (da.gtol.ix.count j) (g.getD j (Arith.exact α sqrt).zero) := by
      rw [List.eq_replicate_iff]
      refine ⟨by rw [List.length_map, zip_filter_length _ _ _ hlen], fun b hb => ?_⟩
      obtain ⟨p, hp, rfl⟩ := List.mem_map.mp hb
      have hp2 := List.mem_filter.mp hp
      rw [DAGlobalToLocal_inserted_getD _ da g l hlen hnd hr p hp2.1]
      rw [of_decide_eq_true hp2.2]
    rw [hrep, foldl_add_replicate] at h
    simpa [DALocalToGlobal_added, DALocalToGlobalEnd, DALocalToGlobalBegin, VecScatterEnd,
      VecScatterBegin, Arith.exact] using h
  refine ⟨key, fun hc hd => ?_⟩
  rw [key, hc, hd]
  simp

/-- Witness of C17, amended: a DA of two nodes on one process without ghost slots, where
every global entry is held in exactly one local slot; the round trip into a zero
destination gives back entry 0 of `g`. -/
theorem local_to_global_round_trip_witness :
    (1 : Nat) = 1 ∧ (0 : Nat) < 2 ∧
    (DALocalToGlobal_added (Arith.exact ℚ Rat.sqrt)
      { gtol := { ix := [0, 1], iy := [0, 1] }, gton := none, natural := none, Nlocal := 2,
        ao := [0, 1] }
      (DAGlobalToLocal_inserted (Arith.exact ℚ Rat.sqrt)
        { gtol := { ix := [0, 1], iy := [0, 1] }, gton := none, natural := none, Nlocal := 2,
          ao := [0, 1] } [5, 7] [0, 0]) [0, 0]).getD 0 0 = ([5, 7] : Vec ℚ).getD 0 0 :=
  ⟨rfl, by decide,
   (local_to_global_round_trip Rat.sqrt
      { gtol := { ix := [0, 1], iy := [0, 1] }, gton := none, natural := none, Nlocal := 2,
        ao := [0, 1] } [5, 7] [0, 0] [0, 0] rfl (by decide) (by decide) 0 (by decide)).2
      (by decide) (by simp)⟩

theorem ISCreateStride_zero_one (n : Nat) : ISCreateStride n 0 1 = List.range n := by
  simp [ISCreateStride]

theorem ext_getD {Sc : Type} (z : Sc) (a b : Vec Sc) (hlen : a.length = b.length)
    (h : ∀ k : Nat, k < b.length → a.getD k z = b.getD k z) : a = b := by
  apply List.ext_getElem hlen
  intro k ha hb
  have := h k hb
  simpa [List.getD_eq_getElem?_getD, ha, hb] using this

theorem zip_mem_of_lt (xs ys : List Nat) (k : Nat) (hx : k < xs.length) (hy : k < ys.length) :
    (xs.getD k 0, ys.getD k 0) ∈ List.zipWith Prod.mk xs ys := by
  rw [List.mem_iff_getElem]
  refine ⟨k, by simp [hx, hy], ?_⟩
  simp [List.getD_eq_getElem?_getD, hx, hy]

theorem insert_round_trip {Sc : Type} (ar : Arith Sc) (ao : List Nat) (m : Nat)
    (hperm : ao.Perm (List.range m)) (g n l : Vec Sc) (hg : g.length = m)
    (hn : n.length = m) (hl : l.length = m) :
    (List.zipWith (fun i k => (k,
        ((List.zipWith (fun i k => (k, g.getD i ar.zero)) (List.range m) ao).foldl
          (applyTransfer ar InsertMode.INSERT_VALUES) n).getD i ar.zero)) ao
        (List.range m)).foldl (applyTransfer ar InsertMode.INSERT_VALUES) l = g := by
  have hlen : ao.length = m := by simpa using hperm.length_eq
  have hnd : ao.Nodup := hperm.nodup_iff.mpr (List.nodup_range m)
  have hmem : ∀ i ∈ ao, i < m := fun i hi => List.mem_range.mp (hperm.mem_iff.mp hi)
  apply ext_getD ar.zero
  · rw [foldl_applyTransfer_length, hl, hg]
  · intro k hk
    rw [hg] at hk
    have h1 := zip_mem_of_lt ao (List.range m) k (by omega) (by simpa using hk)
    have h2 := zip_mem_of_lt (List.range m) ao k (by simpa using hk) (by omega)
    have hrk : (List.range m).getD k 0 = k := by
      simp [List.getD_eq_getElem?_getD, hk]
    rw [hrk] at h1 h2
    have hd1 := forward_transfers_dst (fun i => g.getD i ar.zero) (List.range m) ao
      (by simp [hlen])
    have e1 := foldl_insert_getD_of_mem ar _ n ar.zero (by rw [hd1]; exact hnd)
      (fun q hq => by
        rw [hn]
        exact hmem _ (by rw [← hd1]; exact List.mem_map_of_mem Prod.fst hq))
      _ (forward_transfers_mem (fun i => g.getD i ar.zero) _ _ _ h2)
    have hd2 := forward_transfers_dst
      (fun i => ((List.zipWith (fun i k => (k, g.getD i ar.zero)) (List.range m) ao).foldl
          (applyTransfer ar InsertMode.INSERT_VALUES) n).getD i ar.zero) ao (List.range m)
      (by simp [hlen])
    have e2 := foldl_insert_getD_of_mem ar _ l ar.zero
      (by rw [hd2]; exact List.nodup_range m)
      (fun q hq => by
        rw [hl]
        exact List.mem_range.mp (by rw [← hd2]; exact List.mem_map_of_mem Prod.fst hq))
      _ (forward_transfers_mem
        (fun i => ((List.zipWith (fun i k => (k, g.getD i ar.zero)) (List.range m) ao).foldl
          (applyTransfer ar InsertMode.INSERT_VALUES) n).getD i ar.zero) _ _ _ h1)
    simp only at e1 e2
    rw [e2, e1]

theorem wellFormed_perm {Sc : Type} (da : DA Sc) (nat : Vec Sc) (hwf : da.wellFormed)
    (hnat : da.natural = some nat) : da.ao.Perm (List.range nat.length) := by
  unfold DA.wellFormed at hwf
  rw [hnat] at hwf
  cases hg : da.gton with
  | none => rw [hg] at hwf; exact hwf
  | some c => rw [hg] at hwf; exact hwf.1

theorem natural_create_of_wellFormed {Sc : Type} (da : DA Sc) (nat : Vec Sc)
    (hwf : da.wellFormed) (hnat : da.natural = some nat) :
    (if da.gton.isNone then DAGlobalToNatural_Create da else (PetscErrorCode.ok, da))
      = (PetscErrorCode.ok,
          { da with gton := some { ix := List.range nat.length, iy := da.ao } }) := by
  have hperm := wellFormed_perm da nat hwf hnat
  have hlen : da.ao.length = nat.length := by simpa using hperm.length_eq
  cases hg : da.gton with
  | none =>
    simp [DAGlobalToNatural_Create, hnat, DAGetNatural_Private, hlen, VecScatterCreate,
      ISCreateStride_zero_one]
  | some c =>
    unfold DA.wellFormed at hwf
    rw [hnat, hg] at hwf
    have hc := hwf.2
    rw [ISCreateStride_zero_one] at hc
    cases da
    simp_all [VecScatterCreate]

/-- C18. Let the natural vector of a well-formed DA exist, and let `g`, `n` and `l` have its
size. `DAGlobalToNaturalBegin/End` with `INSERT_VALUES` from `g` into `n`, followed by
`DANaturalToGlobalBegin/End` with `INSERT_VALUES` from the result into `l`, return without
error and leave `l` equal to `g`. Both directions are calls of the scatter primitive on one
context, `da->gton`, forward and then in reverse; its index map pairs the global positions
`0..m-1` with a permutation of them. -/
theorem natural_round_trip {Sc : Type} (ar : Arith Sc) (da : DA Sc) (nat g n l : Vec Sc)
    (hwf : da.wellFormed) (hnat : da.natural = some nat) (hg : g.length = nat.length)
    (hn : n.length = nat.length) (hl : l.length = nat.length) :
    ∃ (c : VecScatter) (s1 s2 s3 s4 : DAResult Sc),
      s1 = DAGlobalToNaturalBegin ar da g InsertMode.INSERT_VALUES n [] ∧
      s2 = DAGlobalToNaturalEnd ar s1.da g InsertMode.INSERT_VALUES s1.out s1.fl ∧
      s3 = DANaturalToGlobalBegin ar s2.da s2.out InsertMode.INSERT_VALUES l s2.fl ∧
      s4 = DANaturalToGlobalEnd ar s3.da s2.out InsertMode.INSERT_VALUES s3.out s3.fl ∧
      s1.ierr = PetscErrorCode.ok ∧ s2.ierr = PetscErrorCode.ok ∧
      s3.ierr = PetscErrorCode.ok ∧ s4.ierr = PetscErrorCode.ok ∧
      s4.out = g ∧
      s1.da.gton = some c ∧ s2.da.gton = some c ∧ s3.da.gton = some c ∧
      s4.da.gton = some c ∧
      (s1.ierr, s1.out, s1.fl) = VecScatterBegin ar g n InsertMode.INSERT_VALUES
        ScatterMode.SCATTER_FORWARD (some c) [] ∧
      (s2.ierr, s2.out, s2.fl) = VecScatterEnd ar g s1.out InsertMode.INSERT_VALUES
        ScatterMode.SCATTER_FORWARD (some c) s1.fl ∧
      (s3.ierr, s3.out, s3.fl) = VecScatterBegin ar s2.out l InsertMode.INSERT_VALUES
        ScatterMode.SCATTER_REVERSE (some c) s2.fl ∧
      (s4.ierr, s4.out, s4.fl) = VecScatterEnd ar s2.out s3.out InsertMode.INSERT_VALUES
        ScatterMode.SCATTER_REVERSE (some c) s3.fl ∧
      c.ix = List.range nat.length ∧ c.iy.Perm (List.range nat.length) ∧
      (∀ k : Nat, k < nat.length → s2.out.getD (c.iy.getD k 0) ar.zero = g.getD k ar.zero) := by
  have hperm := wellFormed_perm da nat hwf hnat
  have hcr := natural_create_of_wellFormed da nat hwf hnat
  have h1 : DAGlobalToNaturalBegin ar da g InsertMode.INSERT_VALUES n []
      = { ierr := PetscErrorCode.ok,
          da := { da with gton := some { ix := List.range nat.length, iy := da.ao } },
          out := n,
          fl := List.zipWith (fun i k => (k, g.getD i ar.zero)) (List.range nat.length)
            da.ao } := by
    simp only [DAGlobalToNaturalBegin, hcr]
    simp [VecScatterBegin]
  refine ⟨{ ix := List.range nat.length, iy := da.ao }, _, _, _, _, rfl, rfl, rfl, rfl, ?_⟩
  rw [h1]
  refine ⟨rfl, rfl, rfl, rfl, ?_, rfl, rfl, rfl, rfl, rfl, rfl, rfl, rfl, rfl, hperm, ?_⟩
  all_goals simp only [DAGlobalToNaturalEnd, VecScatterEnd, DANaturalToGlobalBegin,
    DANaturalToGlobalEnd, Option.isNone_some, Bool.false_eq_true, if_false, VecScatterBegin,
    List.nil_append, ne_eq, not_true_eq_false]
  · exact insert_round_trip ar da.ao nat.length hperm g n l hg hn hl
  · intro k hk
    have hlen : da.ao.length = nat.length := by simpa using hperm.length_eq
    have h2 := zip_mem_of_lt (List.range nat.length) da.ao k (by simpa using hk) (by omega)
    have hrk : (List.range nat.length).getD k 0 = k := by
      simp [List.getD_eq_getElem?_getD, hk]
    rw [hrk] at h2
    have hd1 := forward_transfers_dst (fun i => g.getD i ar.zero) (List.range nat.length)
      da.ao (by simp [hlen])
    exact foldl_insert_getD_of_mem ar _ n ar.zero
      (by rw [hd1]; exact hperm.nodup_iff.mpr (List.nodup_range _))
      (fun q hq => by
        rw [hn]
        exact List.mem_range.mp (hperm.mem_iff.mp
          (by rw [← hd1]; exact List.mem_map_of_mem Prod.fst hq)))
      _ (forward_transfers_mem (fun i => g.getD i ar.zero) _ _ _ h2)

/-- Witness of C18 on the 2 x 2 grid: the natural vector of `g = [1, 2, 3, 4]` is
`[1, 3, 2, 4]`, and mapping it back gives `g`. -/
theorem natural_round_trip_witness :
    (gridDA ℚ (some [0, 0, 0, 0])).wellFormed ∧
    ∃ s1 s2 s3 s4 : DAResult ℚ,
      s1 = DAGlobalToNaturalBegin Arith.rat (gridDA ℚ (some [0, 0, 0, 0])) [1, 2, 3, 4]
        InsertMode.INSERT_VALUES [0, 0, 0, 0] [] ∧
      s2 = DAGlobalToNaturalEnd Arith.rat s1.da [1, 2, 3, 4] InsertMode.INSERT_VALUES s1.out
        s1.fl ∧
      s3 = DANaturalToGlobalBegin Arith.rat s2.da s2.out InsertMode.INSERT_VALUES [0, 0, 0, 0]
        s2.fl ∧
      s4 = DANaturalToGlobalEnd Arith.rat s3.da s2.out InsertMode.INSERT_VALUES s3.out s3.fl ∧
      s2.out = [1, 3, 2, 4] ∧ s4.out = [1, 2, 3, 4] := by
  have hwf : (gridDA ℚ (some [0, 0, 0, 0])).wellFormed := by decide
  obtain ⟨c, s1, s2, s3, s4, e1, e2, e3, e4, -, -, -, -, hout, -⟩ :=
    natural_round_trip Arith.rat (gridDA ℚ (some [0, 0, 0, 0])) [0, 0, 0, 0] [1, 2, 3, 4]
      [0, 0, 0, 0] [0, 0, 0, 0] hwf rfl rfl rfl rfl
  refine ⟨hwf, s1, s2, s3, s4, e1, e2, e3, e4, ?_, hout⟩
  rw [e2, e1]
  simp [DAGlobalToNaturalEnd, DAGlobalToNaturalBegin, DAGlobalToNatural_Create,
    DAGetNatural_Private, VecScatterCreate, ISCreateStride, VecScatterEnd, VecScatterBegin,
    applyTransfer, gridDA, Arith.rat, Arith.exact, List.range, List.range.loop]

/-! ## The natural-order exchange and the build-once contexts -/

/-- C19, counterexample. On the 2 x 2 grid without a natural vector (and hence without a
global-to-natural context), `DAGlobalToNaturalEnd` and `DANaturalToGlobalEnd` do not return
`PETSC_ERR_ORDER`: they make no test of `da->natural` and hand the unset context to
`VecScatterEnd`, whose error for a null context is what they return. -/
theorem natural_end_returns_no_order_error :
    (gridDA ℚ none).natural = none ∧ (gridDA ℚ none).gton = none ∧
    (DAGlobalToNaturalEnd Arith.rat (gridDA ℚ none) [1, 2, 3, 4] InsertMode.INSERT_VALUES
      [0, 0, 0, 0] []).ierr = PetscErrorCode.PETSC_ERR_ARG_NULL ∧
    (DANaturalToGlobalEnd Arith.rat (gridDA ℚ none) [1, 2, 3, 4] InsertMode.INSERT_VALUES
      [0, 0, 0, 0] []).ierr = PetscErrorCode.PETSC_ERR_ARG_NULL ∧
    PetscErrorCode.PETSC_ERR_ARG_NULL ≠ PetscErrorCode.PETSC_ERR_ORDER :=
  ⟨rfl, rfl, rfl, rfl, by decide⟩

/-- C19, amended. For a well-formed DA whose natural vector has not been created, the Begin
halves `DAGlobalToNaturalBegin` and `DANaturalToGlobalBegin` return `PETSC_ERR_ORDER`, issue
no transfer and leave the DA and the output vector as they were. The End halves make no
test: they return the error code of `VecScatterEnd` for the unset context, and also leave
the DA, the output vector and the transfers in flight as they were. -/
theorem natural_order_error {Sc : Type} (ar : Arith Sc) (da : DA Sc) (g l : Vec Sc)
    (mode : InsertMode) (fl : InFlight Sc) (hwf : da.wellFormed)
    (hnat : da.natural = none) :
    DAGlobalToNaturalBegin ar da g mode l fl
      = { ierr := PetscErrorCode.PETSC_ERR_ORDER, da := da, out := l, fl := fl } ∧
    DANaturalToGlobalBegin ar da g mode l fl
      = { ierr := PetscErrorCode.PETSC_ERR_ORDER, da := da, out := l, fl := fl } ∧
    DAGlobalToNaturalEnd ar da g mode l fl
      = { ierr := (VecScatterEnd ar g l mode ScatterMode.SCATTER_FORWARD none fl).1,
          da := da, out := l, fl := fl } ∧
    DANaturalToGlobalEnd ar da g mode l fl
      = { ierr := (VecScatterEnd ar g l mode ScatterMode.SCATTER_REVERSE none fl).1,
          da := da, out := l, fl := fl } ∧
    (VecScatterEnd ar g l mode ScatterMode.SCATTER_FORWARD none fl).1
      = PetscErrorCode.PETSC_ERR_ARG_NULL ∧
    (VecScatterEnd ar g l mode ScatterMode.SCATTER_REVERSE none fl).1
      = PetscErrorCode.PETSC_ERR_ARG_NULL := by
  have hg : da.gton = none := by
    unfold DA.wellFormed at hwf
    rw [hnat] at hwf
    cases h : da.gton with
    | none => rfl
    | some c => rw [h] at hwf; exact hwf.elim
  refine ⟨?_, ?_, ?_, ?_, rfl, rfl⟩
  · simp [DAGlobalToNaturalBegin, DAGlobalToNatural_Create, hg, hnat]
  · simp [DANaturalToGlobalBegin, DAGlobalToNatural_Create, hg, hnat]
  · simp [DAGlobalToNaturalEnd, VecScatterEnd, hg]
  · simp [DANaturalToGlobalEnd, VecScatterEnd, hg]

/-- Witness of C19, amended, on the 2 x 2 grid without a natural vector. -/
theorem natural_order_error_witness :
    (gridDA ℚ none).wellFormed ∧ (gridDA ℚ none).natural = none ∧
    DAGlobalToNaturalBegin Arith.rat (gridDA ℚ none) [1, 2, 3, 4] InsertMode.INSERT_VALUES
      [0, 0, 0, 0] []
      = { ierr := PetscErrorCode.PETSC_ERR_ORDER, da := gridDA ℚ none, out := [0, 0, 0, 0],
          fl := [] } :=
  ⟨by decide, rfl,
   (natural_order_error Arith.rat (gridDA ℚ none) [1, 2, 3, 4] [0, 0, 0, 0]
      InsertMode.INSERT_VALUES [] (by decide) rfl).1⟩

theorem DAGlobalToNatural_Create_da {Sc : Type} (da : DA Sc) :
    (DAGlobalToNatural_Create da).2 = da ∨
      ∃ c : VecScatter, (DAGlobalToNatural_Create da).2 = { da with gton := some c } := by
  unfold DAGlobalToNatural_Create
  cases hn : da.natural with
  | none => exact Or.inl rfl
  | some nat =>
    simp only
    split_ifs
    · exact Or.inl rfl
    · exact Or.inr ⟨_, rfl⟩

theorem DAOp.call_da {Sc : Type} (ar : Arith Sc) (da : DA Sc) (fl : InFlight Sc)
    (op : DAOp Sc) :
    (op.call ar da fl).da = da ∨
      (da.gton = none ∧ ∃ c : VecScatter, (op.call ar da fl).da = { da with gton := some c }) := by
  have hbegin : (if da.gton.isNone then DAGlobalToNatural_Create da
        else (PetscErrorCode.ok, da)).2 = da ∨
      (da.gton = none ∧ ∃ c : VecScatter,
        (if da.gton.isNone then DAGlobalToNatural_Create da
          else (PetscErrorCode.ok, da)).2 = { da with gton := some c }) := by
    cases hg : da.gton with
    | some c => exact Or.inl rfl
    | none =>
      simp only [Option.isNone_none, if_true]
      rcases DAGlobalToNatural_Create_da da with h | ⟨c, h⟩
      · exact Or.inl h
      · exact Or.inr ⟨trivial, c, by rw [h]⟩
  cases op with
  | GlobalToLocalBegin g mode l => exact Or.inl rfl
  | GlobalToLocalEnd g mode l => exact Or.inl rfl
  | LocalToGlobalBegin l g => exact Or.inl rfl
  | LocalToGlobalEnd l g => exact Or.inl rfl
  | GlobalToNaturalEnd g mode l => exact Or.inl rfl
  | NaturalToGlobalEnd g mode l => exact Or.inl rfl
  | GlobalToNaturalBegin g mode l =>
    have e : (DAOp.call ar da fl (DAOp.GlobalToNaturalBegin g mode l)).da
        = (if da.gton.isNone then DAGlobalToNatural_Create da
            else (PetscErrorCode.ok, da)).2 := by
      simp only [DAOp.call, DAGlobalToNaturalBegin]
      split_ifs <;> rfl
    rw [e]
    exact hbegin
  | NaturalToGlobalBegin g mode l =>
    have e : (DAOp.call ar da fl (DAOp.NaturalToGlobalBegin g mode l)).da
        = (if da.gton.isNone then DAGlobalToNatural_Create da
            else (PetscErrorCode.ok, da)).2 := by
      simp only [DAOp.call, DANaturalToGlobalBegin]
      split_ifs <;> rfl
    rw [e]
    exact hbegin

theorem DAOp.run_da_of_gton {Sc : Type} (ar : Arith Sc) (ops : List (DAOp Sc)) (da : DA Sc)
    (fl : InFlight Sc) (c : VecScatter) (hc : da.gton = some c) :
    ∀ r ∈ DAOp.run ar da fl ops, r.da = da := by
  induction ops generalizing fl with
  | nil => intro r hr; simp [DAOp.run] at hr
  | cons op ops ih =>
    have hstep : (op.call ar da fl).da = da := by
      rcases DAOp.call_da ar da fl op with h | ⟨h, -⟩
      · exact h
      · rw [hc] at h; cases h
    intro r hr
    simp only [DAOp.run, List.mem_cons] at hr
    rcases hr with rfl | hr
    · exact hstep
    · rw [hstep] at hr
      exact ih _ r hr

theorem DAOp.run_gtol {Sc : Type} (ar : Arith Sc) (ops : List (DAOp Sc)) (da : DA Sc)
    (fl : InFlight Sc) :
    ∀ r ∈ DAOp.run ar da fl ops, r.da.gtol = da.gtol ∧ r.da.natural = da.natural
      ∧ r.da.Nlocal = da.Nlocal ∧ r.da.ao = da.ao := by
  induction ops generalizing da fl with
  | nil => intro r hr; simp [DAOp.run] at hr
  | cons op ops ih =>
    have hstep : (op.call ar da fl).da.gtol = da.gtol
        ∧ (op.call ar da fl).da.natural = da.natural
        ∧ (op.call ar da fl).da.Nlocal = da.Nlocal ∧ (op.call ar da fl).da.ao = da.ao := by
      rcases DAOp.call_da ar da fl op with h | ⟨-, c, h⟩
      · rw [h]; exact ⟨rfl, rfl, rfl, rfl⟩
      · rw [h]; exact ⟨rfl, rfl, rfl, rfl⟩
    intro r hr
    simp only [DAOp.run, List.mem_cons] at hr
    rcases hr with rfl | hr
    · exact hstep
    · have := ih _ _ r hr
      rw [hstep.1, hstep.2.1, hstep.2.2.1, hstep.2.2.2] at this
      exact this

theorem DAOp.run_changes_zero {Sc : Type} (ar : Arith Sc) (ops : List (DAOp Sc)) (da : DA Sc)
    (fl : InFlight Sc) (c : VecScatter) (hc : da.gton = some c) :
    countChanges da.gton ((DAOp.run ar da fl ops).map (fun r => r.da.gton)) = 0 := by
  induction ops generalizing fl with
  | nil => rfl
  | cons op ops ih =>
    have hstep : (op.call ar da fl).da = da :=
      DAOp.run_da_of_gton ar (op :: ops) da fl c hc _ (List.mem_cons_self _ _)
    simp only [DAOp.run, List.map_cons, countChanges, hstep, if_true, zero_add]
    exact ih _

theorem DAOp.run_changes_le_one {Sc : Type} (ar : Arith Sc) (ops : List (DAOp Sc)) (da : DA Sc)
    (fl : InFlight Sc) :
    countChanges da.gton ((DAOp.run ar da fl ops).map (fun r => r.da.gton)) ≤ 1 := by
  induction ops generalizing da fl with
  | nil => simp [DAOp.run, countChanges]
  | cons op ops ih =>
    simp only [DAOp.run, List.map_cons, countChanges]
    rcases DAOp.call_da ar da fl op with h | ⟨-, c, h⟩
    · rw [if_pos (by rw [h]), zero_add]
      exact ih _ _
    · have h0 := DAOp.run_changes_zero ar ops (op.call ar da fl).da (op.call ar da fl).fl c
        (by rw [h])
      rw [h0]
      split_ifs <;> simp

theorem DAOp.run_chain {Sc : Type} (ar : Arith Sc) (ops : List (DAOp Sc)) (da : DA Sc)
    (fl : InFlight Sc) :
    List.Chain (fun a b : DA Sc => a = b ∨ (a.gton = none ∧ ∃ c : VecScatter,
        b = { a with gton := some c })) da ((DAOp.run ar da fl ops).map DAResult.da) := by
  induction ops generalizing da fl with
  | nil => exact List.Chain.nil
  | cons op ops ih =>
    simp only [DAOp.run, List.map_cons]
    refine List.Chain.cons ?_ (ih _ _)
    rcases DAOp.call_da ar da fl op with h | h
    · exact Or.inl h.symm
    · exact Or.inr h

/-- C20. Over every sequence of calls of the eight DA exchange operations, started on any DA
with any transfers in flight: `da->gtol` is the same after every call; every call either
leaves the DA as it was or sets `da->gton` while it was unset, changing nothing else; the
value of `da->gton` changes at most once over the sequence; once `da->gton` is set, every
later call leaves the DA as it was, and the Begin halves of the natural exchange are then
the call of the scatter primitive on the existing context. -/
theorem scatter_contexts_built_once {Sc : Type} (ar : Arith Sc) (da : DA Sc) (fl : InFlight Sc)
    (ops : List (DAOp Sc)) :
    (∀ r ∈ DAOp.run ar da fl ops, r.da.gtol = da.gtol) ∧
    List.Chain (fun a b : DA Sc => a = b ∨ (a.gton = none ∧ ∃ c : VecScatter,
        b = { a with gton := some c })) da ((DAOp.run ar da fl ops).map DAResult.da) ∧
    countChanges da.gton ((DAOp.run ar da fl ops).map (fun r => r.da.gton)) ≤ 1 ∧
    (∀ c : VecScatter, da.gton = some c →
      (∀ r ∈ DAOp.run ar da fl ops, r.da = da) ∧
      (∀ (g l : Vec Sc) (mode : InsertMode),
        DAGlobalToNaturalBegin ar da g mode l fl
          = { ierr := (VecScatterBegin ar g l mode ScatterMode.SCATTER_FORWARD (some c) fl).1,
              da := da,
              out := (VecScatterBegin ar g l mode ScatterMode.SCATTER_FORWARD (some c) fl).2.1,
              fl := (VecScatterBegin ar g l mode ScatterMode.SCATTER_FORWARD (some c) fl).2.2 }
        ∧ DANaturalToGlobalBegin ar da g mode l fl
          = { ierr := (VecScatterBegin ar g l mode ScatterMode.SCATTER_REVERSE (some c) fl).1,
              da := da,
              out := (VecScatterBegin ar g l mode ScatterMode.SCATTER_REVERSE (some c) fl).2.1,
              fl := (VecScatterBegin ar g l mode ScatterMode.SCATTER_REVERSE (some c)
                fl).2.2 })) := by
  refine ⟨fun r hr => (DAOp.run_gtol ar ops da fl r hr).1, DAOp.run_chain ar ops da fl,
    DAOp.run_changes_le_one ar ops da fl, fun c hc => ⟨DAOp.run_da_of_gton ar ops da fl c hc,
      fun g l mode => ?_⟩⟩
  simp [DAGlobalToNaturalBegin, DANaturalToGlobalBegin, hc, VecScatterBegin]

/-- Witness of C20 on the 2 x 2 grid with a natural vector: over `naturalExchange` the
context `da->gton` is built by the first call and is the same after the three later calls,
so its value changes once. -/
theorem scatter_contexts_built_once_witness :
    (DAOp.run Arith.rat (gridDA ℚ (some [0, 0, 0, 0])) [] naturalExchange).map
        (fun r => r.da.gton)
      = List.replicate 4 (some { ix := [0, 1, 2, 3], iy := [0, 2, 1, 3] }) ∧
    countChanges (gridDA ℚ (some [0, 0, 0, 0])).gton
      ((DAOp.run Arith.rat (gridDA ℚ (some [0, 0, 0, 0])) [] naturalExchange).map
        (fun r => r.da.gton)) ≤ 1 := by
  refine ⟨?_, (scatter_contexts_built_once Arith.rat (gridDA ℚ (some [0, 0, 0, 0])) []
    naturalExchange).2.2.1⟩
  simp [DAOp.run, DAOp.call, naturalExchange, DAGlobalToNaturalBegin, DAGlobalToNaturalEnd,
    DANaturalToGlobalBegin, DANaturalToGlobalEnd, DAGlobalToNatural_Create,
    DAGetNatural_Private, VecScatterCreate, ISCreateStride, VecScatterBegin, VecScatterEnd,
    gridDA, List.range, List.range.loop]

/-! ## The default convergence test at the boundary and at not-a-number -/

/-- C22, the code at the failing inputs. After the call for iteration 0 of Scenario B
(`rnorm0 = 10`, `ttol = max(rtol*rnorm0, atol) = 1e-5`, `divtol = 1e4`), the call for
iteration 1 with `rnorm = 1e-5` returns `KSP_CONVERGED_RTOL` although `rnorm < 1e-5` does not
hold, and the call with `rnorm = 1e5` returns `KSP_DIVERGED_DTOL` although
`rnorm > divtol*rnorm0 = 1e5` does not hold. -/
theorem KSPDefaultConverged_at_boundary :
    scenarioB1.1.rnorm0 = 10 ∧
    scenarioB1.1.ttol = max (scenarioB1.1.rtol * scenarioB1.1.rnorm0) scenarioB1.1.atol ∧
    ¬ ((1 / 100000 : ℚ) < max (scenarioB1.1.rtol * scenarioB1.1.rnorm0) scenarioB1.1.atol) ∧
    (KSPDefaultConverged (Arith.exact ℚ Rat.sqrt) scenarioB1.1 1 (1 / 100000)
      KSP_CONVERGED_ITERATING).2 = KSP_CONVERGED_RTOL ∧
    ¬ ((100000 : ℚ) > scenarioB1.1.divtol * scenarioB1.1.rnorm0) ∧
    (KSPDefaultConverged (Arith.exact ℚ Rat.sqrt) scenarioB1.1 1 100000
      KSP_CONVERGED_ITERATING).2 = KSP_DIVERGED_DTOL := by
  obtain ⟨h1, h2, h3, h4, h5, _⟩ := scenarioB1_eval
  refine ⟨h2, ?_, ?_, ?_, ?_, ?_⟩
  · rw [h1, h2, h3, h4]; norm_num
  · rw [h2, h3, h4]; norm_num
  · simp only [KSPDefaultConverged, Arith.exact, Arith.ge, Arith.ne]
    simp only [one_ne_zero, if_false, h1, h2, h4, h5]
    norm_num
  · rw [h2, h5]; norm_num
  · simp only [KSPDefaultConverged, Arith.exact, Arith.ge, Arith.ne]
    simp only [one_ne_zero, if_false, h1, h2, h4, h5]
    norm_num

/-- C25. `KSPDefaultConverged` on a not-a-number residual norm, in any arithmetic: if every
comparison `rnorm <= y` and `y <= rnorm` is false and `rnorm == rnorm` is false, the verdict
is `KSP_DIVERGED_DTOL`, for every solver context and every `n`. For `n = 0` the baseline
`rnorm0` becomes `rnorm`, and `ttol` becomes `rtol*rnorm` when that product does not compare
below `atol` either. -/
theorem KSPDefaultConverged_nan {Sc : Type} (ar : Arith Sc) (ksp : KSP Sc) (n : Int)
    (rnorm : Sc) (reason : KSPConvergedReason)
    (hle : ∀ y : Sc, ar.le rnorm y = false) (hge : ∀ y : Sc, ar.le y rnorm = false)
    (hne : ar.eq rnorm rnorm = false) :
    (KSPDefaultConverged ar ksp n rnorm reason).2 = KSP_DIVERGED_DTOL ∧
    (KSPDefaultConverged ar ksp n rnorm reason).2 ≠ KSP_CONVERGED_ITERATING ∧
    (KSPDefaultConverged ar ksp n rnorm reason).2.isConverged = false ∧
    (n = 0 → (KSPDefaultConverged ar ksp n rnorm reason).1.rnorm0 = rnorm) ∧
    (n = 0 → ar.lt (ar.mul ksp.rtol rnorm) ksp.atol = false →
      (KSPDefaultConverged ar ksp n rnorm reason).1.ttol = ar.mul ksp.rtol rnorm) := by
  have hv : (KSPDefaultConverged ar ksp n rnorm reason).2 = KSP_DIVERGED_DTOL := by
    simp [KSPDefaultConverged, hle, hge, hne, Arith.ge, Arith.ne]
  refine ⟨hv, by rw [hv]; decide, by rw [hv]; rfl, ?_, ?_⟩
  · intro hn
    rw [KSPDefaultConverged_baseline, if_pos hn]
  · intro hn hlt
    rw [KSPDefaultConverged_baseline, if_pos hn]
    simp [PetscMax, hlt]

/-- Witness of C25 in rational arithmetic with a not-a-number value: the residual norm
`none` gives `KSP_DIVERGED_DTOL` at `n = 0` and at `n = 3`. -/
theorem KSPDefaultConverged_nan_witness :
    (KSPDefaultConverged (Arith.withNaN Rat.sqrt) rotationKSP 0 none
      KSP_CONVERGED_ITERATING).2 = KSP_DIVERGED_DTOL ∧
    (KSPDefaultConverged (Arith.withNaN Rat.sqrt) rotationKSP 0 none
      KSP_CONVERGED_ITERATING).1.rnorm0 = none ∧
    (KSPDefaultConverged (Arith.withNaN Rat.sqrt) rotationKSP 3 none
      KSP_CONVERGED_ITERATING).2 = KSP_DIVERGED_DTOL :=
  ⟨(KSPDefaultConverged_nan (Arith.withNaN Rat.sqrt) rotationKSP 0 none
      KSP_CONVERGED_ITERATING (fun y => by cases y <;> rfl) (fun y => by cases y <;> rfl)
      rfl).1,
   (KSPDefaultConverged_nan (Arith.withNaN Rat.sqrt) rotationKSP 0 none
      KSP_CONVERGED_ITERATING (fun y => by cases y <;> rfl) (fun y => by cases y <;> rfl)
      rfl).2.2.2.1 rfl,
   (KSPDefaultConverged_nan (Arith.withNaN Rat.sqrt) rotationKSP 3 none
      KSP_CONVERGED_ITERATING (fun y => by cases y <;> rfl) (fun y => by cases y <;> rfl)
      rfl).1⟩

/-! ## The exit for nothing to do -/

/-- C26. If the convergence test called for iteration 0 leaves a verdict other than
`KSP_CONVERGED_ITERATING` in `ksp->reason`, then `KSPSolve_BCGS` returns the state in which
that test returned, without entering the loop: the verdict is the one the test gave,
`ksp->its = 0`, `ksp->rnorm` is the initial residual norm, the trace has grown by one history
entry, one monitor notification and the one call of the test, all for iteration 0, and the
solution vector is the initial guess. -/
theorem nothing_to_do_exit {Sc : Type} (ar : Arith Sc) (ops : LinOps Sc)
    (converged : ConvergedTest Sc) (ksp : KSP Sc)
    (h : (KSPSolve_BCGS.start ar ops converged ksp).ksp.reason ≠ KSP_CONVERGED_ITERATING) :
    KSPSolve_BCGS ar ops converged ksp
      = BCGS.store (KSPSolve_BCGS.start ar ops converged ksp) ∧
    (KSPSolve_BCGS.start ar ops converged ksp).ksp.reason
      = (converged
          (KSPMonitor (KSPLogResidualHistory
            { ksp with its := 0, rnorm := KSPSolve_BCGS.initialNorm ar ops ksp }
            (KSPSolve_BCGS.initialNorm ar ops ksp)) 0 (KSPSolve_BCGS.initialNorm ar ops ksp))
          0 (KSPSolve_BCGS.initialNorm ar ops ksp) ksp.reason).2 ∧
    (KSPSolve_BCGS ar ops converged ksp).reason
      = (KSPSolve_BCGS.start ar ops converged ksp).ksp.reason ∧
    (KSPSolve_BCGS ar ops converged ksp).its = 0 ∧
    (KSPSolve_BCGS ar ops converged ksp).rnorm = KSPSolve_BCGS.initialNorm ar ops ksp ∧
    (KSPSolve_BCGS ar ops converged ksp).trace
      = ksp.trace ++ [Event.history (KSPSolve_BCGS.initialNorm ar ops ksp),
          Event.monitor 0 (KSPSolve_BCGS.initialNorm ar ops ksp),
          Event.converged 0 (KSPSolve_BCGS.initialNorm ar ops ksp)] ∧
    (KSPSolve_BCGS ar ops converged ksp).vec_sol = ksp.vec_sol := by
  have hs : KSPSolve_BCGS ar ops converged ksp
      = BCGS.store (KSPSolve_BCGS.start ar ops converged ksp) := by
    unfold KSPSolve_BCGS
    simp only [h, ne_eq, not_false_eq_true, if_true]
  refine ⟨hs, ?_, ?_, ?_, ?_, ?_, ?_⟩
  · simp [KSPSolve_BCGS.start, KSPSolve_BCGS.initialNorm, callConverged, KSPMonitor,
      KSPLogResidualHistory]
  · rw [hs]; rfl
  · rw [hs]; exact (start_frame ar ops converged ksp).2.2.2.2.2.2.1
  · rw [hs]
    simp [BCGS.store, KSPSolve_BCGS.start, KSPSolve_BCGS.initialNorm, callConverged,
      KSPMonitor, KSPLogResidualHistory]
  · rw [hs]
    simp only [BCGS.store]
    exact start_trace ar ops converged ksp
  · rw [hs]; exact (start_frame ar ops converged ksp).2.2.2.2.2.2.2

theorem zeroRhs_default_start :
    (KSPSolve_BCGS.start Arith.rat (LinOps.identity ℚ) (KSPDefaultConverged Arith.rat)
      zeroRhsKSP).ksp.reason = KSP_CONVERGED_ATOL := by
  simp [KSPSolve_BCGS.start, zeroRhsKSP, KSP.ready, callConverged, KSPMonitor,
    KSPLogResidualHistory, KSPDefaultConverged, PetscMax, Arith.rat, Arith.exact]

/-- Witness of C26: the system `I x = [0,0]` with initial guess `0` and the default
convergence test; the test for iteration 0 gives `KSP_CONVERGED_ATOL`, and the solve returns
with it, `its = 0` and the initial guess. -/
theorem nothing_to_do_exit_witness :
    (KSPSolve_BCGS.start Arith.rat (LinOps.identity ℚ) (KSPDefaultConverged Arith.rat)
      zeroRhsKSP).ksp.reason ≠ KSP_CONVERGED_ITERATING ∧
    (KSPSolve_BCGS Arith.rat (LinOps.identity ℚ) (KSPDefaultConverged Arith.rat)
      zeroRhsKSP).reason = KSP_CONVERGED_ATOL ∧
    (KSPSolve_BCGS Arith.rat (LinOps.identity ℚ) (KSPDefaultConverged Arith.rat)
      zeroRhsKSP).its = 0 ∧
    (KSPSolve_BCGS Arith.rat (LinOps.identity ℚ) (KSPDefaultConverged Arith.rat)
      zeroRhsKSP).vec_sol = [0, 0] := by
  have hne : (KSPSolve_BCGS.start Arith.rat (LinOps.identity ℚ)
      (KSPDefaultConverged Arith.rat) zeroRhsKSP).ksp.reason ≠ KSP_CONVERGED_ITERATING := by
    rw [zeroRhs_default_start]; decide
  have h := nothing_to_do_exit Arith.rat (LinOps.identity ℚ) (KSPDefaultConverged Arith.rat)
    zeroRhsKSP hne
  exact ⟨hne, by rw [h.2.2.1, zeroRhs_default_start], h.2.2.2.1, by
    rw [h.2.2.2.2.2.2]; simp [zeroRhsKSP, KSP.ready]⟩

/-! ## The order of the events of an iteration -/

theorem triangular_enter :
    KSPSolve_BCGS.enter Arith.rat (KSPSolve_BCGS.start Arith.rat overwriteOps
      (KSPDefaultConverged Arith.rat) triangularKSP)
    = { ksp := { triangularKSP with
                 rnorm := 2, ttol := 1 / 500000, rnorm0 := 2,
                 trace := [Event.history 2, Event.monitor 0 2, Event.converged 0 2] },
        X := [0, 0], R := [0, 2], RP := [0, 2], V := [0, 0], T := [0, 2], S := [0, 0],
        P := [0, 0], rhoold := 1, alpha := 1, omegaold := 1, dp := 2 } := by
  simp [KSPSolve_BCGS.enter, KSPSolve_BCGS.start, triangularKSP, overwriteOps, KSP.ready,
    LinOps.ofRows, KSPInitialResidual, KSP.workVec, callConverged, KSPMonitor,
    KSPLogResidualHistory, KSPDefaultConverged, VecNorm, VecDot, VecAXPY, VecCopy, VecSet,
    PetscMax, Arith.rat, Arith.exact, Arith.ge, Arith.ne, rat_sqrt_four]
  norm_num [rat_sqrt_four]

theorem triangular_body :
    KSPSolve_BCGS.body Arith.rat overwriteOps (KSPDefaultConverged Arith.rat) 0
      (KSPSolve_BCGS.enter Arith.rat (KSPSolve_BCGS.start Arith.rat overwriteOps
        (KSPDefaultConverged Arith.rat) triangularKSP))
    = ({ ksp := { triangularKSP with
                  its := 1, rnorm := 0, ttol := 1 / 500000, rnorm0 := 2,
                  reason := KSP_CONVERGED_ATOL,
                  trace := [Event.history 2, Event.monitor 0 2, Event.converged 0 2,
                    Event.history 0, Event.monitor 1 0, Event.converged 1 0] },
         X := [-1, 1], R := [0, 0], RP := [0, 2], V := [2, 4], T := [-1, 0], S := [-1, 0],
         P := [0, 2], rhoold := 4, alpha := 1 / 2, omegaold := 1, dp := 0 }, true) := by
  rw [triangular_enter]
  simp [KSPSolve_BCGS.body, triangularKSP, overwriteOps, KSP.ready, LinOps.ofRows,
    KSP_PCApplyBAorAB, callConverged, KSPMonitor, KSPLogResidualHistory, KSPDefaultConverged,
    VecNorm, VecDot, VecAXPY, VecAYPX, VecWAXPY, PetscMax, Arith.rat, Arith.exact, Arith.ge,
    Arith.ne, rat_sqrt_zero]
  norm_num [rat_sqrt_zero]
  decide

theorem triangular_solve :
    KSPSolve_BCGS Arith.rat overwriteOps (KSPDefaultConverged Arith.rat) triangularKSP
    = { triangularKSP with
        vec_sol := [-1, 1],
        work := some [[0, 0], [0, 2], [2, 4], [-1, 0], [-1, 0], [0, 2]],
        its := 1, rnorm := 0, ttol := 1 / 500000, rnorm0 := 2,
        reason := KSP_CONVERGED_ATOL,
        trace := [Event.history 2, Event.monitor 0 2, Event.converged 0 2,
          Event.history 0, Event.monitor 1 0, Event.converged 1 0] } := by
  rw [solve_of_start, loop_break, triangular_body]
  · simp [KSPSolve_BCGS.finish, BCGS.store, KSPUnwindPreconditioner, triangularKSP, KSP.ready]
  · rw [triangular_body]
  · have h := congrArg (fun st => st.ksp.reason) triangular_enter
    simpa [KSPSolve_BCGS.enter, triangularKSP, KSP.ready] using h

theorem body_block {Sc : Type} (ar : Arith Sc) (ops : LinOps Sc)
    (converged : ConvergedTest Sc) (i : Int) (st : BCGS Sc) :
    ∃ b : List (Event Sc),
      (KSPSolve_BCGS.body ar ops converged i st).1.ksp.trace = st.ksp.trace ++ b ∧
      (b = [] ∨ b = [Event.history st.dp, Event.monitor (i + 1) ar.zero] ∨
        ∃ dp : Sc, b = [Event.history dp, Event.monitor (i + 1) dp,
          Event.converged (i + 1) dp]) := by
  unfold KSPSolve_BCGS.body
  simp only []
  split_ifs
  · exact ⟨[], by simp, Or.inl rfl⟩
  · exact ⟨[], by simp, Or.inl rfl⟩
  · exact ⟨_, by simp [KSPMonitor, KSPLogResidualHistory], Or.inr (Or.inl rfl)⟩
  all_goals
    simp only [KSPMonitor, KSPLogResidualHistory, callConverged, List.append_assoc,
      List.singleton_append]
    exact ⟨_, rfl, Or.inr (Or.inr ⟨_, rfl⟩)⟩

theorem loop_blocks {Sc : Type} (ar : Arith Sc) (ops : LinOps Sc)
    (converged : ConvergedTest Sc) (max_it : Int) (st0 : BCGS Sc) :
    ∃ blocks : List (List (Event Sc)),
      (KSPSolve_BCGS.loop ar ops converged max_it 0 st0).2.ksp.trace
        = st0.ksp.trace ++ blocks.flatten ∧
      ∀ b ∈ blocks,
        (∃ (k : Int) (dp : Sc), b = [Event.history dp, Event.monitor k dp,
          Event.converged k dp]) ∨
        (∃ (k : Int) (dp : Sc), b = [Event.history dp, Event.monitor k ar.zero]) := by
  have hstep : ∀ (i : Int) (st : BCGS Sc),
      (∃ blocks : List (List (Event Sc)), st.ksp.trace = st0.ksp.trace ++ blocks.flatten ∧
        ∀ b ∈ blocks,
          (∃ (k : Int) (dp : Sc), b = [Event.history dp, Event.monitor k dp,
            Event.converged k dp]) ∨
          (∃ (k : Int) (dp : Sc), b = [Event.history dp, Event.monitor k ar.zero])) →
      ∃ blocks : List (List (Event Sc)),
        (KSPSolve_BCGS.body ar ops converged i st).1.ksp.trace
          = st0.ksp.trace ++ blocks.flatten ∧
        ∀ b ∈ blocks,
          (∃ (k : Int) (dp : Sc), b = [Event.history dp, Event.monitor k dp,
            Event.converged k dp]) ∨
          (∃ (k : Int) (dp : Sc), b = [Event.history dp, Event.monitor k ar.zero]) := by
    rintro i st ⟨blocks, htr, hall⟩
    obtain ⟨b, hb, hcase⟩ := body_block ar ops converged i st
    rcases hcase with rfl | rfl | ⟨dp, rfl⟩
    · exact ⟨blocks, by rw [hb, htr, List.append_nil], hall⟩
    · refine ⟨blocks ++ [[Event.history st.dp, Event.monitor (i + 1) ar.zero]], ?_, ?_⟩
      · rw [hb, htr, List.flatten_append, List.append_assoc]; simp
      · intro b hbm
        rcases List.mem_append.mp hbm with h | h
        · exact hall b h
        · rw [List.mem_singleton.mp h]
          exact Or.inr ⟨_, _, rfl⟩
    · refine ⟨blocks ++ [[Event.history dp, Event.monitor (i + 1) dp,
          Event.converged (i + 1) dp]], ?_, ?_⟩
      · rw [hb, htr, List.flatten_append, List.append_assoc]; simp
      · intro b hbm
        rcases List.mem_append.mp hbm with h | h
        · exact hall b h
        · rw [List.mem_singleton.mp h]
          exact Or.inl ⟨_, _, rfl⟩
  exact loop_ind ar ops converged max_it
    (fun _ st => ∃ blocks : List (List (Event Sc)),
      st.ksp.trace = st0.ksp.trace ++ blocks.flatten ∧
      ∀ b ∈ blocks,
        (∃ (k : Int) (dp : Sc), b = [Event.history dp, Event.monitor k dp,
          Event.converged k dp]) ∨
        (∃ (k : Int) (dp : Sc), b = [Event.history dp, Event.monitor k ar.zero]))
    (fun _ st => ∃ blocks : List (List (Event Sc)),
      st.ksp.trace = st0.ksp.trace ++ blocks.flatten ∧
      ∀ b ∈ blocks,
        (∃ (k : Int) (dp : Sc), b = [Event.history dp, Event.monitor k dp,
          Event.converged k dp]) ∨
        (∃ (k : Int) (dp : Sc), b = [Event.history dp, Event.monitor k ar.zero]))
    (fun i st h _ => hstep i st h) (fun i st h _ _ => hstep i st h)
    (fun i st h _ _ => hstep i st h) 0 st0 ⟨[], by simp, by simp⟩

/-- C24, counterexample. In the solve of `[[1,1],[0,2]] x = [0,2]` with the default
convergence test, which converges in one iteration, the monitors are notified before the
convergence test is called, at iteration 0 and at iteration 1: the events are history,
monitor, test, and not history, test, monitor. -/
theorem monitor_notified_before_test :
    (KSPSolve_BCGS Arith.rat overwriteOps (KSPDefaultConverged Arith.rat) triangularKSP).trace
      = [Event.history 2, Event.monitor 0 2, Event.converged 0 2,
          Event.history 0, Event.monitor 1 0, Event.converged 1 0] ∧
    (KSPSolve_BCGS Arith.rat overwriteOps (KSPDefaultConverged Arith.rat) triangularKSP).trace
      ≠ [Event.history 2, Event.converged 0 2, Event.monitor 0 2,
          Event.history 0, Event.converged 1 0, Event.monitor 1 0] := by
  rw [triangular_solve]
  simp

/-- C24, amended. In every solve the events come in blocks, one for iteration 0 and one for
every later iteration that is counted: the norm is recorded in the residual history, then
the monitors are notified with the iteration number, and only then is the convergence test
called, with the same number and norm. The block of the exit through the branch for `t = 0`
has no call of the test: it is a history entry followed by a monitor notification with the
norm `0.0`. -/
theorem events_in_code_order {Sc : Type} (ar : Arith Sc) (ops : LinOps Sc)
    (converged : ConvergedTest Sc) (ksp : KSP Sc) :
    ∃ blocks : List (List (Event Sc)),
      (KSPSolve_BCGS ar ops converged ksp).trace
        = ksp.trace ++ [Event.history (KSPSolve_BCGS.initialNorm ar ops ksp),
            Event.monitor 0 (KSPSolve_BCGS.initialNorm ar ops ksp),
            Event.converged 0 (KSPSolve_BCGS.initialNorm ar ops ksp)] ++ blocks.flatten ∧
      ∀ b ∈ blocks,
        (∃ (k : Int) (dp : Sc), b = [Event.history dp, Event.monitor k dp,
          Event.converged k dp]) ∨
        (∃ (k : Int) (dp : Sc), b = [Event.history dp, Event.monitor k ar.zero]) := by
  unfold KSPSolve_BCGS
  simp only []
  split_ifs with hr
  · exact ⟨[], by simp [BCGS.store, start_trace], by simp⟩
  · obtain ⟨blocks, htr, hall⟩ := loop_blocks ar ops converged
      (KSPSolve_BCGS.start ar ops converged ksp).ksp.max_it
      (KSPSolve_BCGS.enter ar (KSPSolve_BCGS.start ar ops converged ksp))
    refine ⟨blocks, ?_, hall⟩
    rw [(finish_frame ops _ _).1, htr]
    simp only [KSPSolve_BCGS.enter]
    rw [start_trace]

/-! ## What the monitors see -/

theorem monitorCalls_append {Sc : Type} (a b : List (Event Sc)) :
    monitorCalls (a ++ b) = monitorCalls a ++ monitorCalls b := by
  simp [monitorCalls, List.filterMap_append]

theorem body_monitor {Sc : Type} (ar : Arith Sc) (ops : LinOps Sc)
    (converged : ConvergedTest Sc) (i : Int) (st : BCGS Sc) :
    ∃ b : List (Event Sc),
      (KSPSolve_BCGS.body ar ops converged i st).1.ksp.trace = st.ksp.trace ++ b ∧
      (((KSPSolve_BCGS.body ar ops converged i st).1.ksp.its = st.ksp.its ∧
          monitorCalls b = [] ∧ (KSPSolve_BCGS.body ar ops converged i st).2 = true) ∨
        ((KSPSolve_BCGS.body ar ops converged i st).1.ksp.its = st.ksp.its + 1 ∧
          monitorCalls b = [(i + 1, (KSPSolve_BCGS.body ar ops converged i st).1.ksp.rnorm)])) := by
  unfold KSPSolve_BCGS.body
  simp only []
  split_ifs
  · exact ⟨[], by simp, Or.inl ⟨rfl, rfl, rfl⟩⟩
  · exact ⟨[], by simp, Or.inl ⟨rfl, rfl, rfl⟩⟩
  · exact ⟨[Event.history st.dp, Event.monitor (i + 1) ar.zero],
      by simp [KSPMonitor, KSPLogResidualHistory],
      Or.inr ⟨by simp [KSPMonitor, KSPLogResidualHistory],
        by simp [KSPMonitor, KSPLogResidualHistory, monitorCalls]⟩⟩
  all_goals
    simp only [KSPMonitor, KSPLogResidualHistory, callConverged, List.append_assoc,
      List.singleton_append]
    exact ⟨_, rfl, Or.inr ⟨trivial, by simp [monitorCalls]⟩⟩

theorem loop_monitor {Sc : Type} (ar : Arith Sc) (ops : LinOps Sc)
    (converged : ConvergedTest Sc) (max_it : Int) (st0 : BCGS Sc) (h0 : st0.ksp.its = 0) :
    ∃ (m : Nat) (new : List (Event Sc)),
      (KSPSolve_BCGS.loop ar ops converged max_it 0 st0).2.ksp.its = (m : Int) ∧
      (KSPSolve_BCGS.loop ar ops converged max_it 0 st0).2.ksp.trace
        = st0.ksp.trace ++ new ∧
      monitorCalls new = (List.range m).map (fun j : Nat =>
        ((j : Int) + 1, (KSPSolve_BCGS.passes ar ops converged (j + 1) st0).ksp.rnorm)) := by
  have hstep : ∀ (k : Nat) (new : List (Event Sc)),
      (KSPSolve_BCGS.passes ar ops converged k st0).ksp.its = (k : Int) →
      (KSPSolve_BCGS.passes ar ops converged k st0).ksp.trace = st0.ksp.trace ++ new →
      monitorCalls new = (List.range k).map (fun j : Nat =>
        ((j : Int) + 1, (KSPSolve_BCGS.passes ar ops converged (j + 1) st0).ksp.rnorm)) →
      (∃ (m : Nat) (new2 : List (Event Sc)),
        (KSPSolve_BCGS.passes ar ops converged (k + 1) st0).ksp.its = (m : Int) ∧
        (KSPSolve_BCGS.passes ar ops converged (k + 1) st0).ksp.trace
          = st0.ksp.trace ++ new2 ∧
        monitorCalls new2 = (List.range m).map (fun j : Nat =>
          ((j : Int) + 1, (KSPSolve_BCGS.passes ar ops converged (j + 1) st0).ksp.rnorm))) ∧
      ((KSPSolve_BCGS.body ar ops converged (k : Int)
          (KSPSolve_BCGS.passes ar ops converged k st0)).2 = false →
        ∃ new2 : List (Event Sc),
          (KSPSolve_BCGS.passes ar ops converged (k + 1) st0).ksp.its = ((k + 1 : Nat) : Int) ∧
          (KSPSolve_BCGS.passes ar ops converged (k + 1) st0).ksp.trace
            = st0.ksp.trace ++ new2 ∧
          monitorCalls new2 = (List.range (k + 1)).map (fun j : Nat =>
            ((j : Int) + 1,
              (KSPSolve_BCGS.passes ar ops converged (j + 1) st0).ksp.rnorm))) := by
    intro k new hits htr hmon
    obtain ⟨b, hb, hcase⟩ := body_monitor ar ops converged (k : Int)
      (KSPSolve_BCGS.passes ar ops converged k st0)
    have hnext : ∀ hm : monitorCalls b = [((k : Int) + 1,
          (KSPSolve_BCGS.passes ar ops converged (k + 1) st0).ksp.rnorm)],
        monitorCalls (new ++ b) = (List.range (k + 1)).map (fun j : Nat =>
          ((j : Int) + 1,
            (KSPSolve_BCGS.passes ar ops converged (j + 1) st0).ksp.rnorm)) := by
      intro hm
      rw [monitorCalls_append, hmon, hm, List.range_succ, List.map_append]
      rfl
    rcases hcase with ⟨hi, hm, hbrk⟩ | ⟨hi, hm⟩
    · refine ⟨⟨k, new ++ b, ?_, ?_, ?_⟩, ?_⟩
      · simp only [KSPSolve_BCGS.passes]; rw [hi, hits]
      · simp only [KSPSolve_BCGS.passes]; rw [hb, htr, List.append_assoc]
      · rw [monitorCalls_append, hmon, hm, List.append_nil]
      · intro hf; rw [hbrk] at hf; cases hf
    · have hits2 : (KSPSolve_BCGS.passes ar ops converged (k + 1) st0).ksp.its
          = ((k + 1 : Nat) : Int) := by
        simp only [KSPSolve_BCGS.passes]; rw [hi, hits]; push_cast; rfl
      have htr2 : (KSPSolve_BCGS.passes ar ops converged (k + 1) st0).ksp.trace
          = st0.ksp.trace ++ (new ++ b) := by
        simp only [KSPSolve_BCGS.passes]; rw [hb, htr, List.append_assoc]
      exact ⟨⟨k + 1, new ++ b, hits2, htr2, hnext hm⟩, fun _ => ⟨new ++ b, hits2, htr2, hnext hm⟩⟩
  refine loop_ind ar ops converged max_it
    (fun i st => ∃ (k : Nat) (new : List (Event Sc)), i = (k : Int) ∧
      st = KSPSolve_BCGS.passes ar ops converged k st0 ∧ st.ksp.its = (k : Int) ∧
      st.ksp.trace = st0.ksp.trace ++ new ∧
      monitorCalls new = (List.range k).map (fun j : Nat =>
        ((j : Int) + 1, (KSPSolve_BCGS.passes ar ops converged (j + 1) st0).ksp.rnorm)))
    (fun _ st => ∃ (m : Nat) (new : List (Event Sc)), st.ksp.its = (m : Int) ∧
      st.ksp.trace = st0.ksp.trace ++ new ∧
      monitorCalls new = (List.range m).map (fun j : Nat =>
        ((j : Int) + 1, (KSPSolve_BCGS.passes ar ops converged (j + 1) st0).ksp.rnorm)))
    ?_ ?_ ?_ 0 st0 ⟨0, [], rfl, rfl, h0, by simp, by simp [monitorCalls]⟩
  · rintro i st ⟨k, new, rfl, rfl, hits, htr, hmon⟩ _
    exact (hstep k new hits htr hmon).1
  · rintro i st ⟨k, new, rfl, rfl, hits, htr, hmon⟩ hb _
    obtain ⟨new2, h1, h2, h3⟩ := (hstep k new hits htr hmon).2 hb
    exact ⟨k + 1, new2, by push_cast; rfl, rfl, h1, h2, h3⟩
  · rintro i st ⟨k, new, rfl, rfl, hits, htr, hmon⟩ hb _
    obtain ⟨new2, h1, h2, h3⟩ := (hstep k new hits htr hmon).2 hb
    exact ⟨k + 1, new2, h1, h2, h3⟩

theorem start_rnorm {Sc : Type} (ar : Arith Sc) (ops : LinOps Sc)
    (converged : ConvergedTest Sc) (ksp : KSP Sc) :
    (KSPSolve_BCGS.start ar ops converged ksp).ksp.rnorm
      = KSPSolve_BCGS.initialNorm ar ops ksp := by
  simp [KSPSolve_BCGS.start, KSPSolve_BCGS.initialNorm, callConverged, KSPMonitor,
    KSPLogResidualHistory]

/-- C23. In every solve the monitor chain is notified with `(0, dp0)`, `dp0` being the
initial residual norm, and then once for every counted iteration `k = 1, ..., its` with
`(k, rnorm_k)`, where `rnorm_k` is the value that pass `k` through the loop body stored in
`ksp->rnorm`; these are all notifications, in this order, `its` being `ksp->its` at return,
which `KSPGetIterationNumber` gives back unchanged. -/
theorem monitors_see_every_iteration {Sc : Type} (ar : Arith Sc) (ops : LinOps Sc)
    (converged : ConvergedTest Sc) (ksp : KSP Sc) :
    ∃ (m : Nat) (new : List (Event Sc)),
      (KSPSolve_BCGS ar ops converged ksp).trace = ksp.trace ++ new ∧
      (KSPSolve_BCGS ar ops converged ksp).its = (m : Int) ∧
      KSPGetIterationNumber (KSPSolve_BCGS ar ops converged ksp) = (m : Int) ∧
      monitorCalls new = (List.range (m + 1)).map (fun k : Nat =>
        ((k : Int), (KSPSolve_BCGS.passes ar ops converged k
          (KSPSolve_BCGS.enter ar (KSPSolve_BCGS.start ar ops converged ksp))).ksp.rnorm)) ∧
      (KSPSolve_BCGS.passes ar ops converged 0
        (KSPSolve_BCGS.enter ar (KSPSolve_BCGS.start ar ops converged ksp))).ksp.rnorm
        = KSPSolve_BCGS.initialNorm ar ops ksp := by
  have hr0 : (KSPSolve_BCGS.passes ar ops converged 0
        (KSPSolve_BCGS.enter ar (KSPSolve_BCGS.start ar ops converged ksp))).ksp.rnorm
        = KSPSolve_BCGS.initialNorm ar ops ksp := by
    simp only [KSPSolve_BCGS.passes, KSPSolve_BCGS.enter]
    exact start_rnorm ar ops converged ksp
  unfold KSPGetIterationNumber KSPSolve_BCGS
  simp only []
  split_ifs with hr
  · refine ⟨0, [Event.history (KSPSolve_BCGS.initialNorm ar ops ksp),
        Event.monitor 0 (KSPSolve_BCGS.initialNorm ar ops ksp),
        Event.converged 0 (KSPSolve_BCGS.initialNorm ar ops ksp)], ?_, ?_, ?_, ?_, hr0⟩
    · simp only [BCGS.store]; rw [start_trace]
    · simpa [BCGS.store] using (start_frame ar ops converged ksp).2.2.2.2.2.2.1
    · simpa [BCGS.store] using (start_frame ar ops converged ksp).2.2.2.2.2.2.1
    · rw [List.range_succ_eq_map, List.range_zero, List.map_nil, List.map_singleton, hr0]
      simp [monitorCalls]
  · obtain ⟨m, new, hits, htr, hmon⟩ := loop_monitor ar ops converged
      (KSPSolve_BCGS.start ar ops converged ksp).ksp.max_it
      (KSPSolve_BCGS.enter ar (KSPSolve_BCGS.start ar ops converged ksp))
      (by simpa [KSPSolve_BCGS.enter] using (start_frame ar ops converged ksp).2.2.2.2.2.2.1)
    refine ⟨m, [Event.history (KSPSolve_BCGS.initialNorm ar ops ksp),
        Event.monitor 0 (KSPSolve_BCGS.initialNorm ar ops ksp),
        Event.converged 0 (KSPSolve_BCGS.initialNorm ar ops ksp)] ++ new, ?_, ?_, ?_, ?_, hr0⟩
    · rw [(finish_frame ops _ _).1, htr]
      simp only [KSPSolve_BCGS.enter]
      rw [start_trace, List.append_assoc]
    · rw [(finish_frame ops _ _).2.2.2.2.2.2.1, hits]
    · rw [(finish_frame ops _ _).2.2.2.2.2.2.1, hits]
    · rw [monitorCalls_append, hmon, List.range_succ_eq_map, List.map_cons, List.map_map,
        hr0]
      simp [monitorCalls, Function.comp_def]

/-! ## The guarded divisors -/

theorem body_divisors {Sc : Type} (ar : Arith Sc) (ops : LinOps Sc)
    (converged : ConvergedTest Sc) (i : Int) (st : BCGS Sc) :
    ((KSPSolve_BCGS.body ar ops converged i st).1.rhoold = st.rhoold ∨
      ((KSPSolve_BCGS.body ar ops converged i st).1.rhoold = VecDot ar st.R st.RP ∧
        ar.eq (VecDot ar st.R st.RP) ar.zero = false)) ∧
    ((KSPSolve_BCGS.body ar ops converged i st).1.omegaold = st.omegaold ∨
      (ar.eq (VecDot ar (KSPSolve_BCGS.body ar ops converged i st).1.T
          (KSPSolve_BCGS.body ar ops converged i st).1.T) ar.zero = false ∧
        (KSPSolve_BCGS.body ar ops converged i st).1.omegaold
          = ar.div
              (VecDot ar (KSPSolve_BCGS.body ar ops converged i st).1.S
                (KSPSolve_BCGS.body ar ops converged i st).1.T)
              (VecDot ar (KSPSolve_BCGS.body ar ops converged i st).1.T
                (KSPSolve_BCGS.body ar ops converged i st).1.T))) := by
  unfold KSPSolve_BCGS.body
  simp only []
  split_ifs with h1 h2 h3 h4
  · exact ⟨Or.inl rfl, Or.inl rfl⟩
  · exact ⟨Or.inl rfl, Or.inl rfl⟩
  · exact ⟨Or.inl rfl, Or.inl rfl⟩
  · exact ⟨Or.inr ⟨rfl, by simpa using h1⟩, Or.inr ⟨by simpa using h2, rfl⟩⟩
  · exact ⟨Or.inr ⟨rfl, by simpa using h1⟩, Or.inr ⟨by simpa using h2, rfl⟩⟩

/-- C29. Let `1.0 == 0.0` be false. In every solve, after any number `k` of passes through
the loop body, the divisor `rhoold` of `beta = (rho/rhoold)*(alpha/omegaold)` in the next
pass is not zero: it is `1.0` before the first pass, and a pass either leaves it as it was or
sets it to its own `rho = <r,rp>`, which the test `rho == 0.0` found not zero. The quotient
`omega = <s,t>/<t,t>` is formed only in a pass in which the test `d2 == 0.0` found `<t,t>`
not zero; every other pass leaves `omegaold` as it was. -/
theorem divisors_guarded {Sc : Type} (ar : Arith Sc) (ops : LinOps Sc)
    (converged : ConvergedTest Sc) (ksp : KSP Sc) (k : Nat)
    (h1 : ar.eq ar.one ar.zero = false) :
    ar.eq (KSPSolve_BCGS.passes ar ops converged k
      (KSPSolve_BCGS.enter ar (KSPSolve_BCGS.start ar ops converged ksp))).rhoold ar.zero
      = false ∧
    (KSPSolve_BCGS.passes ar ops converged 0
      (KSPSolve_BCGS.enter ar (KSPSolve_BCGS.start ar ops converged ksp))).rhoold = ar.one ∧
    ((KSPSolve_BCGS.passes ar ops converged (k + 1)
        (KSPSolve_BCGS.enter ar (KSPSolve_BCGS.start ar ops converged ksp))).rhoold
      = (KSPSolve_BCGS.passes ar ops converged k
        (KSPSolve_BCGS.enter ar (KSPSolve_BCGS.start ar ops converged ksp))).rhoold ∨
     ((KSPSolve_BCGS.passes ar ops converged (k + 1)
        (KSPSolve_BCGS.enter ar (KSPSolve_BCGS.start ar ops converged ksp))).rhoold
      = VecDot ar
          (KSPSolve_BCGS.passes ar ops converged k
            (KSPSolve_BCGS.enter ar (KSPSolve_BCGS.start ar ops converged ksp))).R
          (KSPSolve_BCGS.passes ar ops converged k
            (KSPSolve_BCGS.enter ar (KSPSolve_BCGS.start ar ops converged ksp))).RP ∧
      ar.eq (VecDot ar
          (KSPSolve_BCGS.passes ar ops converged k
            (KSPSolve_BCGS.enter ar (KSPSolve_BCGS.start ar ops converged ksp))).R
          (KSPSolve_BCGS.passes ar ops converged k
            (KSPSolve_BCGS.enter ar (KSPSolve_BCGS.start ar ops converged ksp))).RP)
        ar.zero = false)) ∧
    ((KSPSolve_BCGS.passes ar ops converged (k + 1)
        (KSPSolve_BCGS.enter ar (KSPSolve_BCGS.start ar ops converged ksp))).omegaold
      = (KSPSolve_BCGS.passes ar ops converged k
        (KSPSolve_BCGS.enter ar (KSPSolve_BCGS.start ar ops converged ksp))).omegaold ∨
     (ar.eq (VecDot ar
          (KSPSolve_BCGS.passes ar ops converged (k + 1)
            (KSPSolve_BCGS.enter ar (KSPSolve_BCGS.start ar ops converged ksp))).T
          (KSPSolve_BCGS.passes ar ops converged (k + 1)
            (KSPSolve_BCGS.enter ar (KSPSolve_BCGS.start ar ops converged ksp))).T)
        ar.zero = false ∧
      (KSPSolve_BCGS.passes ar ops converged (k + 1)
        (KSPSolve_BCGS.enter ar (KSPSolve_BCGS.start ar ops converged ksp))).omegaold
      = ar.div
          (VecDot ar
            (KSPSolve_BCGS.passes ar ops converged (k + 1)
              (KSPSolve_BCGS.enter ar (KSPSolve_BCGS.start ar ops converged ksp))).S
            (KSPSolve_BCGS.passes ar ops converged (k + 1)
              (KSPSolve_BCGS.enter ar (KSPSolve_BCGS.start ar ops converged ksp))).T)
          (VecDot ar
            (KSPSolve_BCGS.passes ar ops converged (k + 1)
              (KSPSolve_BCGS.enter ar (KSPSolve_BCGS.start ar ops converged ksp))).T
            (KSPSolve_BCGS.passes ar ops converged (k + 1)
              (KSPSolve_BCGS.enter ar (KSPSolve_BCGS.start ar ops converged ksp))).T))) := by
  have hall : ∀ j : Nat, ar.eq (KSPSolve_BCGS.passes ar ops converged j
      (KSPSolve_BCGS.enter ar (KSPSolve_BCGS.start ar ops converged ksp))).rhoold ar.zero
      = false := by
    intro j
    induction j with
    | zero => simpa [KSPSolve_BCGS.passes, KSPSolve_BCGS.enter] using h1
    | succ j ih =>
      simp only [KSPSolve_BCGS.passes]
      rcases (body_divisors ar ops converged (j : Int) _).1 with h | ⟨h, hz⟩
      · rw [h]; exact ih
      · rw [h]; exact hz
  refine ⟨hall k, rfl, ?_, ?_⟩
  · exact (body_divisors ar ops converged (k : Int) _).1
  · exact (body_divisors ar ops converged (k : Int) _).2

/-- Witness of C29: the solve of `diag(1,2) x = [1,1]` in exact rational arithmetic; after
its one pass the divisor `rhoold` is `2`. -/
theorem divisors_guarded_witness :
    Arith.rat.eq Arith.rat.one Arith.rat.zero = false ∧
    Arith.rat.eq (KSPSolve_BCGS.passes Arith.rat limitZeroOps KSPSkipConverged 1
      (KSPSolve_BCGS.enter Arith.rat (KSPSolve_BCGS.start Arith.rat limitZeroOps
        KSPSkipConverged limitOneKSP))).rhoold Arith.rat.zero = false ∧
    (KSPSolve_BCGS.passes Arith.rat limitZeroOps KSPSkipConverged 1
      (KSPSolve_BCGS.enter Arith.rat (KSPSolve_BCGS.start Arith.rat limitZeroOps
        KSPSkipConverged limitOneKSP))).rhoold = 2 := by
  have h1 : Arith.rat.eq Arith.rat.one Arith.rat.zero = false := by
    simp [Arith.rat, Arith.exact]
  refine ⟨h1, (divisors_guarded Arith.rat limitZeroOps KSPSkipConverged limitOneKSP 1 h1).1,
    ?_⟩
  simp only [KSPSolve_BCGS.passes, Nat.cast_zero]
  rw [limitOne_body]

/-! ## The bookkeeping at the exits -/

theorem rat_sqrt_twentyfive : Rat.sqrt 25 = 5 := by
  have h : (25 : ℚ) = 5 * 5 := by norm_num
  rw [h, Rat.sqrt_eq]; norm_num

theorem singular_enter :
    KSPSolve_BCGS.enter Arith.rat (KSPSolve_BCGS.start Arith.rat singularOps
      (KSPDefaultConverged Arith.rat) singularKSP)
    = { ksp := { singularKSP with
                 rnorm := 5, ttol := 1 / 200000, rnorm0 := 5,
                 trace := [Event.history 5, Event.monitor 0 5, Event.converged 0 5] },
        X := [0, 0], R := [3, 4], RP := [3, 4], V := [0, 0], T := [3, 4], S := [0, 0],
        P := [0, 0], rhoold := 1, alpha := 1, omegaold := 1, dp := 5 } := by
  simp [KSPSolve_BCGS.enter, KSPSolve_BCGS.start, singularKSP, singularOps, KSP.ready,
    LinOps.ofRows, KSPInitialResidual, KSP.workVec, callConverged, KSPMonitor,
    KSPLogResidualHistory, KSPDefaultConverged, VecNorm, VecDot, VecAXPY, VecCopy, VecSet,
    PetscMax, Arith.rat, Arith.exact, Arith.ge, Arith.ne]
  norm_num [rat_sqrt_twentyfive]

theorem singular_body :
    KSPSolve_BCGS.body Arith.rat singularOps (KSPDefaultConverged Arith.rat) 0
      (KSPSolve_BCGS.enter Arith.rat (KSPSolve_BCGS.start Arith.rat singularOps
        (KSPDefaultConverged Arith.rat) singularKSP))
    = ({ ksp := { singularKSP with
                  its := 1, rnorm := 0, ttol := 1 / 200000, rnorm0 := 5,
                  reason := KSP_CONVERGED_RTOL,
                  trace := [Event.history 5, Event.monitor 0 5, Event.converged 0 5,
                    Event.history 5, Event.monitor 1 0] },
         X := [1, 4 / 3], R := [0, 0], RP := [3, 4], V := [25, 0], T := [0, 0],
         S := [-16 / 3, 4], P := [3, 4], rhoold := 1, alpha := 1 / 3, omegaold := 1,
         dp := 5 }, true) := by
  rw [singular_enter]
  simp [KSPSolve_BCGS.body, singularKSP, singularOps, KSP.ready, LinOps.ofRows,
    KSP_PCApplyBAorAB, KSPMonitor, KSPLogResidualHistory,
    VecDot, VecAXPY, VecAYPX, VecWAXPY, Arith.rat, Arith.exact]
  norm_num

theorem singular_solve :
    KSPSolve_BCGS Arith.rat singularOps (KSPDefaultConverged Arith.rat) singularKSP
    = { singularKSP with
        vec_sol := [1, 4 / 3],
        work := some [[0, 0], [3, 4], [25, 0], [0, 0], [-16 / 3, 4], [3, 4]],
        its := 1, rnorm := 0, ttol := 1 / 200000, rnorm0 := 5,
        reason := KSP_CONVERGED_RTOL,
        trace := [Event.history 5, Event.monitor 0 5, Event.converged 0 5,
          Event.history 5, Event.monitor 1 0] } := by
  rw [solve_of_start, loop_break, singular_body]
  · simp [KSPSolve_BCGS.finish, BCGS.store, KSPUnwindPreconditioner, singularKSP, KSP.ready]
  · rw [singular_body]
  · have h := congrArg (fun st => st.ksp.reason) singular_enter
    simpa [KSPSolve_BCGS.enter, singularKSP, KSP.ready] using h

/-- C30, the code at the failing input. The solve of `[[3,4],[0,0]] x = [3,4]` leaves the
loop in its first pass through the branch for `t = 0`, with `its = 1` and
`KSP_CONVERGED_RTOL`. Two history entries and two monitor notifications were made, which is
`its + 1`; but the last history entry is `5`, the residual norm of iteration 0, while
`ksp->rnorm` is `0` at return and the monitors were notified with `0`. -/
theorem degenerate_exit_logs_stale_norm :
    (KSPSolve_BCGS Arith.rat singularOps (KSPDefaultConverged Arith.rat) singularKSP).its
      = 1 ∧
    (KSPSolve_BCGS Arith.rat singularOps (KSPDefaultConverged Arith.rat) singularKSP).reason
      = KSP_CONVERGED_RTOL ∧
    (KSPSolve_BCGS Arith.rat singularOps (KSPDefaultConverged Arith.rat) singularKSP).rnorm
      = 0 ∧
    historyEntries (KSPSolve_BCGS Arith.rat singularOps (KSPDefaultConverged Arith.rat)
      singularKSP).trace = [5, 5] ∧
    monitorCalls (KSPSolve_BCGS Arith.rat singularOps (KSPDefaultConverged Arith.rat)
      singularKSP).trace = [(0, 5), (1, 0)] ∧
    (historyEntries (KSPSolve_BCGS Arith.rat singularOps (KSPDefaultConverged Arith.rat)
      singularKSP).trace).getLast? ≠
      some (KSPSolve_BCGS Arith.rat singularOps (KSPDefaultConverged Arith.rat)
        singularKSP).rnorm := by
  rw [singular_solve]
  simp [historyEntries, monitorCalls, singularKSP, KSP.ready]

/-! ## Scenario A -/

/-- C21. `DAGlobalToLocalBegin` and `DAGlobalToLocalEnd` are the calls of the scatter
primitive on `da->gtol` with `SCATTER_FORWARD` and the mode of the caller, whatever the DA,
the vectors and the mode. In Scenario A, mapping `g = [1,...,9]` with `INSERT_VALUES` gives
process 0 the local array `[1,...,9]`: its rows 0 and 1 followed by the ghost row 2 with the
values `[7,8,9]`; process 1 gets the ghost row 1 and its row 2. -/
theorem DAGlobalToLocal_scenarioA {Sc : Type} (ar : Arith Sc) (da : DA Sc) (g l : Vec Sc)
    (mode : InsertMode) (fl : InFlight Sc) :
    DAGlobalToLocalBegin ar da g mode l fl
      = { ierr := (VecScatterBegin ar g l mode ScatterMode.SCATTER_FORWARD
            (some da.gtol) fl).1,
          da := da,
          out := (VecScatterBegin ar g l mode ScatterMode.SCATTER_FORWARD
            (some da.gtol) fl).2.1,
          fl := (VecScatterBegin ar g l mode ScatterMode.SCATTER_FORWARD
            (some da.gtol) fl).2.2 } ∧
    DAGlobalToLocalEnd ar da g mode l fl
      = { ierr := (VecScatterEnd ar g l mode ScatterMode.SCATTER_FORWARD
            (some da.gtol) fl).1,
          da := da,
          out := (VecScatterEnd ar g l mode ScatterMode.SCATTER_FORWARD
            (some da.gtol) fl).2.1,
          fl := (VecScatterEnd ar g l mode ScatterMode.SCATTER_FORWARD
            (some da.gtol) fl).2.2 } ∧
    (DAGlobalToLocalBegin Arith.rat (scenarioADA ℚ) [1, 2, 3, 4, 5, 6, 7, 8, 9]
      InsertMode.INSERT_VALUES (List.replicate 15 0) []).ierr = PetscErrorCode.ok ∧
    (DAGlobalToLocalEnd Arith.rat (scenarioADA ℚ) [1, 2, 3, 4, 5, 6, 7, 8, 9]
      InsertMode.INSERT_VALUES (List.replicate 15 0)
      (DAGlobalToLocalBegin Arith.rat (scenarioADA ℚ) [1, 2, 3, 4, 5, 6, 7, 8, 9]
        InsertMode.INSERT_VALUES (List.replicate 15 0) []).fl).ierr = PetscErrorCode.ok ∧
    (DAGlobalToLocal_inserted Arith.rat (scenarioADA ℚ) [1, 2, 3, 4, 5, 6, 7, 8, 9]
      (List.replicate 15 0)).take 9 = [1, 2, 3, 4, 5, 6, 7, 8, 9] ∧
    ((DAGlobalToLocal_inserted Arith.rat (scenarioADA ℚ) [1, 2, 3, 4, 5, 6, 7, 8, 9]
      (List.replicate 15 0)).take 9).drop 6 = [7, 8, 9] ∧
    (DAGlobalToLocal_inserted Arith.rat (scenarioADA ℚ) [1, 2, 3, 4, 5, 6, 7, 8, 9]
      (List.replicate 15 0)).drop 9 = [4, 5, 6, 7, 8, 9] := by
  have hl : DAGlobalToLocal_inserted Arith.rat (scenarioADA ℚ) [1, 2, 3, 4, 5, 6, 7, 8, 9]
      (List.replicate 15 0) = [1, 2, 3, 4, 5, 6, 7, 8, 9, 4, 5, 6, 7, 8, 9] := by
    simp [DAGlobalToLocal_inserted, DAGlobalToLocalEnd, DAGlobalToLocalBegin, VecScatterEnd,
      VecScatterBegin, applyTransfer, scenarioADA, Arith.rat, Arith.exact, List.replicate]
  refine ⟨rfl, rfl, rfl, rfl, ?_, ?_, ?_⟩ <;> rw [hl] <;> rfl

/-! ## Compressed rows to compressed columns -/

/-- The pairs (row, position) that the two nested loops of `dCompRow_to_CompCol` visit, in
order. -/
theorem foldl_rows {σ : Type} (f : σ → Nat → Nat → σ) (g : Nat → List Nat) (xs : List Nat)
    (s0 : σ) :
    xs.foldl (fun s i => (g i).foldl (fun s j => f s i j) s) s0
      = (xs.flatMap (fun i => (g i).map (fun j => (i, j)))).foldl
          (fun s e => f s e.1 e.2) s0 := by
  induction xs generalizing s0 with
  | nil => rfl
  | cons x xs ih =>
    rw [List.foldl_cons, ih, List.flatMap_cons, List.foldl_append, List.foldl_map]

theorem count_loop_length (C : List Nat) (mk : List Nat) :
    (C.foldl (fun mk c => mk.set c (mk.getD c 0 + 1)) mk).length = mk.length := by
  induction C generalizing mk with
  | nil => rfl
  | cons x C ih => rw [List.foldl_cons, ih, List.length_set]

theorem count_loop_getD (C : List Nat) (mk : List Nat) (c : Nat) (hc : c < mk.length) :
    (C.foldl (fun mk c => mk.set c (mk.getD c 0 + 1)) mk).getD c 0
      = mk.getD c 0 + C.count c := by
  induction C generalizing mk with
  | nil => simp
  | cons x C ih =>
    rw [List.foldl_cons, ih _ (by rw [List.length_set]; exact hc), List.count_cons]
    by_cases hx : x = c
    · subst hx
      rw [getD_set_self _ _ _ _ hc]
      simp
      omega
    · rw [getD_set_ne _ _ _ _ _ hx]
      simp [hx]

theorem prefixSum_succ (cnt : Nat → Nat) (j : Nat) :
    prefixSum cnt (j + 1) = prefixSum cnt j + cnt j := by
  simp [prefixSum, List.range_succ]

theorem prefixSum_mono (cnt : Nat → Nat) (i j : Nat) (h : i ≤ j) :
    prefixSum cnt i ≤ prefixSum cnt j := by
  induction j with
  | zero => rw [Nat.le_zero.mp h]
  | succ j ih =>
    rcases Nat.lt_or_ge i (j + 1) with hlt | hge
    · rw [prefixSum_succ]
      exact Nat.le_trans (ih (Nat.lt_succ_iff.mp hlt)) (Nat.le_add_right _ _)
    · rw [Nat.le_antisymm h hge]

theorem prefix_loop_aux (cnt : Nat → Nat) (n : Nat) (colptr marker : List Nat)
    (hcl : colptr.length = n + 1) (hml : marker.length = n) (h0 : colptr.getD 0 0 = 0)
    (hm : ∀ c : Nat, c < n → marker.getD c 0 = cnt c) (t : Nat) (ht : t ≤ n) :
    ((List.range t).foldl (fun (s : List Nat × List Nat) j =>
        (s.1.set (j + 1) (s.1.getD j 0 + s.2.getD j 0),
          s.2.set j ((s.1.set (j + 1) (s.1.getD j 0 + s.2.getD j 0)).getD j 0)))
        (colptr, marker)).1.length = n + 1 ∧
    ((List.range t).foldl (fun (s : List Nat × List Nat) j =>
        (s.1.set (j + 1) (s.1.getD j 0 + s.2.getD j 0),
          s.2.set j ((s.1.set (j + 1) (s.1.getD j 0 + s.2.getD j 0)).getD j 0)))
        (colptr, marker)).2.length = n ∧
    (∀ j : Nat, j ≤ t →
      ((List.range t).foldl (fun (s : List Nat × List Nat) j =>
        (s.1.set (j + 1) (s.1.getD j 0 + s.2.getD j 0),
          s.2.set j ((s.1.set (j + 1) (s.1.getD j 0 + s.2.getD j 0)).getD j 0)))
        (colptr, marker)).1.getD j 0 = prefixSum cnt j) ∧
    (∀ c : Nat, c < t →
      ((List.range t).foldl (fun (s : List Nat × List Nat) j =>
        (s.1.set (j + 1) (s.1.getD j 0 + s.2.getD j 0),
          s.2.set j ((s.1.set (j + 1) (s.1.getD j 0 + s.2.getD j 0)).getD j 0)))
        (colptr, marker)).2.getD c 0 = prefixSum cnt c) ∧
    (∀ c : Nat, t ≤ c → c < n →
      ((List.range t).foldl (fun (s : List Nat × List Nat) j =>
        (s.1.set (j + 1) (s.1.getD j 0 + s.2.getD j 0),
          s.2.set j ((s.1.set (j + 1) (s.1.getD j 0 + s.2.getD j 0)).getD j 0)))
        (colptr, marker)).2.getD c 0 = cnt c) := by
  induction t with
  | zero =>
    refine ⟨hcl, hml, ?_, ?_, ?_⟩
    · intro j hj
      rw [Nat.le_zero.mp hj]
      simpa [prefixSum] using h0
    · intro c hc; omega
    · intro c _ hc; exact hm c hc
  | succ t ih =>
    obtain ⟨l1, l2, hcp, hmk, hrest⟩ := ih (Nat.le_of_succ_le ht)
    rw [List.range_succ, List.foldl_append]
    simp only [List.foldl_cons, List.foldl_nil]
    generalize (List.range t).foldl (fun (s : List Nat × List Nat) j =>
        (s.1.set (j + 1) (s.1.getD j 0 + s.2.getD j 0),
          s.2.set j ((s.1.set (j + 1) (s.1.getD j 0 + s.2.getD j 0)).getD j 0)))
        (colptr, marker) = s at l1 l2 hcp hmk hrest
    have htn : t < n := ht
    refine ⟨by rw [List.length_set, l1], by rw [List.length_set, l2], ?_, ?_, ?_⟩
    · intro j hj
      rcases Nat.lt_or_ge j (t + 1) with hlt | hge
      · rw [getD_set_ne _ _ _ _ _ (by omega), hcp j (by omega)]
      · have hj2 : j = t + 1 := by omega
        subst hj2
        rw [getD_set_self _ _ _ _ (by omega), hcp t (Nat.le_refl t), hrest t (Nat.le_refl t) htn,
          prefixSum_succ]
    · intro c hc
      rcases Nat.lt_or_ge c t with hlt | hge
      · rw [getD_set_ne _ _ _ _ _ (by omega), hmk c hlt]
      · have hc2 : c = t := by omega
        subst hc2
        rw [getD_set_self _ _ _ _ (by omega), getD_set_ne _ _ _ _ _ (by omega),
          hcp c (Nat.le_refl c)]
    · intro c hc1 hc2
      rw [getD_set_ne _ _ _ _ _ (by omega), hrest c (by omega) hc2]

theorem getD_append_lt {β : Type} (xs ys : List β) (q : Nat) (z : β) (h : q < xs.length) :
    (xs ++ ys).getD q z = xs.getD q z := by
  simp [List.getD_eq_getElem?_getD, List.getElem?_append_left h]

theorem getD_append_length {β : Type} (xs : List β) (y z : β) :
    (xs ++ [y]).getD xs.length z = y := by
  simp [List.getD_eq_getElem?_getD]

/-- The transfer loop of `dCompRow_to_CompCol` over the visited entries `rest`, after the
entries `done`: if every column `c` has its own range of positions starting at `base c`, long
enough for all its entries, then the entries of column `c` are stored from `base c` on in the
order in which they were visited, and `marker[c]` points behind the last one. -/
theorem transfer_loop_aux {Sc : Type} (d : Sc) (n N : Nat) (colOf r : Nat × Nat → Nat)
    (v : Nat × Nat → Sc) (base : Nat → Nat) (T : List (Nat × Nat))
    (hcol : ∀ e ∈ T, colOf e < n)
    (hseg : ∀ c : Nat, c < n →
      base c + (T.filter (fun e => decide (colOf e = c))).length ≤ base (c + 1))
    (hmono : ∀ c c2 : Nat, c ≤ c2 → base c ≤ base c2) (hN : base n ≤ N)
    (rest done : List (Nat × Nat)) (hT : done ++ rest = T) (st : CompColState Sc)
    (hl : st.marker.length = n ∧ st.out.rowind.length = N ∧ st.out.at_.length = N)
    (hmk : ∀ c : Nat, c < n →
      st.marker.getD c 0 = base c + (done.filter (fun e => decide (colOf e = c))).length)
    (hout : ∀ c : Nat, c < n → ∀ q : Nat,
      q < (done.filter (fun e => decide (colOf e = c))).length →
      st.out.rowind.getD (base c + q) 0
        = ((done.filter (fun e => decide (colOf e = c))).map r).getD q 0 ∧
      st.out.at_.getD (base c + q) d
        = ((done.filter (fun e => decide (colOf e = c))).map v).getD q d) :
    ((rest.foldl (fun (st : CompColState Sc) e =>
        { marker := st.marker.set (colOf e) (st.marker.getD (colOf e) 0 + 1),
          out := { st.out with at_ := st.out.at_.set (st.marker.getD (colOf e) 0) (v e),
                               rowind := st.out.rowind.set (st.marker.getD (colOf e) 0)
                                 (r e) } }) st).out.colptr = st.out.colptr) ∧
    ((rest.foldl (fun (st : CompColState Sc) e =>
        { marker := st.marker.set (colOf e) (st.marker.getD (colOf e) 0 + 1),
          out := { st.out with at_ := st.out.at_.set (st.marker.getD (colOf e) 0) (v e),
                               rowind := st.out.rowind.set (st.marker.getD (colOf e) 0)
                                 (r e) } }) st).out.rowind.length = N) ∧
    ((rest.foldl (fun (st : CompColState Sc) e =>
        { marker := st.marker.set (colOf e) (st.marker.getD (colOf e) 0 + 1),
          out := { st.out with at_ := st.out.at_.set (st.marker.getD (colOf e) 0) (v e),
                               rowind := st.out.rowind.set (st.marker.getD (colOf e) 0)
                                 (r e) } }) st).out.at_.length = N) ∧
    (∀ c : Nat, c < n → ∀ q : Nat,
      q < (T.filter (fun e => decide (colOf e = c))).length →
      (rest.foldl (fun (st : CompColState Sc) e =>
        { marker := st.marker.set (colOf e) (st.marker.getD (colOf e) 0 + 1),
          out := { st.out with at_ := st.out.at_.set (st.marker.getD (colOf e) 0) (v e),
                               rowind := st.out.rowind.set (st.marker.getD (colOf e) 0)
                                 (r e) } }) st).out.rowind.getD (base c + q) 0
        = ((T.filter (fun e => decide (colOf e = c))).map r).getD q 0 ∧
      (rest.foldl (fun (st : CompColState Sc) e =>
        { marker := st.marker.set (colOf e) (st.marker.getD (colOf e) 0 + 1),
          out := { st.out with at_ := st.out.at_.set (st.marker.getD (colOf e) 0) (v e),
                               rowind := st.out.rowind.set (st.marker.getD (colOf e) 0)
                                 (r e) } }) st).out.at_.getD (base c + q) d
        = ((T.filter (fun e => decide (colOf e = c))).map v).getD q d) := by
  induction rest generalizing done st with
  | nil =>
    rw [List.append_nil] at hT
    subst hT
    exact ⟨rfl, hl.2.1, hl.2.2, hout⟩
  | cons e rest ih =>
    rw [List.foldl_cons]
    have hT2 : (done ++ [e]) ++ rest = T := by rw [List.append_assoc]; exact hT
    have he : e ∈ T := by rw [← hT]; simp
    have hc0 : colOf e < n := hcol e he
    have hlen : ∀ c : Nat, ((done ++ [e]).filter (fun e => decide (colOf e = c))).length
        ≤ (T.filter (fun e => decide (colOf e = c))).length := by
      intro c
      rw [← hT2, List.filter_append (done ++ [e]) rest, List.length_append]
      exact Nat.le_add_right _ _
    have hfe : (done ++ [e]).filter (fun x => decide (colOf x = colOf e))
        = done.filter (fun x => decide (colOf x = colOf e)) ++ [e] := by
      simp [List.filter_append]
    have hfc : ∀ c : Nat, colOf e ≠ c → (done ++ [e]).filter (fun x => decide (colOf x = c))
        = done.filter (fun x => decide (colOf x = c)) := by
      intro c hne
      simp [List.filter_append, hne]
    have hq0 : (done.filter (fun x => decide (colOf x = colOf e))).length + 1
        ≤ (T.filter (fun x => decide (colOf x = colOf e))).length := by
      have := hlen (colOf e)
      rw [hfe, List.length_append] at this
      simpa using this
    have hrel : st.marker.getD (colOf e) 0
        = base (colOf e) + (done.filter (fun x => decide (colOf x = colOf e))).length :=
      hmk _ hc0
    have hrelN : st.marker.getD (colOf e) 0 < N := by
      have h1 := hseg _ hc0
      have h2 := hmono (colOf e + 1) n hc0
      omega
    have hdisj : ∀ c : Nat, c < n → colOf e ≠ c → ∀ q : Nat,
        q < (done.filter (fun x => decide (colOf x = c))).length →
        st.marker.getD (colOf e) 0 ≠ base c + q := by
      intro c hc hne q hq
      have hqc : q < (T.filter (fun x => decide (colOf x = c))).length := by
        have := hlen c
        rw [hfc c hne] at this
        omega
      have h1 := hseg _ hc0
      have h2 := hseg _ hc
      rcases Nat.lt_or_gt_of_ne hne with hlt | hgt
      · have := hmono (colOf e + 1) c hlt
        omega
      · have := hmono (c + 1) (colOf e) hgt
        omega
    refine ih (done ++ [e]) hT2 _ ⟨by simp [hl.1], by simp [hl.2.1], by simp [hl.2.2]⟩ ?_ ?_
    · intro c hc
      by_cases hce : colOf e = c
      · subst hce
        rw [getD_set_self _ _ _ _ (by rw [hl.1]; exact hc), hrel, hfe, List.length_append]
        simp
        omega
      · rw [getD_set_ne _ _ _ _ _ hce, hfc c hce]
        exact hmk c hc
    · intro c hc q hq
      by_cases hce : colOf e = c
      · subst hce
        rw [hfe, List.length_append] at hq
        simp only [List.length_singleton] at hq
        rw [hfe, List.map_append, List.map_append]
        rcases Nat.lt_or_ge q (done.filter (fun x => decide (colOf x = colOf e))).length with
          hlt | hge
        · have hne : st.marker.getD (colOf e) 0 ≠ base (colOf e) + q := by omega
          rw [getD_set_ne _ _ _ _ _ hne, getD_set_ne _ _ _ _ _ hne,
            getD_append_lt _ _ _ _ (by simpa using hlt),
            getD_append_lt _ _ _ _ (by simpa using hlt)]
          exact hout _ hc q hlt
        · have hqe : q = (done.filter (fun x => decide (colOf x = colOf e))).length := by omega
          have hpos : st.marker.getD (colOf e) 0 = base (colOf e) + q := by omega
          rw [← hpos, getD_set_self _ _ _ _ (by rw [hl.2.1]; exact hrelN),
            getD_set_self _ _ _ _ (by rw [hl.2.2]; exact hrelN)]
          have e1 : q = ((done.filter (fun x => decide (colOf x = colOf e))).map r).length := by
            simpa using hqe
          have e2 : q = ((done.filter (fun x => decide (colOf x = colOf e))).map v).length := by
            simpa using hqe
          constructor
          · conv_rhs => rw [e1]
            exact (getD_append_length _ _ _).symm
          · conv_rhs => rw [e2]
            exact (getD_append_length _ _ _).symm
      · rw [hfc c hce] at hq ⊢
        have hne := hdisj c hc hce q hq
        rw [getD_set_ne _ _ _ _ _ hne, getD_set_ne _ _ _ _ _ hne]
        exact hout c hc q hq

theorem count_map_eq_filter_length (colOf : Nat × Nat → Nat) (E : List (Nat × Nat)) (c : Nat) :
    (E.map colOf).count c = (E.filter (fun e => decide (colOf e = c))).length := by
  induction E with
  | nil => rfl
  | cons e E ih =>
    rw [List.map_cons, List.count_cons, ih, List.filter_cons]
    by_cases h : colOf e = c
    · simp [h]
    · simp [h]

theorem prefixSum_indicator (x n : Nat) (hx : x < n) :
    prefixSum (fun c => if x = c then 1 else 0) n = 1 := by
  induction n with
  | zero => omega
  | succ n ih =>
    rw [prefixSum_succ]
    rcases Nat.lt_or_ge x n with hlt | hge
    · rw [ih hlt, if_neg (by omega)]
    · have hxn : x = n := by omega
      subst hxn
      have hz : prefixSum (fun c => if x = c then 1 else 0) x = 0 := by
        unfold prefixSum
        apply List.sum_eq_zero
        intro y hy
        obtain ⟨c, hc, rfl⟩ := List.mem_map.mp hy
        have := List.mem_range.mp hc
        rw [if_neg (by omega)]
      rw [hz]; simp

theorem prefixSum_add (f g : Nat → Nat) (n : Nat) :
    prefixSum (fun c => f c + g c) n = prefixSum f n + prefixSum g n := by
  induction n with
  | zero => rfl
  | succ n ih => rw [prefixSum_succ, prefixSum_succ, prefixSum_succ, ih]; omega

theorem prefixSum_filter_length (colOf : Nat × Nat → Nat) (E : List (Nat × Nat)) (n : Nat)
    (hcol : ∀ e ∈ E, colOf e < n) :
    prefixSum (fun c => (E.filter (fun e => decide (colOf e = c))).length) n = E.length := by
  induction E with
  | nil =>
    simp only [List.filter_nil, List.length_nil]
    unfold prefixSum
    apply List.sum_eq_zero
    intro y hy
    obtain ⟨c, _, rfl⟩ := List.mem_map.mp hy
    rfl
  | cons e E ih =>
    have hfun : (fun c => ((e :: E).filter (fun x => decide (colOf x = c))).length)
        = (fun c => (if colOf e = c then 1 else 0)
            + (E.filter (fun x => decide (colOf x = c))).length) := by
      funext c
      rw [List.filter_cons]
      by_cases h : colOf e = c
      · simp [h]; omega
      · simp [h]
    rw [hfun, prefixSum_add, prefixSum_indicator _ _ (hcol e (List.mem_cons_self _ _)),
      ih (fun x hx => hcol x (List.mem_cons_of_mem _ hx)), List.length_cons]
    omega

theorem visitedPositions_succ (m : Nat) (rowptr : List Nat) :
    visitedPositions (m + 1) rowptr
      = visitedPositions m rowptr ++ (rowPositions rowptr m).map (fun j => (m, j)) := by
  simp [visitedPositions, List.range_succ, List.flatMap_append]

theorem visitedPositions_mem (m : Nat) (rowptr : List Nat) (e : Nat × Nat)
    (he : e ∈ visitedPositions m rowptr) :
    e.1 < m ∧ rowptr.getD e.1 0 ≤ e.2 ∧ e.2 < rowptr.getD (e.1 + 1) 0 := by
  simp only [visitedPositions, List.mem_flatMap, List.mem_map, List.mem_range] at he
  obtain ⟨i, hi, j, hj, rfl⟩ := he
  simp only [rowPositions, List.mem_range'_1] at hj
  refine ⟨hi, hj.1, ?_⟩
  show j < rowptr.getD (i + 1) 0
  omega

theorem rowptr_chain (m : Nat) (rowptr : List Nat)
    (hmono : ∀ i : Nat, i < m → rowptr.getD i 0 ≤ rowptr.getD (i + 1) 0) (i : Nat)
    (hi : i ≤ m) : rowptr.getD i 0 ≤ rowptr.getD m 0 := by
  induction m with
  | zero => rw [Nat.le_zero.mp hi]
  | succ m ih =>
    rcases Nat.lt_or_ge i (m + 1) with hlt | hge
    · exact Nat.le_trans (ih (fun k hk => hmono k (by omega)) (by omega))
        (hmono m (by omega))
    · rw [Nat.le_antisymm hi hge]

theorem visitedPositions_length (m : Nat) (rowptr : List Nat)
    (hmono : ∀ i : Nat, i < m → rowptr.getD i 0 ≤ rowptr.getD (i + 1) 0) :
    (visitedPositions m rowptr).length + rowptr.getD 0 0 = rowptr.getD m 0 := by
  induction m with
  | zero => simp [visitedPositions]
  | succ m ih =>
    have h1 := ih (fun k hk => hmono k (by omega))
    have h2 := hmono m (by omega)
    rw [visitedPositions_succ, List.length_append, List.length_map]
    simp only [rowPositions, List.length_range']
    omega

theorem visitedPositions_rows_sorted (m : Nat) (rowptr : List Nat) :
    ((visitedPositions m rowptr).map Prod.fst).Pairwise (fun x y => x ≤ y) := by
  induction m with
  | zero => simp [visitedPositions]
  | succ m ih =>
    rw [visitedPositions_succ, List.map_append, List.pairwise_append]
    refine ⟨ih, ?_, ?_⟩
    · rw [List.map_map, List.pairwise_map]
      exact List.pairwise_of_forall (fun _ _ => Nat.le_refl m)
    · intro x hx y hy
      obtain ⟨e, he, rfl⟩ := List.mem_map.mp hx
      rw [List.map_map] at hy
      obtain ⟨j, _, rfl⟩ := List.mem_map.mp hy
      exact Nat.le_of_lt (visitedPositions_mem m rowptr e he).1

theorem CompRow.entries_eq {Sc : Type} (d : Sc) (m : Nat) (a : List Sc)
    (colind rowptr : List Nat) :
    CompRow.entries d m a colind rowptr
      = (visitedPositions m rowptr).map (fun e => (e.1, colind.getD e.2 0, a.getD e.2 d)) := by
  simp [CompRow.entries, visitedPositions, List.map_flatMap, Function.comp_def]

theorem dCompRow_to_CompCol_eq {Sc : Type} (d : Sc) (m n nnz : Nat) (a : List Sc)
    (colind rowptr : List Nat) :
    dCompRow_to_CompCol d m n nnz a colind rowptr
      = ((visitedPositions m rowptr).foldl (fun (st : CompColState Sc) e =>
          { marker := st.marker.set (colind.getD e.2 0)
              (st.marker.getD (colind.getD e.2 0) 0 + 1),
            out := { st.out with
                     at_ := st.out.at_.set (st.marker.getD (colind.getD e.2 0) 0)
                       (a.getD e.2 d),
                     rowind := st.out.rowind.set (st.marker.getD (colind.getD e.2 0) 0)
                       e.1 } })
          { marker := ((List.range n).foldl (fun (s : List Nat × List Nat) j =>
                (s.1.set (j + 1) (s.1.getD j 0 + s.2.getD j 0),
                  s.2.set j ((s.1.set (j + 1) (s.1.getD j 0 + s.2.getD j 0)).getD j 0)))
                ((List.replicate (n + 1) 0).set 0 0,
                  ((visitedPositions m rowptr).map (fun e => colind.getD e.2 0)).foldl
                    (fun mk c => mk.set c (mk.getD c 0 + 1)) (List.replicate n 0))).2,
            out := { at_ := List.replicate nnz d, rowind := List.replicate nnz 0,
                     colptr := ((List.range n).foldl (fun (s : List Nat × List Nat) j =>
                (s.1.set (j + 1) (s.1.getD j 0 + s.2.getD j 0),
                  s.2.set j ((s.1.set (j + 1) (s.1.getD j 0 + s.2.getD j 0)).getD j 0)))
                ((List.replicate (n + 1) 0).set 0 0,
                  ((visitedPositions m rowptr).map (fun e => colind.getD e.2 0)).foldl
                    (fun mk c => mk.set c (mk.getD c 0 + 1)) (List.replicate n 0))).1 } }).out
      := by
  unfold dCompRow_to_CompCol visitedPositions
  simp only [foldl_rows, List.foldl_map]

theorem column_of_segment {Sc : Type} (d : Sc) (colOf r : Nat × Nat → Nat)
    (v : Nat × Nat → Sc) (rowind : List Nat) (at_ : List Sc) (c : Nat)
    (F : List (Nat × Nat)) (b : Nat) (hF : ∀ e ∈ F, colOf e = c)
    (h : ∀ q : Nat, q < F.length →
      rowind.getD (b + q) 0 = (F.map r).getD q 0 ∧ at_.getD (b + q) d = (F.map v).getD q d) :
    (List.range' b F.length).map (fun p => (rowind.getD p 0, c, at_.getD p d))
      = F.map (fun e => (r e, colOf e, v e)) := by
  induction F generalizing b with
  | nil => rfl
  | cons e F ih =>
    have h0 := h 0 (by simp)
    simp only [Nat.add_zero, List.map_cons, List.getD_cons_zero] at h0
    rw [List.length_cons, List.range'_succ, List.map_cons, List.map_cons, h0.1, h0.2,
      hF e (List.mem_cons_self _ _)]
    congr 1
    refine ih (b + 1) (fun x hx => hF x (List.mem_cons_of_mem _ hx)) (fun q hq => ?_)
    have hq1 := h (q + 1) (by simpa using hq)
    simp only [List.map_cons, List.getD_cons_succ] at hq1
    rw [Nat.add_assoc, Nat.add_comm 1 q]
    exact hq1

/-- C28. Let `rowptr[0] = 0`, `rowptr` be non-decreasing up to `rowptr[m] = nnz`, and every
column index `colind[k]`, `k < nnz`, be below `n`. Then `dCompRow_to_CompCol` gives `colptr`
of length `n+1` with `colptr[0] = 0`, non-decreasing, `colptr[n] = nnz`, and `rowind`, `at` of
length `nnz`; column `c` of the output holds exactly the stored entries of the input that have
column index `c`, in the order of the input, so that every entry (row, column, value) is
stored as often in the output column as in the input, and the row indices inside a column do
not decrease. -/
theorem dCompRow_to_CompCol_correct {Sc : Type} [DecidableEq Sc] (d : Sc) (m n nnz : Nat)
    (a : List Sc) (colind rowptr : List Nat) (h0 : rowptr.getD 0 0 = 0)
    (hmono : ∀ i : Nat, i < m → rowptr.getD i 0 ≤ rowptr.getD (i + 1) 0)
    (hnnz : rowptr.getD m 0 = nnz) (hcol : ∀ k : Nat, k < nnz → colind.getD k 0 < n) :
    (dCompRow_to_CompCol d m n nnz a colind rowptr).colptr.length = n + 1 ∧
    (dCompRow_to_CompCol d m n nnz a colind rowptr).colptr.getD 0 0 = 0 ∧
    (∀ j : Nat, j < n →
      (dCompRow_to_CompCol d m n nnz a colind rowptr).colptr.getD j 0
        ≤ (dCompRow_to_CompCol d m n nnz a colind rowptr).colptr.getD (j + 1) 0) ∧
    (dCompRow_to_CompCol d m n nnz a colind rowptr).colptr.getD n 0 = nnz ∧
    (dCompRow_to_CompCol d m n nnz a colind rowptr).rowind.length = nnz ∧
    (dCompRow_to_CompCol d m n nnz a colind rowptr).at_.length = nnz ∧
    (∀ c : Nat, c < n →
      CompCol.column d (dCompRow_to_CompCol d m n nnz a colind rowptr) c
        = (CompRow.entries d m a colind rowptr).filter (fun e => decide (e.2.1 = c))) ∧
    (∀ e : Nat × Nat × Sc, e.2.1 < n →
      (CompCol.column d (dCompRow_to_CompCol d m n nnz a colind rowptr) e.2.1).count e
        = (CompRow.entries d m a colind rowptr).count e) ∧
    (∀ c : Nat, c < n →
      ((CompCol.column d (dCompRow_to_CompCol d m n nnz a colind rowptr) c).map
        (fun e => e.1)).Pairwise (fun x y => x ≤ y)) := by
  have hEcol : ∀ e ∈ visitedPositions m rowptr, colind.getD e.2 0 < n := by
    intro e he
    obtain ⟨h1, _, h3⟩ := visitedPositions_mem m rowptr e he
    have := rowptr_chain m rowptr hmono (e.1 + 1) h1
    exact hcol e.2 (by omega)
  have hElen : (visitedPositions m rowptr).length = nnz := by
    have := visitedPositions_length m rowptr hmono
    omega
  have hm1l : (((visitedPositions m rowptr).map (fun e => colind.getD e.2 0)).foldl
      (fun mk c => mk.set c (mk.getD c 0 + 1)) (List.replicate n 0)).length = n := by
    rw [count_loop_length, List.length_replicate]
  have hm1 : ∀ c : Nat, c < n →
      (((visitedPositions m rowptr).map (fun e => colind.getD e.2 0)).foldl
        (fun mk c => mk.set c (mk.getD c 0 + 1)) (List.replicate n 0)).getD c 0
      = ((visitedPositions m rowptr).filter
          (fun e => decide (colind.getD e.2 0 = c))).length := by
    intro c hc
    rw [count_loop_getD _ _ c (by rw [List.length_replicate]; exact hc),
      count_map_eq_filter_length]
    simp [List.getD_eq_getElem?_getD, hc]
  obtain ⟨p1, p2, p3, p4, -⟩ := prefix_loop_aux
    (fun c => ((visitedPositions m rowptr).filter
      (fun e => decide (colind.getD e.2 0 = c))).length) n
    ((List.replicate (n + 1) 0).set 0 0) _ (by simp) hm1l
    (by simp [List.getD_eq_getElem?_getD]) hm1 n (Nat.le_refl n)
  have hbase_n : prefixSum (fun c => ((visitedPositions m rowptr).filter
      (fun e => decide (colind.getD e.2 0 = c))).length) n = nnz := by
    rw [prefixSum_filter_length (fun e => colind.getD e.2 0) _ n hEcol, hElen]
  obtain ⟨t1, t2, t3, t4⟩ := transfer_loop_aux d n nnz (fun e => colind.getD e.2 0) Prod.fst
    (fun e => a.getD e.2 d)
    (prefixSum (fun c => ((visitedPositions m rowptr).filter
      (fun e => decide (colind.getD e.2 0 = c))).length))
    (visitedPositions m rowptr) hEcol
    (fun c _ => by rw [prefixSum_succ])
    (fun c c2 h => prefixSum_mono _ c c2 h) (Nat.le_of_eq hbase_n)
    (visitedPositions m rowptr) [] rfl
    { marker := ((List.range n).foldl (fun (s : List Nat × List Nat) j =>
          (s.1.set (j + 1) (s.1.getD j 0 + s.2.getD j 0),
            s.2.set j ((s.1.set (j + 1) (s.1.getD j 0 + s.2.getD j 0)).getD j 0)))
          ((List.replicate (n + 1) 0).set 0 0,
            ((visitedPositions m rowptr).map (fun e => colind.getD e.2 0)).foldl
              (fun mk c => mk.set c (mk.getD c 0 + 1)) (List.replicate n 0))).2,
      out := { at_ := List.replicate nnz d, rowind := List.replicate nnz 0,
               colptr := ((List.range n).foldl (fun (s : List Nat × List Nat) j =>
          (s.1.set (j + 1) (s.1.getD j 0 + s.2.getD j 0),
            s.2.set j ((s.1.set (j + 1) (s.1.getD j 0 + s.2.getD j 0)).getD j 0)))
          ((List.replicate (n + 1) 0).set 0 0,
            ((visitedPositions m rowptr).map (fun e => colind.getD e.2 0)).foldl
              (fun mk c => mk.set c (mk.getD c 0 + 1)) (List.replicate n 0))).1 } }
    ⟨p2, by simp, by simp⟩
    (fun c hc => by simpa using p4 c hc)
    (fun c _ q hq => by simp at hq)
  rw [dCompRow_to_CompCol_eq]
  have hcolumn : ∀ c : Nat, c < n →
      CompCol.column d ((visitedPositions m rowptr).foldl (fun (st : CompColState Sc) e =>
          { marker := st.marker.set (colind.getD e.2 0)
              (st.marker.getD (colind.getD e.2 0) 0 + 1),
            out := { st.out with
                     at_ := st.out.at_.set (st.marker.getD (colind.getD e.2 0) 0)
                       (a.getD e.2 d),
                     rowind := st.out.rowind.set (st.marker.getD (colind.getD e.2 0) 0)
                       e.1 } })
          { marker := ((List.range n).foldl (fun (s : List Nat × List Nat) j =>
                (s.1.set (j + 1) (s.1.getD j 0 + s.2.getD j 0),
                  s.2.set j ((s.1.set (j + 1) (s.1.getD j 0 + s.2.getD j 0)).getD j 0)))
                ((List.replicate (n + 1) 0).set 0 0,
                  ((visitedPositions m rowptr).map (fun e => colind.getD e.2 0)).foldl
                    (fun mk c => mk.set c (mk.getD c 0 + 1)) (List.replicate n 0))).2,
            out := { at_ := List.replicate nnz d, rowind := List.replicate nnz 0,
                     colptr := ((List.range n).foldl (fun (s : List Nat × List Nat) j =>
                (s.1.set (j + 1) (s.1.getD j 0 + s.2.getD j 0),
                  s.2.set j ((s.1.set (j + 1) (s.1.getD j 0 + s.2.getD j 0)).getD j 0)))
                ((List.replicate (n + 1) 0).set 0 0,
                  ((visitedPositions m rowptr).map (fun e => colind.getD e.2 0)).foldl
                    (fun mk c => mk.set c (mk.getD c 0 + 1)) (List.replicate n 0))).1 } }).out c
        = (CompRow.entries d m a colind rowptr).filter (fun e => decide (e.2.1 = c)) := by
    intro c hc
    rw [CompRow.entries_eq, List.filter_map]
    unfold CompCol.column
    rw [t1]
    simp only []
    rw [p3 c (Nat.le_of_lt hc), p3 (c + 1) hc, prefixSum_succ, Nat.add_sub_cancel_left]
    exact column_of_segment d (fun e => colind.getD e.2 0) Prod.fst (fun e => a.getD e.2 d)
      _ _ c _ _ (fun e he => of_decide_eq_true (List.mem_filter.mp he).2) (t4 c hc)
  refine ⟨by rw [t1]; exact p1, by rw [t1, p3 0 (Nat.zero_le n)]; rfl, ?_, ?_, t2, t3,
    hcolumn, ?_, ?_⟩
  · intro j hj
    rw [t1]
    simp only []
    rw [p3 j (Nat.le_of_lt hj), p3 (j + 1) hj]
    exact prefixSum_mono _ _ _ (Nat.le_succ j)
  · rw [t1]
    simp only []
    rw [p3 n (Nat.le_refl n), hbase_n]
  · intro e he
    rw [hcolumn e.2.1 he, List.count_filter (by simp)]
  · intro c hc
    rw [hcolumn c hc, CompRow.entries_eq, List.filter_map, List.map_map]
    have hs := visitedPositions_rows_sorted m rowptr
    rw [List.pairwise_map] at hs ⊢
    exact hs.sublist (List.filter_sublist _)

/-- Witness of C28: the 3 x 3 matrix with rows `(0:10, 2:20)`, `(1:30)`, `(0:40, 2:50)`;
its column 0 holds the entries of rows 0 and 2, in this order. -/
theorem dCompRow_to_CompCol_correct_witness :
    ([0, 2, 3, 5] : List Nat).getD 0 0 = 0 ∧ ([0, 2, 3, 5] : List Nat).getD 3 0 = 5 ∧
    (dCompRow_to_CompCol (0 : Int) 3 3 5 [10, 20, 30, 40, 50] [0, 2, 1, 0, 2]
      [0, 2, 3, 5]).colptr.getD 3 0 = 5 ∧
    CompCol.column (0 : Int) (dCompRow_to_CompCol (0 : Int) 3 3 5 [10, 20, 30, 40, 50]
      [0, 2, 1, 0, 2] [0, 2, 3, 5]) 0 = [(0, 0, 10), (2, 0, 40)] :=
  ⟨rfl, rfl,
   (dCompRow_to_CompCol_correct (0 : Int) 3 3 5 [10, 20, 30, 40, 50] [0, 2, 1, 0, 2]
      [0, 2, 3, 5] rfl (by decide) rfl (by decide)).2.2.2.1,
   ((dCompRow_to_CompCol_correct (0 : Int) 3 3 5 [10, 20, 30, 40, 50] [0, 2, 1, 0, 2]
      [0, 2, 3, 5] rfl (by decide) rfl (by decide)).2.2.2.2.2.2.1 0 (by decide)).trans
      (by decide)⟩

/-! ## The Hermitian product of `ex127.c` -/

theorem inner_fold {K : Type} [AddCommMonoid K] (J : List Nat) (f : Nat → K)
    (idx : Nat → Nat) (w : Nat → K) (s0 : K) (z : List K) :
    J.foldl (fun (t : K × List K) j =>
        (t.1 + f j, t.2.set (idx j) (t.2.getD (idx j) 0 + w j))) (s0, z)
      = (s0 + (J.map f).sum,
          (J.map (fun j => (idx j, w j))).foldl
            (fun (z : List K) (u : Nat × K) => z.set u.1 (z.getD u.1 0 + u.2)) z) := by
  induction J generalizing s0 z with
  | nil => simp
  | cons j J ih =>
    rw [List.foldl_cons, ih, List.map_cons, List.sum_cons, List.map_cons, List.foldl_cons,
      add_assoc]

theorem updates_length {K : Type} [AddCommMonoid K] (U : List (Nat × K)) (z : List K) :
    (U.foldl (fun (z : List K) (u : Nat × K) => z.set u.1 (z.getD u.1 0 + u.2)) z).length
      = z.length := by
  induction U generalizing z with
  | nil => rfl
  | cons u U ih => rw [List.foldl_cons, ih, List.length_set]

theorem updates_getD {K : Type} [AddCommMonoid K] (U : List (Nat × K)) (z : List K) (r : Nat)
    (hr : r < z.length) :
    (U.foldl (fun (z : List K) (u : Nat × K) => z.set u.1 (z.getD u.1 0 + u.2)) z).getD r 0
      = z.getD r 0 + ((U.filter (fun u => decide (u.1 = r))).map Prod.snd).sum := by
  induction U generalizing z with
  | nil => simp
  | cons u U ih =>
    rw [List.foldl_cons, ih _ (by rw [List.length_set]; exact hr), List.filter_cons]
    by_cases h : u.1 = r
    · subst h
      rw [getD_set_self _ _ _ _ hr]
      simp [add_assoc]
    · rw [getD_set_ne _ _ _ _ _ h]
      simp [h]

theorem hermitian_rows {K : Type} [Semiring K] [StarRing K] (A : Mat_SeqSBAIJ K)
    (x z : List K) (hi0 : A.i.getD 0 0 = 0)
    (hrow : ∀ r : Nat, r < A.mbs → A.i.getD r 0 < A.i.getD (r + 1) 0) (m : Nat)
    (hm : m ≤ A.mbs) :
    (List.range m).foldl (fun (s : List K × Nat) i =>
      (((List.range' 1 (A.i.getD (i + 1) 0 - A.i.getD i 0 - 1)).foldl
          (fun (t : K × List K) j =>
            (t.1 + A.a.getD (s.2 + j) 0 * x.getD (A.j.getD (s.2 + j) 0) 0,
              t.2.set (A.j.getD (s.2 + j) 0)
                (t.2.getD (A.j.getD (s.2 + j) 0) 0
                  + PetscConj (A.a.getD (s.2 + j) 0) * x.getD i 0)))
          (A.a.getD s.2 0 * x.getD i 0, s.1)).2.set i
        (((List.range' 1 (A.i.getD (i + 1) 0 - A.i.getD i 0 - 1)).foldl
          (fun (t : K × List K) j =>
            (t.1 + A.a.getD (s.2 + j) 0 * x.getD (A.j.getD (s.2 + j) 0) 0,
              t.2.set (A.j.getD (s.2 + j) 0)
                (t.2.getD (A.j.getD (s.2 + j) 0) 0
                  + PetscConj (A.a.getD (s.2 + j) 0) * x.getD i 0)))
          (A.a.getD s.2 0 * x.getD i 0, s.1)).2.getD i 0
          + ((List.range' 1 (A.i.getD (i + 1) 0 - A.i.getD i 0 - 1)).foldl
          (fun (t : K × List K) j =>
            (t.1 + A.a.getD (s.2 + j) 0 * x.getD (A.j.getD (s.2 + j) 0) 0,
              t.2.set (A.j.getD (s.2 + j) 0)
                (t.2.getD (A.j.getD (s.2 + j) 0) 0
                  + PetscConj (A.a.getD (s.2 + j) 0) * x.getD i 0)))
          (A.a.getD s.2 0 * x.getD i 0, s.1)).1),
        s.2 + (A.i.getD (i + 1) 0 - A.i.getD i 0))) (z, 0)
    = (((List.range m).flatMap (hermitianRowUpdates A x)).foldl
        (fun (z : List K) (u : Nat × K) => z.set u.1 (z.getD u.1 0 + u.2)) z,
       A.i.getD m 0) := by
  induction m with
  | zero =>
    simp only [List.range_zero, List.foldl_nil, List.flatMap_nil]
    rw [hi0]
  | succ m ih =>
    rw [List.range_succ, List.foldl_append, ih (Nat.le_of_succ_le hm)]
    simp only [List.foldl_cons, List.foldl_nil, PetscConj]
    rw [inner_fold (List.range' 1 (A.i.getD (m + 1) 0 - A.i.getD m 0 - 1))
      (fun j => A.a.getD (A.i.getD m 0 + j) 0 * x.getD (A.j.getD (A.i.getD m 0 + j) 0) 0)
      (fun j => A.j.getD (A.i.getD m 0 + j) 0)
      (fun j => star (A.a.getD (A.i.getD m 0 + j) 0) * x.getD m 0)]
    have hlt := hrow m hm
    rw [List.flatMap_append, List.foldl_append]
    simp only [List.flatMap_cons, List.flatMap_nil, List.append_nil]
    rw [hermitianRowUpdates, List.foldl_append]
    simp only [List.foldl_cons, List.foldl_nil]
    congr 1
    omega

theorem sumRange_succ {K : Type} [AddCommMonoid K] (f : Nat → K) (n : Nat) :
    sumRange f (n + 1) = sumRange f n + f n := by
  simp [sumRange, List.range_succ]

theorem sumRange_add {K : Type} [AddCommMonoid K] (f g : Nat → K) (n : Nat) :
    sumRange (fun c => f c + g c) n = sumRange f n + sumRange g n := by
  unfold sumRange
  exact List.sum_map_add

theorem sumRange_congr {K : Type} [AddCommMonoid K] (f g : Nat → K) (n : Nat)
    (h : ∀ c : Nat, c < n → f c = g c) : sumRange f n = sumRange g n := by
  unfold sumRange
  congr 1
  exact List.map_congr_left (fun c hc => h c (List.mem_range.mp hc))

theorem sumRange_zero {K : Type} [AddCommMonoid K] (f : Nat → K) (n : Nat)
    (h : ∀ c : Nat, c < n → f c = 0) : sumRange f n = 0 := by
  induction n with
  | zero => rfl
  | succ n ih =>
    rw [sumRange_succ, ih (fun c hc => h c (by omega)), h n (by omega), add_zero]

theorem sumRange_indicator {K : Type} [AddCommMonoid K] (w : Nat → K) (j n : Nat)
    (hj : j < n) : sumRange (fun c => if j = c then w c else 0) n = w j := by
  induction n with
  | zero => omega
  | succ n ih =>
    rw [sumRange_succ]
    rcases Nat.lt_or_ge j n with hlt | hge
    · rw [ih hlt, if_neg (by omega), add_zero]
    · have hjn : j = n := by omega
      subst hjn
      rw [sumRange_zero _ _ (fun c hc => if_neg (by omega)), if_pos rfl, zero_add]

theorem sum_grouped_by_column {K : Type} [Semiring K] (S : List Nat) (col : Nat → Nat)
    (val xv : Nat → K) (n : Nat) (h : ∀ k ∈ S, col k < n) :
    (S.map (fun k => val k * xv (col k))).sum
      = sumRange (fun c => ((S.filter (fun k => decide (col k = c))).map val).sum * xv c)
          n := by
  induction S with
  | nil =>
    simp only [List.map_nil, List.sum_nil, List.filter_nil]
    exact (sumRange_zero _ _ (fun c _ => zero_mul _)).symm
  | cons k S ih =>
    have hfun : (fun c => (((k :: S).filter (fun k => decide (col k = c))).map val).sum * xv c)
        = (fun c => (if col k = c then val k * xv c else 0)
            + ((S.filter (fun k => decide (col k = c))).map val).sum * xv c) := by
      funext c
      rw [List.filter_cons]
      by_cases hc : col k = c
      · simp [hc, add_mul]
      · simp [hc]
    rw [hfun, sumRange_add, sumRange_indicator (fun c => val k * xv c) (col k) n
      (h k (List.mem_cons_self _ _)), List.map_cons, List.sum_cons,
      ih (fun x hx => h x (List.mem_cons_of_mem _ hx))]

theorem sum_filter_flatMap {K : Type} [AddCommMonoid K] (L : List Nat)
    (g : Nat → List (Nat × K)) (r : Nat) :
    (((L.flatMap g).filter (fun u => decide (u.1 = r))).map Prod.snd).sum
      = (L.map (fun i => (((g i).filter (fun u => decide (u.1 = r))).map Prod.snd).sum)).sum
      := by
  induction L with
  | nil => rfl
  | cons i L ih =>
    rw [List.flatMap_cons, List.filter_append, List.map_append, List.sum_append, ih,
      List.map_cons, List.sum_cons]

theorem star_list_sum {K : Type} [Semiring K] [StarRing K] (l : List K) :
    star l.sum = (l.map star).sum := by
  induction l with
  | nil => simp
  | cons a l ih => rw [List.sum_cons, star_add, ih, List.map_cons, List.sum_cons]

theorem strict_eq_map {K : Type} (A : Mat_SeqSBAIJ K) (r : Nat) :
    A.strict r = (List.range' 1 (A.i.getD (r + 1) 0 - A.i.getD r 0 - 1)).map
      (fun j => A.i.getD r 0 + j) := by
  unfold Mat_SeqSBAIJ.strict
  rw [List.map_add_range']

theorem row_updates_sum {K : Type} [Semiring K] [StarRing K] (A : Mat_SeqSBAIJ K)
    (x : List K) (i r : Nat) :
    (((hermitianRowUpdates A x i).filter (fun u => decide (u.1 = r))).map Prod.snd).sum
      = star (A.upper i r) * x.getD i 0
        + (if r = i then A.a.getD (A.i.getD i 0) 0 * x.getD i 0
            + ((A.strict i).map (fun k => A.a.getD k 0 * x.getD (A.j.getD k 0) 0)).sum
           else 0) := by
  unfold hermitianRowUpdates Mat_SeqSBAIJ.upper
  rw [List.filter_append, List.map_append, List.sum_append, star_list_sum, strict_eq_map]
  congr 1
  · rw [List.filter_map, List.filter_map, List.map_map, List.map_map, List.map_map,
      ← List.sum_map_mul_right]
    rfl
  · by_cases h : r = i
    · subst h
      rw [if_pos rfl, List.map_map]
      simp [Function.comp_def]
    · have h2 : ¬ i = r := fun e => h e.symm
      simp [h, h2]

theorem hermitian_product_stored {K : Type} [Semiring K] [StarRing K] (A : Mat_SeqSBAIJ K)
    (x zz : List K) (hz : zz.length = A.mbs) (hi0 : A.i.getD 0 0 = 0)
    (hrow : ∀ r : Nat, r < A.mbs → A.i.getD r 0 < A.i.getD (r + 1) 0)
    (hcol : ∀ r : Nat, r < A.mbs → ∀ k ∈ A.strict r, A.j.getD k 0 < A.mbs) :
    (MatMult_SeqSBAIJ_1_Hermitian_tmp A x zz).length = A.mbs ∧
    ∀ r : Nat, r < A.mbs →
      (MatMult_SeqSBAIJ_1_Hermitian_tmp A x zz).getD r 0
        = sumRange (fun c => ((if r = c then A.a.getD (A.i.getD c 0) 0 else 0)
            + A.upper r c + star (A.upper c r)) * x.getD c 0) A.mbs := by
  have h := hermitian_rows A x (VecSet (0 : K) zz) hi0 hrow A.mbs (Nat.le_refl _)
  have e : MatMult_SeqSBAIJ_1_Hermitian_tmp A x zz
      = ((List.range A.mbs).flatMap (hermitianRowUpdates A x)).foldl
        (fun (z : List K) (u : Nat × K) => z.set u.1 (z.getD u.1 0 + u.2))
        (VecSet (0 : K) zz) := congrArg Prod.fst h
  have hzl : (VecSet (0 : K) zz).length = A.mbs := by simp [VecSet, hz]
  refine ⟨by rw [e, updates_length, hzl], fun r hr => ?_⟩
  have hz0 : (VecSet (0 : K) zz).getD r 0 = 0 := by
    simp [VecSet, List.getD_eq_getElem?_getD, hz, hr]
  rw [e, updates_getD _ _ r (by rw [hzl]; exact hr), hz0, zero_add, sum_filter_flatMap]
  have hrows : (List.range A.mbs).map (fun i =>
        (((hermitianRowUpdates A x i).filter (fun u => decide (u.1 = r))).map Prod.snd).sum)
      = (List.range A.mbs).map (fun i => star (A.upper i r) * x.getD i 0
        + (if r = i then A.a.getD (A.i.getD i 0) 0 * x.getD i 0
            + ((A.strict i).map (fun k => A.a.getD k 0 * x.getD (A.j.getD k 0) 0)).sum
           else 0)) :=
    List.map_congr_left (fun i _ => row_updates_sum A x i r)
  rw [hrows]
  change sumRange (fun i => star (A.upper i r) * x.getD i 0
        + (if r = i then A.a.getD (A.i.getD i 0) 0 * x.getD i 0
            + ((A.strict i).map (fun k => A.a.getD k 0 * x.getD (A.j.getD k 0) 0)).sum
           else 0)) A.mbs = _
  rw [sumRange_add, sumRange_indicator (fun i => A.a.getD (A.i.getD i 0) 0 * x.getD i 0
      + ((A.strict i).map (fun k => A.a.getD k 0 * x.getD (A.j.getD k 0) 0)).sum) r A.mbs hr,
    sum_grouped_by_column (A.strict r) (fun k => A.j.getD k 0) (fun k => A.a.getD k 0)
      (fun c => x.getD c 0) A.mbs (hcol r hr)]
  have hrhs : (fun c => ((if r = c then A.a.getD (A.i.getD c 0) 0 else 0)
        + A.upper r c + star (A.upper c r)) * x.getD c 0)
      = (fun c => ((if r = c then A.a.getD (A.i.getD c 0) 0 * x.getD c 0 else 0)
          + A.upper r c * x.getD c 0) + star (A.upper c r) * x.getD c 0) := by
    funext c
    by_cases hc : r = c
    · simp [hc, add_mul]
    · simp [hc, add_mul]
  rw [hrhs, sumRange_add, sumRange_add,
    sumRange_indicator (fun c => A.a.getD (A.i.getD c 0) 0 * x.getD c 0) r A.mbs hr]
  unfold Mat_SeqSBAIJ.upper
  rw [add_comm]

theorem upper_eq_zero {K : Type} [AddCommMonoid K] (A : Mat_SeqSBAIJ K) (r c : Nat)
    (h : ∀ k ∈ A.strict r, r < A.j.getD k 0) (hc : c ≤ r) : A.upper r c = 0 := by
  unfold Mat_SeqSBAIJ.upper
  have hnil : (A.strict r).filter (fun k => decide (A.j.getD k 0 = c)) = [] := by
    rw [List.filter_eq_nil_iff]
    intro k hk
    have := h k hk
    simp only [decide_eq_true_eq]
    omega
  rw [hnil]
  rfl

/-- C27. Let `M` be a Hermitian matrix of order `mbs` over a ring with conjugation, stored as
its upper triangle: the row pointers start at `0` and every row has at least its first
entry, which holds the diagonal entry `M r r`; the later entries of row `r` have column
indices above `r` and below `mbs`; and for `r < c` the entry `M r c` is the one stored for
column `c` in row `r`, or `0` when none is stored. Then for every `x`, and `zz` of length
`mbs`, `MatMult_SeqSBAIJ_1_Hermitian_tmp` leaves in `zz` the full product:
`z[r] = M r 0 * x[0] + ... + M r (mbs-1) * x[mbs-1]` for every row `r`. -/
theorem MatMult_Hermitian_eq_full {K : Type} [Semiring K] [StarRing K] (A : Mat_SeqSBAIJ K)
    (M : Nat → Nat → K) (x zz : List K) (hz : zz.length = A.mbs)
    (hi0 : A.i.getD 0 0 = 0)
    (hrow : ∀ r : Nat, r < A.mbs → A.i.getD r 0 < A.i.getD (r + 1) 0)
    (htri : ∀ r : Nat, r < A.mbs → ∀ k ∈ A.strict r,
      r < A.j.getD k 0 ∧ A.j.getD k 0 < A.mbs)
    (hdiag : ∀ r : Nat, r < A.mbs → M r r = A.a.getD (A.i.getD r 0) 0)
    (hupper : ∀ r c : Nat, r < c → c < A.mbs → M r c = A.upper r c)
    (hherm : ∀ r c : Nat, r < A.mbs → c < A.mbs → M c r = star (M r c)) :
    (MatMult_SeqSBAIJ_1_Hermitian_tmp A x zz).length = A.mbs ∧
    ∀ r : Nat, r < A.mbs →
      (MatMult_SeqSBAIJ_1_Hermitian_tmp A x zz).getD r 0
        = sumRange (fun c => M r c * x.getD c 0) A.mbs := by
  obtain ⟨hlen, hrows⟩ := hermitian_product_stored A x zz hz hi0 hrow
    (fun r hr k hk => (htri r hr k hk).2)
  refine ⟨hlen, fun r hr => ?_⟩
  rw [hrows r hr]
  apply sumRange_congr
  intro c hc
  congr 1
  rcases Nat.lt_trichotomy r c with hlt | heq | hgt
  · rw [if_neg (Nat.ne_of_lt hlt), zero_add,
      upper_eq_zero A c r (fun k hk => (htri c hc k hk).1) (Nat.le_of_lt hlt), star_zero,
      add_zero, hupper r c hlt hc]
  · subst heq
    rw [if_pos rfl, upper_eq_zero A r r (fun k hk => (htri r hr k hk).1) (Nat.le_refl r),
      star_zero, add_zero, add_zero, hdiag r hr]
  · rw [if_neg (Nat.ne_of_gt hgt),
      upper_eq_zero A r c (fun k hk => (htri r hr k hk).1) (Nat.le_of_lt hgt), zero_add,
      zero_add, hherm c r hc hr, hupper c r hgt hr]

/-- Witness of C27: the matrix `[[2, i, 0], [-i, 3, 1+i], [0, 1-i, 4]]` over the Gaussian
integers and `x = [1, i, 1+i]`; row 1 of the result is `-i*1 + 3*i + (1+i)*(1+i) = 4i`. -/
theorem MatMult_Hermitian_eq_full_witness :
    ([⟨7, 7⟩, ⟨7, 7⟩, ⟨7, 7⟩] : List GaussianInt).length = hermitianExample.mbs ∧
    (MatMult_SeqSBAIJ_1_Hermitian_tmp hermitianExample [⟨1, 0⟩, ⟨0, 1⟩, ⟨1, 1⟩]
      [⟨7, 7⟩, ⟨7, 7⟩, ⟨7, 7⟩]).getD 1 0
      = sumRange (fun c => hermitianDense 1 c
          * ([⟨1, 0⟩, ⟨0, 1⟩, ⟨1, 1⟩] : List GaussianInt).getD c 0) 3 ∧
    sumRange (fun c => hermitianDense 1 c
      * ([⟨1, 0⟩, ⟨0, 1⟩, ⟨1, 1⟩] : List GaussianInt).getD c 0) 3 = ⟨0, 4⟩ := by
  have hupper : ∀ r c : Nat, r < c → c < hermitianExample.mbs →
      hermitianDense r c = hermitianExample.upper r c := by
    intro r c hrc hc
    have hc3 : c < 3 := hc
    interval_cases c <;> interval_cases r <;> decide
  have hherm : ∀ r c : Nat, r < hermitianExample.mbs → c < hermitianExample.mbs →
      hermitianDense c r = star (hermitianDense r c) := by
    intro r c hr hc
    have hr3 : r < 3 := hr
    have hc3 : c < 3 := hc
    interval_cases r <;> interval_cases c <;> decide
  refine ⟨rfl, (MatMult_Hermitian_eq_full hermitianExample hermitianDense
    [⟨1, 0⟩, ⟨0, 1⟩, ⟨1, 1⟩] [⟨7, 7⟩, ⟨7, 7⟩, ⟨7, 7⟩] rfl rfl (by decide) (by decide)
    (by decide) hupper hherm).2 1 (by decide), by decide⟩

end PETSc
